import Mathlib

/-!
Chunk-tree recovery (cmds-chunk.c): record store, scanner, cross-check, rebuild.

A shallow embedding of the chunk-recover pipeline of `cmds-chunk.c`.
Machine integers are natural numbers (reduced modulo `2^64` where the source
can wrap), status codes are integers, and a routine that can abort on
`BUG_ON` or loop returns an `Option`.

Definitions come first, theorems follow.
-/

namespace ChunkRecover

/-! ## Status codes -/

/-- The errno value ENOENT. -/
def ENOENT : Int := 2

/-- The errno value EIO. -/
def EIO : Int := 5

/-- The errno value ENOMEM. -/
def ENOMEM : Int := 12

/-- The errno value EEXIST. -/
def EEXIST : Int := 17

/-- The errno value EINVAL. -/
def EINVAL : Int := 22

/-! ## Records -/

/-- Modelled from the spec: the index node `struct cache_extent` of extent-cache.h
(absent from the sources): an interval `[start, start + size)` and, for device
extents, the device id it lives on. -/
structure cache_extent where
  objectid : Nat
  start : Nat
  size : Nat
deriving DecidableEq, Repr

/-- Modelled from the spec: `struct stripe` of btrfsck.h (absent): one
`(device-id, physical offset, device-uuid)` leg of a chunk. The 16-byte uuid is
kept as one number. -/
structure stripe where
  devid : Nat
  offset : Nat
  dev_uuid : Nat
deriving DecidableEq, Repr, Inhabited

/-- Modelled from the spec: `struct chunk_record` of btrfsck.h (absent), the
ChunkRecord of the data model, holding the fields from `generation` onward that
cmds-chunk.c reads. The index node and the list links, which precede
`generation`, are not part of the compared content; the index node is
`chunk_record.cache`. -/
structure chunk_record where
  generation : Nat
  offset : Nat
  owner : Nat
  length : Nat
  type_flags : Nat
  stripe_len : Nat
  num_stripes : Nat
  sub_stripes : Nat
  io_align : Nat
  io_width : Nat
  sector_size : Nat
  stripes : List stripe
deriving DecidableEq, Repr

/-- Modelled from the spec: `struct block_group_record` of btrfsck.h (absent),
the BlockGroupRecord of the data model: object id (the chunk's logical offset),
`offset` (the length), flags and generation. -/
structure block_group_record where
  generation : Nat
  objectid : Nat
  offset : Nat
  flags : Nat
deriving DecidableEq, Repr

/-- Modelled from the spec: `struct device_extent_record` of btrfsck.h (absent),
the DeviceExtentRecord of the data model: device id (`objectid`), physical
offset, referenced chunk offset, length and generation. -/
structure device_extent_record where
  generation : Nat
  objectid : Nat
  offset : Nat
  chunk_offset : Nat
  length : Nat
deriving DecidableEq, Repr

/-- Modelled from the spec: btrfs_new_chunk_record (absent) indexes a chunk
record by its logical offset and length. -/
def chunk_record.cache (r : chunk_record) : cache_extent :=
  { objectid := 0, start := r.offset, size := r.length }

/-- Modelled from the spec: btrfs_new_block_group_record (absent) indexes a
block group by its object id and length. -/
def block_group_record.cache (r : block_group_record) : cache_extent :=
  { objectid := 0, start := r.objectid, size := r.offset }

/-- Modelled from the spec: btrfs_new_device_extent_record (absent) indexes a
device extent by `(device id, physical offset)` and length. -/
def device_extent_record.cache (r : device_extent_record) : cache_extent :=
  { objectid := r.objectid, start := r.offset, size := r.length }

/-! ## The cache tree (extent-cache.c is absent) -/

/-- Modelled from the spec: two intervals collide if they cover the same byte,
that is when the larger start lies below the smaller end. -/
def extents_collide (start size start2 size2 : Nat) : Bool :=
  decide (max start start2 < min (start + size) (start2 + size2))

/-- Modelled from the spec: a `struct cache_tree` of extent-cache.c (absent) is
the collection of the records indexed in it. -/
abbrev cache_tree (α : Type) := List α

/-- Modelled from the spec: lookup_cache_extent of extent-cache.c (absent)
locates any existing record whose interval collides with `[start, start+size)`;
here the first such record of the collection. -/
def lookup_cache_extent {α : Type} (cache : α → cache_extent) (tree : cache_tree α)
    (start size : Nat) : Option α :=
  tree.find? (fun e => extents_collide (cache e).start (cache e).size start size)

/-- Modelled from the spec: lookup_cache_extent2 of extent-cache.c (absent), the
lookup of the device-extent container: same device id and colliding physical
range. -/
def lookup_cache_extent2 {α : Type} (cache : α → cache_extent) (tree : cache_tree α)
    (objectid start size : Nat) : Option α :=
  tree.find? (fun e => decide ((cache e).objectid = objectid) &&
    extents_collide (cache e).start (cache e).size start size)

/-- Modelled from the spec: remove_cache_extent of extent-cache.c (absent)
unlinks one record from the index. -/
def remove_cache_extent {α : Type} [DecidableEq α] (tree : cache_tree α) (e : α) :
    cache_tree α :=
  tree.erase e

/-- Modelled from the spec: insert_cache_extent of extent-cache.c (absent) adds
the record unless its interval collides with a stored one, which is reported as
-EEXIST. -/
def insert_cache_extent {α : Type} (cache : α → cache_extent) (tree : cache_tree α)
    (rec : α) : Int × cache_tree α :=
  match lookup_cache_extent cache tree (cache rec).start (cache rec).size with
  | some _ => (-EEXIST, tree)
  | none => (0, tree ++ [rec])

/-- Modelled from the spec: insert_cache_extent2 of extent-cache.c (absent), the
insertion into the device-extent container. -/
def insert_cache_extent2 {α : Type} (cache : α → cache_extent) (tree : cache_tree α)
    (rec : α) : Int × cache_tree α :=
  match lookup_cache_extent2 cache tree (cache rec).objectid (cache rec).start
      (cache rec).size with
  | some _ => (-EEXIST, tree)
  | none => (0, tree ++ [rec])

/-- Modelled from the spec: `struct block_group_tree` of btrfsck.h (absent): the
index and the list of block groups not yet claimed by a chunk. -/
structure block_group_tree where
  tree : cache_tree block_group_record
  block_groups : List block_group_record
deriving DecidableEq, Repr

/-- Modelled from the spec: `struct device_extent_tree` of btrfsck.h (absent):
the index and the two lists of device extents not yet claimed by a chunk or a
device. -/
structure device_extent_tree where
  tree : cache_tree device_extent_record
  no_chunk_orphans : List device_extent_record
  no_device_orphans : List device_extent_record
deriving DecidableEq, Repr

/-- Modelled from the spec: insert_block_group_record (absent) indexes the
record and, when that succeeds, links it at the tail of the block-group list. -/
def insert_block_group_record (bg_cache : block_group_tree) (rec : block_group_record) :
    Int × block_group_tree :=
  match insert_cache_extent block_group_record.cache bg_cache.tree rec with
  | (ret, tree) =>
    if ret ≠ 0 then (ret, bg_cache)
    else (0, { tree := tree, block_groups := bg_cache.block_groups ++ [rec] })

/-- Modelled from the spec: insert_device_extent_record (absent) indexes the
record and, when that succeeds, links it at the tail of both orphan lists. -/
def insert_device_extent_record (devext_cache : device_extent_tree)
    (rec : device_extent_record) : Int × device_extent_tree :=
  match insert_cache_extent2 device_extent_record.cache devext_cache.tree rec with
  | (ret, tree) =>
    if ret ≠ 0 then (ret, devext_cache)
    else (0, { tree := tree,
               no_chunk_orphans := devext_cache.no_chunk_orphans ++ [rec],
               no_device_orphans := devext_cache.no_device_orphans ++ [rec] })

/-! ## Record Store submission routines -/

/-- The `memcmp` of process_block_group_item: whether two block-group records
differ from the `generation` field onward. -/
def block_group_record_memcmp (exist rec : block_group_record) : Bool :=
  !(decide (exist.generation = rec.generation) && decide (exist.objectid = rec.objectid) &&
    decide (exist.offset = rec.offset) && decide (exist.flags = rec.flags))

/-- The `memcmp` of process_chunk_item over `rec_size - offset` bytes: whether
two chunk records differ from the `generation` field onward, the stripe array
being compared over the candidate's `num_stripes` entries. -/
def chunk_record_memcmp (exist rec : chunk_record) : Bool :=
  !(decide (exist.generation = rec.generation) && decide (exist.offset = rec.offset) &&
    decide (exist.owner = rec.owner) && decide (exist.length = rec.length) &&
    decide (exist.type_flags = rec.type_flags) &&
    decide (exist.stripe_len = rec.stripe_len) &&
    decide (exist.num_stripes = rec.num_stripes) &&
    decide (exist.sub_stripes = rec.sub_stripes) &&
    decide (exist.io_align = rec.io_align) && decide (exist.io_width = rec.io_width) &&
    decide (exist.sector_size = rec.sector_size) &&
    decide (exist.stripes.take rec.num_stripes = rec.stripes.take rec.num_stripes))

/-- The `memcmp` of process_device_extent_item: whether two device-extent
records differ from the `generation` field onward. -/
def device_extent_record_memcmp (exist rec : device_extent_record) : Bool :=
  !(decide (exist.generation = rec.generation) && decide (exist.objectid = rec.objectid) &&
    decide (exist.offset = rec.offset) &&
    decide (exist.chunk_offset = rec.chunk_offset) && decide (exist.length = rec.length))

/-- The `again:` loop of process_block_group_item. `none` stands for a run that
does not return (the `BUG_ON`, or the iteration bound being used up). -/
def process_block_group_item_again :
    Nat → block_group_tree → block_group_record → Option (Int × block_group_tree)
  | 0, _, _ => none
  | fuel + 1, bg_cache, rec =>
    match lookup_cache_extent block_group_record.cache bg_cache.tree
        rec.cache.start rec.cache.size with
    | some exist =>
      if exist.generation > rec.generation then some (0, bg_cache)
      else if exist.generation = rec.generation then
        if block_group_record_memcmp exist rec then some (-EEXIST, bg_cache)
        else some (0, bg_cache)
      else
        process_block_group_item_again fuel
          { tree := remove_cache_extent bg_cache.tree exist,
            block_groups := bg_cache.block_groups.erase exist } rec
    | none =>
      match insert_block_group_record bg_cache rec with
      | (ret, bg_cache) => if ret ≠ 0 then none else some (ret, bg_cache)

/-- The routine process_block_group_item, on the record that
btrfs_new_block_group_record built from the item. Every pass of the loop evicts
one stored record, so one pass more than there are records is enough. -/
def process_block_group_item (bg_cache : block_group_tree) (rec : block_group_record) :
    Option (Int × block_group_tree) :=
  if rec.cache.size = 0 then some (0, bg_cache)
  else process_block_group_item_again (bg_cache.tree.length + 1) bg_cache rec

/-- The `again:` loop of process_chunk_item. -/
def process_chunk_item_again :
    Nat → cache_tree chunk_record → chunk_record → Option (Int × cache_tree chunk_record)
  | 0, _, _ => none
  | fuel + 1, chunk_cache, rec =>
    match lookup_cache_extent chunk_record.cache chunk_cache rec.offset rec.length with
    | some exist =>
      if exist.generation > rec.generation then some (0, chunk_cache)
      else if exist.generation = rec.generation then
        if exist.num_stripes ≠ rec.num_stripes ∨ chunk_record_memcmp exist rec = true then
          some (-EEXIST, chunk_cache)
        else some (0, chunk_cache)
      else process_chunk_item_again fuel (remove_cache_extent chunk_cache exist) rec
    | none =>
      match insert_cache_extent chunk_record.cache chunk_cache rec with
      | (ret, chunk_cache) => if ret ≠ 0 then none else some (ret, chunk_cache)

/-- The routine process_chunk_item, on the record that btrfs_new_chunk_record
built from the item. -/
def process_chunk_item (chunk_cache : cache_tree chunk_record) (rec : chunk_record) :
    Option (Int × cache_tree chunk_record) :=
  if rec.cache.size = 0 then some (0, chunk_cache)
  else process_chunk_item_again (chunk_cache.length + 1) chunk_cache rec

/-- The `again:` loop of process_device_extent_item. -/
def process_device_extent_item_again :
    Nat → device_extent_tree → device_extent_record → Option (Int × device_extent_tree)
  | 0, _, _ => none
  | fuel + 1, devext_cache, rec =>
    match lookup_cache_extent2 device_extent_record.cache devext_cache.tree
        rec.cache.objectid rec.cache.start rec.cache.size with
    | some exist =>
      if exist.generation > rec.generation then some (0, devext_cache)
      else if exist.generation = rec.generation then
        if device_extent_record_memcmp exist rec then some (-EEXIST, devext_cache)
        else some (0, devext_cache)
      else
        process_device_extent_item_again fuel
          { tree := remove_cache_extent devext_cache.tree exist,
            no_chunk_orphans := devext_cache.no_chunk_orphans.erase exist,
            no_device_orphans := devext_cache.no_device_orphans.erase exist } rec
    | none =>
      match insert_device_extent_record devext_cache rec with
      | (ret, devext_cache) => if ret ≠ 0 then none else some (ret, devext_cache)

/-- The routine process_device_extent_item, on the record that
btrfs_new_device_extent_record built from the item. -/
def process_device_extent_item (devext_cache : device_extent_tree)
    (rec : device_extent_record) : Option (Int × device_extent_tree) :=
  if rec.cache.size = 0 then some (0, devext_cache)
  else process_device_extent_item_again (devext_cache.tree.length + 1) devext_cache rec

/-! ## Reference description of one submission -/

/-- Whether a stored chunk record collides with a candidate. -/
def chunk_hit (e rec : chunk_record) : Bool :=
  extents_collide e.cache.start e.cache.size rec.offset rec.length

/-- Whether a stored block group collides with a candidate. -/
def block_group_hit (e rec : block_group_record) : Bool :=
  extents_collide e.cache.start e.cache.size rec.cache.start rec.cache.size

/-- Whether a stored device extent collides with a candidate: same device and
overlapping physical range. -/
def device_extent_hit (e rec : device_extent_record) : Bool :=
  decide (e.cache.objectid = rec.cache.objectid) &&
    extents_collide e.cache.start e.cache.size rec.cache.start rec.cache.size

/-- The equal-generation test of process_chunk_item: true when the duplicate is
inconsistent. -/
def chunk_differ (exist rec : chunk_record) : Bool :=
  decide (exist.num_stripes ≠ rec.num_stripes ∨ chunk_record_memcmp exist rec = true)

/-- One submission to a container, read off the list of stored records from
front to back: `hit` is the collision test, `gen` the generation and `differ`
the equal-generation comparison. This is the closed form of the three `again:`
loops. -/
def store_submit {α : Type} (hit : α → α → Bool) (gen : α → Nat) (differ : α → α → Bool) :
    List α → α → Int × List α
  | [], rec => (0, [rec])
  | e :: l, rec =>
    if hit e rec then
      if gen e > gen rec then (0, e :: l)
      else if gen e = gen rec then
        (if differ e rec then -EEXIST else 0, e :: l)
      else store_submit hit gen differ l rec
    else
      ((store_submit hit gen differ l rec).1, e :: (store_submit hit gen differ l rec).2)

/-- The shape shared by the three `again:` loops: `aux` stands for the lists a
container keeps beside its index, `unlink` and `link` for what eviction and
insertion do to them. -/
def store_again {α β : Type} [DecidableEq α] (hit : α → α → Bool) (gen : α → Nat)
    (differ : α → α → Bool) (unlink link : β → α → β) :
    Nat → cache_tree α → β → α → Option (Int × cache_tree α × β)
  | 0, _, _, _ => none
  | fuel + 1, tree, aux, rec =>
    match tree.find? (fun e => hit e rec) with
    | some exist =>
      if gen exist > gen rec then some (0, tree, aux)
      else if gen exist = gen rec then
        if differ exist rec then some (-EEXIST, tree, aux) else some (0, tree, aux)
      else store_again hit gen differ unlink link fuel (tree.erase exist) (unlink aux exist) rec
    | none => some (0, tree ++ [rec], link aux rec)

/-- No two records of a container collide. -/
def collision_free {α : Type} (hit : α → α → Bool) (tree : cache_tree α) : Prop :=
  tree.Pairwise (fun a b => hit a b = false)

/-- A sample chunk item: a 4 MiB chunk at logical offset 1 MiB with one stripe
on device 1, as read from a leaf of the given generation. -/
def sample_chunk (generation stripe_offset : Nat) : chunk_record :=
  { generation := generation, offset := 1048576, owner := 2, length := 4194304,
    type_flags := 2, stripe_len := 65536, num_stripes := 1, sub_stripes := 0,
    io_align := 4096, io_width := 4096, sector_size := 4096,
    stripes := [{ devid := 1, offset := stripe_offset, dev_uuid := 7 }] }

/-- A sample block-group item for the chunk at 1 MiB. -/
def sample_block_group (generation : Nat) : block_group_record :=
  { generation := generation, objectid := 1048576, offset := 4194304, flags := 2 }

/-- A sample device-extent item on device 1 backing the chunk at 1 MiB. -/
def sample_device_extent (generation : Nat) : device_extent_record :=
  { generation := generation, objectid := 1, offset := 0, chunk_offset := 1048576,
    length := 4194304 }

/-- A chunk record covering `[offset, offset + length)` read at the given
generation, with one stripe on device 1. -/
def chunk_at (generation offset length : Nat) : chunk_record :=
  { generation := generation, offset := offset, owner := 2, length := length,
    type_flags := 1, stripe_len := 65536, num_stripes := 1, sub_stripes := 0,
    io_align := 4096, io_width := 4096, sector_size := 4096,
    stripes := [{ devid := 1, offset := offset, dev_uuid := 7 }] }

/-- A sequence of submissions to the chunk store, one process_chunk_item call per
record: the statuses in order and the final store. -/
def submit_chunks :
    cache_tree chunk_record → List chunk_record →
      Option (List Int × cache_tree chunk_record)
  | chunk_cache, [] => some ([], chunk_cache)
  | chunk_cache, rec :: rest =>
    match process_chunk_item chunk_cache rec with
    | none => none
    | some (ret, chunk_cache) =>
      match submit_chunks chunk_cache rest with
      | none => none
      | some (rets, final) => some (ret :: rets, final)

/-! ## On-disk format constants (ctree.h is absent) -/

/-- Modelled from the spec: the owner id that names the extent tree (ctree.h is
absent; the value is the on-disk format's). -/
def BTRFS_EXTENT_TREE_OBJECTID : Nat := 2

/-- Modelled from the spec: the owner id that names the chunk tree. -/
def BTRFS_CHUNK_TREE_OBJECTID : Nat := 3

/-- Modelled from the spec: the owner id that names the device tree. -/
def BTRFS_DEV_TREE_OBJECTID : Nat := 4

/-- Modelled from the spec: the object id under which chunk items are keyed. -/
def BTRFS_FIRST_CHUNK_TREE_OBJECTID : Nat := 256

/-- Modelled from the spec: the key type of a block-group item. -/
def BTRFS_BLOCK_GROUP_ITEM_KEY : Nat := 192

/-- Modelled from the spec: the key type of a device-extent item. -/
def BTRFS_DEV_EXTENT_KEY : Nat := 204

/-- Modelled from the spec: the key type of a chunk item. -/
def BTRFS_CHUNK_ITEM_KEY : Nat := 228

/-- Modelled from the spec: the *system* bit of a chunk's type flags. -/
def BTRFS_BLOCK_GROUP_SYSTEM : Nat := 2

/-- Modelled from the spec: `struct btrfs_key` of ctree.h (absent). -/
structure btrfs_key where
  objectid : Nat
  type : Nat
  offset : Nat
deriving DecidableEq, Repr

/-! ## Scanner -/

/-- Modelled from the spec: a tree block as read into a `struct extent_buffer`
(ctree.h and extent_io.h are absent): the header fields the scanner reads
(filesystem UUID, stored checksum, level, owner, generation, number of items),
the key of each item slot and the raw item contents. -/
structure extent_buffer where
  fsid : Nat
  csum : Nat
  level : Nat
  owner : Nat
  generation : Nat
  nritems : Nat
  item_key : Nat → btrfs_key
  item_data : Nat → List Nat

/-- Modelled from the spec: the routines of the filesystem library that the
scanner calls and that are absent from the sources: the silent checksum
verification (0 when the stored checksum verifies) and the three constructors
that build a record from the item in a slot of a leaf. -/
structure scan_library where
  verify_tree_block_csum_silent : extent_buffer → Nat → Int
  btrfs_new_block_group_record : extent_buffer → btrfs_key → Nat → block_group_record
  btrfs_new_chunk_record : extent_buffer → btrfs_key → Nat → chunk_record
  btrfs_new_device_extent_record : extent_buffer → btrfs_key → Nat → device_extent_record

/-- Modelled from the spec: an open block device: its size in bytes and, for
every offset, the block that a full read of one leaf at that offset yields. -/
structure device_image where
  size : Nat
  block : Nat → extent_buffer

/-- Modelled from the spec: `pread64` on a device: the number of bytes read at
`bytenr`, fewer than asked for when the device ends first. -/
def pread64 (fd : device_image) (count bytenr : Nat) : Nat :=
  if fd.size ≤ bytenr then 0 else min count (fd.size - bytenr)

/-- Modelled from the spec: `struct btrfs_device` of volumes.h (absent), with the
attributes a device item carries; `image` is what opening the device by name
gives, `none` when the open fails. -/
structure btrfs_device where
  devid : Nat
  type : Nat
  total_bytes : Nat
  bytes_used : Nat
  io_align : Nat
  io_width : Nat
  sector_size : Nat
  uuid : Nat
  image : Option device_image

/-- Modelled from the spec: `struct btrfs_fs_devices` of volumes.h (absent): the
filesystem UUID and the member devices. -/
structure btrfs_fs_devices where
  fsid : Nat
  devices : List btrfs_device

/-- The recovery state `struct recover_control`. -/
structure recover_control where
  verbose : Int
  yes : Int
  csum_size : Nat
  sectorsize : Nat
  leafsize : Nat
  generation : Nat
  chunk_root_generation : Nat
  fs_devices : btrfs_fs_devices
  chunk : cache_tree chunk_record
  bg : block_group_tree
  devext : device_extent_tree
  good_chunks : List chunk_record
  bad_chunks : List chunk_record

/-- The item loop of extract_metadata_record from slot `i`, with `n` slots left:
dispatch on the key type to the three submission routines and stop at the first
non-zero status. -/
def extract_metadata_record_from (lib : scan_library) (leaf : extent_buffer) :
    Nat → Nat → recover_control → Option (Int × recover_control)
  | 0, _, rc => some (0, rc)
  | n + 1, i, rc =>
    let key := leaf.item_key i
    let step : Option (Int × recover_control) :=
      if key.type = BTRFS_BLOCK_GROUP_ITEM_KEY then
        (process_block_group_item rc.bg (lib.btrfs_new_block_group_record leaf key i)).map
          (fun r => (r.1, { rc with bg := r.2 }))
      else if key.type = BTRFS_CHUNK_ITEM_KEY then
        (process_chunk_item rc.chunk (lib.btrfs_new_chunk_record leaf key i)).map
          (fun r => (r.1, { rc with chunk := r.2 }))
      else if key.type = BTRFS_DEV_EXTENT_KEY then
        (process_device_extent_item rc.devext
            (lib.btrfs_new_device_extent_record leaf key i)).map
          (fun r => (r.1, { rc with devext := r.2 }))
      else some (0, rc)
    match step with
    | none => none
    | some (ret, rc) =>
      if ret ≠ 0 then some (ret, rc)
      else extract_metadata_record_from lib leaf n (i + 1) rc

/-- The routine extract_metadata_record. -/
def extract_metadata_record (lib : scan_library) (rc : recover_control)
    (leaf : extent_buffer) : Option (Int × recover_control) :=
  extract_metadata_record_from lib leaf leaf.nritems 0 rc

/-- Modelled from the spec: btrfs_sb_offset of ctree.h (absent): the fixed
superblock-mirror offsets 64 KiB, 64 MiB and 256 GiB. -/
def btrfs_sb_offset (mirror : Nat) : Nat :=
  if mirror ≠ 0 then 16384 <<< (12 * mirror) else 65536

/-- Modelled from the spec: the number of superblock mirrors. -/
def BTRFS_SUPER_MIRROR_MAX : Nat := 3

/-- The routine is_super_block_address. -/
def is_super_block_address (offset : Nat) : Bool :=
  (List.range BTRFS_SUPER_MIRROR_MAX).any (fun i => decide (offset = btrfs_sb_offset i))

/-- A record of what a scan did, kept beside the state: the offsets passed to
`pread64` and the offsets of the blocks passed to extract_metadata_record, both
in order. -/
structure scan_log where
  reads : List Nat
  extracted : List Nat
deriving DecidableEq, Repr

/-- The `while (1)` loop of scan_one_device from offset `bytenr`, for at most
`fuel` passes. The status is `none` when the passes are used up before the loop
is left (or a submission aborts). Offsets are 64-bit. -/
def scan_one_device_loop (lib : scan_library) (fd : device_image) :
    Nat → recover_control → Nat → scan_log → Option Int × recover_control × scan_log
  | 0, rc, _, log => (none, rc, log)
  | fuel + 1, rc, bytenr, log =>
    let bytenr := if is_super_block_address bytenr then (bytenr + rc.sectorsize) % 2 ^ 64
      else bytenr
    let log := { log with reads := log.reads ++ [bytenr] }
    if pread64 fd rc.leafsize bytenr < rc.leafsize then (some 0, rc, log)
    else
      let buf := fd.block bytenr
      if buf.fsid ≠ rc.fs_devices.fsid then
        scan_one_device_loop lib fd fuel rc ((bytenr + rc.sectorsize) % 2 ^ 64) log
      else if lib.verify_tree_block_csum_silent buf rc.csum_size ≠ 0 then
        scan_one_device_loop lib fd fuel rc ((bytenr + rc.sectorsize) % 2 ^ 64) log
      else if buf.level ≠ 0 then
        scan_one_device_loop lib fd fuel rc ((bytenr + rc.leafsize) % 2 ^ 64) log
      else if buf.owner = BTRFS_EXTENT_TREE_OBJECTID ∨ buf.owner = BTRFS_DEV_TREE_OBJECTID then
        if buf.generation > rc.generation then
          scan_one_device_loop lib fd fuel rc ((bytenr + rc.leafsize) % 2 ^ 64) log
        else
          let log := { log with extracted := log.extracted ++ [bytenr] }
          match extract_metadata_record lib rc buf with
          | none => (none, rc, log)
          | some (ret, rc) =>
            if ret ≠ 0 then (some ret, rc, log)
            else scan_one_device_loop lib fd fuel rc ((bytenr + rc.leafsize) % 2 ^ 64) log
      else if buf.owner = BTRFS_CHUNK_TREE_OBJECTID then
        if buf.generation > rc.chunk_root_generation then
          scan_one_device_loop lib fd fuel rc ((bytenr + rc.leafsize) % 2 ^ 64) log
        else
          let log := { log with extracted := log.extracted ++ [bytenr] }
          match extract_metadata_record lib rc buf with
          | none => (none, rc, log)
          | some (ret, rc) =>
            if ret ≠ 0 then (some ret, rc, log)
            else scan_one_device_loop lib fd fuel rc ((bytenr + rc.leafsize) % 2 ^ 64) log
      else
        scan_one_device_loop lib fd fuel rc ((bytenr + rc.leafsize) % 2 ^ 64) log

/-- The routine scan_one_device on an open device, run for at most `fuel` passes
of its loop, starting at offset 0 with an empty log. The leaf buffer allocation
is taken to succeed. -/
def scan_one_device (lib : scan_library) (rc : recover_control) (fd : device_image)
    (fuel : Nat) : Option Int × recover_control × scan_log :=
  scan_one_device_loop lib fd fuel rc 0 { reads := [], extracted := [] }

/-- Two recovery states agree on everything but the three stores: a scan
changes nothing else. -/
def same_config (a b : recover_control) : Prop :=
  b.fs_devices.fsid = a.fs_devices.fsid ∧ b.csum_size = a.csum_size ∧
  b.sectorsize = a.sectorsize ∧ b.leafsize = a.leafsize ∧
  b.generation = a.generation ∧ b.chunk_root_generation = a.chunk_root_generation

/-- The acceptance condition of the scanner on one block. -/
def scan_accepts (lib : scan_library) (rc : recover_control) (buf : extent_buffer) : Prop :=
  buf.fsid = rc.fs_devices.fsid ∧ lib.verify_tree_block_csum_silent buf rc.csum_size = 0 ∧
  buf.level = 0 ∧
  (((buf.owner = BTRFS_EXTENT_TREE_OBJECTID ∨ buf.owner = BTRFS_DEV_TREE_OBJECTID) ∧
      buf.generation ≤ rc.generation) ∨
    (buf.owner = BTRFS_CHUNK_TREE_OBJECTID ∧ buf.generation ≤ rc.chunk_root_generation))

/-- The forwarded offsets of a log are exactly the fully read offsets whose block
passes the acceptance condition. -/
def log_consistent (lib : scan_library) (fd : device_image) (rc : recover_control)
    (log : scan_log) : Prop :=
  ∀ b, b ∈ log.extracted ↔
    (b ∈ log.reads ∧ rc.leafsize ≤ pread64 fd rc.leafsize b ∧ scan_accepts lib rc (fd.block b))

/-! ## Metadata cross-check -/

/-- Modelled from the spec: the payload of a device-extent item (`struct
btrfs_dev_extent` of ctree.h, absent): the referenced chunk offset and the
length. -/
structure btrfs_dev_extent where
  chunk_offset : Nat
  length : Nat
deriving DecidableEq, Repr, Inhabited

/-- Modelled from the spec: the payload of a block-group item (`struct
btrfs_block_group_item` of ctree.h, absent): the used counter and the flags. -/
structure btrfs_block_group_item where
  used : Nat
  flags : Nat
deriving DecidableEq, Repr, Inhabited

/-- Modelled from the spec: the persisted device tree and extent tree as
btrfs_search_slot (ctree.c, absent) answers an exact-key search without
insertion: a status that is negative on an I/O error, 0 when an item sits at
exactly the key and positive when none does, and the item the path then points
at (meaningful for status 0). -/
structure fs_trees where
  dev_root : btrfs_key → Int × btrfs_dev_extent
  extent_root : btrfs_key → Int × btrfs_block_group_item

/-- The key that check_chunk_by_metadata builds for stripe `i` of a chunk:
`(stripe->devid, BTRFS_DEV_EXTENT_KEY, stripe->offset)`. -/
def stripe_key (chunk : chunk_record) (i : Nat) : btrfs_key :=
  { objectid := (chunk.stripes.getD i default).devid, type := BTRFS_DEV_EXTENT_KEY,
    offset := (chunk.stripes.getD i default).offset }

/-- The key that check_chunk_by_metadata builds at `bg_check:`:
`(chunk->offset, BTRFS_BLOCK_GROUP_ITEM_KEY, chunk->length)`. -/
def block_group_key (chunk : chunk_record) : btrfs_key :=
  { objectid := chunk.offset, type := BTRFS_BLOCK_GROUP_ITEM_KEY, offset := chunk.length }

/-- The stripe loop of check_chunk_by_metadata from stripe `i`, with `n` stripes
left: `some ret` when the routine returns from inside the loop, `none` when the
loop runs to its end. -/
def check_chunk_stripes (root : fs_trees) (chunk : chunk_record) : Nat → Nat → Option Int
  | 0, _ => none
  | n + 1, i =>
    let key := stripe_key chunk i
    let ret := (root.dev_root key).1
    let dev_extent := (root.dev_root key).2
    if ret < 0 then some ret
    else if ret > 0 then some (-ENOENT)
    else if chunk.offset ≠ dev_extent.chunk_offset then some (-ENOENT)
    else check_chunk_stripes root chunk n (i + 1)

/-- The `bg_check:` part of check_chunk_by_metadata. -/
def check_chunk_block_group (root : fs_trees) (chunk : chunk_record) : Int :=
  let key := block_group_key chunk
  let ret := (root.extent_root key).1
  let bg_ptr := (root.extent_root key).2
  if ret < 0 then ret
  else if ret > 0 then -ENOENT
  else if chunk.type_flags ≠ bg_ptr.flags then -ENOENT
  else 0

/-- The routine check_chunk_by_metadata (the diagnostics printed under
`rc->verbose` are left out). -/
def check_chunk_by_metadata (root : fs_trees) (chunk : chunk_record) (bg_only : Int) : Int :=
  if bg_only ≠ 0 then check_chunk_block_group root chunk
  else
    match check_chunk_stripes root chunk chunk.num_stripes 0 with
    | some ret => ret
    | none => check_chunk_block_group root chunk

/-! ## Intrusive lists (list.h is absent) -/

/-- Modelled from the spec: `struct list_head` of list.h (absent), a node of a
circular doubly-linked list; addresses are numbers. -/
structure list_head where
  next : Nat
  prev : Nat
deriving DecidableEq, Repr

/-- Modelled from the spec: the memory holding the list nodes, by address. -/
abbrev list_memory := Nat → list_head

/-- Store `v` in the `next` field of the node at `a`. -/
def set_next (mem : list_memory) (a v : Nat) : list_memory :=
  fun x => if x = a then { next := v, prev := (mem x).prev } else mem x

/-- Store `v` in the `prev` field of the node at `a`. -/
def set_prev (mem : list_memory) (a v : Nat) : list_memory :=
  fun x => if x = a then { next := (mem x).next, prev := v } else mem x

/-- Modelled from the spec: INIT_LIST_HEAD of list.h (absent): an empty list
points at itself. -/
def INIT_LIST_HEAD (mem : list_memory) (list : Nat) : list_memory :=
  set_prev (set_next mem list list) list list

/-- Modelled from the spec: __list_add of list.h (absent). -/
def __list_add (mem : list_memory) (new prev next : Nat) : list_memory :=
  set_next (set_prev (set_next (set_prev mem next new) new next) new prev) prev new

/-- Modelled from the spec: list_add_tail of list.h (absent). -/
def list_add_tail (mem : list_memory) (new head : Nat) : list_memory :=
  __list_add mem new (mem head).prev head

/-- Modelled from the spec: __list_del of list.h (absent). -/
def __list_del (mem : list_memory) (prev next : Nat) : list_memory :=
  set_next (set_prev mem next prev) prev next

/-- Modelled from the spec: list_move_tail of list.h (absent): unlink the entry
and link it before `head`. -/
def list_move_tail (mem : list_memory) (list head : Nat) : list_memory :=
  list_add_tail (__list_del mem (mem list).prev (mem list).next) list head

/-- Modelled from the spec: list_splice of list.h (absent): join the entries of
`list` in after `head`. -/
def list_splice (mem : list_memory) (list head : Nat) : list_memory :=
  if (mem list).next = list then mem
  else
    let first := (mem list).next
    let last := (mem list).prev
    let at_ := (mem head).next
    set_prev (set_next (set_next (set_prev mem first head) head first) last at_) at_ last

/-- The entries of the list at `head`, following `next` for at most `fuel`
steps. -/
def list_entries (mem : list_memory) (head : Nat) : Nat → Nat → List Nat
  | 0, _ => []
  | fuel + 1, pos => if pos = head then [] else pos :: list_entries mem head fuel (mem pos).next

/-- How a walk over a list ends: normally; on an address that is neither the
head being iterated nor the list member of a chunk record, where `container_of`
yields no chunk record; or not within the steps allowed. -/
inductive list_walk (α : Type) where
  | done : α → list_walk α
  | stray : Nat → list_walk α
  | unfinished : list_walk α
deriving DecidableEq, Repr

/-- The first loop of check_all_chunks_by_metadata,
`list_for_each_entry(chunk, &rc->good_chunks, list)`: `pos` is the address of
the current entry, and the next entry is read from `pos` after the body has
run. `record_at` is `container_of`: the chunk record whose list member lies at
an address. -/
def check_good_chunks (root : fs_trees) (record_at : Nat → Option chunk_record)
    (good_chunks orphan_chunks : Nat) :
    Nat → list_memory → Nat → Int → list_walk (Int × list_memory)
  | 0, _, _, _ => list_walk.unfinished
  | fuel + 1, mem, pos, ret =>
    if pos = good_chunks then list_walk.done (ret, mem)
    else
      match record_at pos with
      | none => list_walk.stray pos
      | some chunk =>
        let err := check_chunk_by_metadata root chunk 0
        let body : list_memory × Int :=
          if err ≠ 0 then
            if err = -ENOENT then (list_move_tail mem pos orphan_chunks, ret)
            else if err ≠ 0 ∧ ret = 0 then (mem, err)
            else (mem, ret)
          else (mem, ret)
        check_good_chunks root record_at good_chunks orphan_chunks fuel body.1
          (body.1 pos).next body.2

/-- The second loop of check_all_chunks_by_metadata,
`list_for_each_entry(chunk, &rc->bad_chunks, list)`. -/
def check_bad_chunks (root : fs_trees) (record_at : Nat → Option chunk_record)
    (bad_chunks : Nat) (mem : list_memory) : Nat → Nat → Int → list_walk Int
  | 0, _, _ => list_walk.unfinished
  | fuel + 1, pos, ret =>
    if pos = bad_chunks then list_walk.done ret
    else
      match record_at pos with
      | none => list_walk.stray pos
      | some chunk =>
        let err := check_chunk_by_metadata root chunk 1
        let ret := if err ≠ -ENOENT ∧ ret = 0 then (if err ≠ 0 then err else -EINVAL) else ret
        check_bad_chunks root record_at bad_chunks mem fuel (mem pos).next ret

/-- The routine check_all_chunks_by_metadata over the list memory: `good_chunks`
and `bad_chunks` are the addresses of the two list heads of the recovery state,
`orphan_chunks` the address of the local list head, and each loop is given
`fuel` steps. -/
def check_all_chunks_by_metadata (root : fs_trees) (record_at : Nat → Option chunk_record)
    (good_chunks bad_chunks orphan_chunks : Nat) (mem : list_memory) (fuel : Nat) :
    list_walk (Int × list_memory) :=
  let mem := INIT_LIST_HEAD mem orphan_chunks
  match check_good_chunks root record_at good_chunks orphan_chunks fuel mem
      (mem good_chunks).next 0 with
  | list_walk.stray a => list_walk.stray a
  | list_walk.unfinished => list_walk.unfinished
  | list_walk.done (ret, mem) =>
    match check_bad_chunks root record_at bad_chunks mem fuel (mem bad_chunks).next ret with
    | list_walk.stray a => list_walk.stray a
    | list_walk.unfinished => list_walk.unfinished
    | list_walk.done ret => list_walk.done (ret, list_splice mem orphan_chunks bad_chunks)

/-- Trees that hold the device extent and the block group of the sample chunk
(device 1, physical offset 0, chunk offset 1 MiB, flags 2) and nothing else. -/
def sample_trees : fs_trees :=
  { dev_root := fun key =>
      if key = { objectid := 1, type := BTRFS_DEV_EXTENT_KEY, offset := 0 } then
        (0, { chunk_offset := 1048576, length := 4194304 })
      else (1, default)
    extent_root := fun key =>
      if key = { objectid := 1048576, type := BTRFS_BLOCK_GROUP_ITEM_KEY, offset := 4194304 }
      then (0, { used := 0, flags := 2 })
      else (1, default) }

/-- Trees that hold no item at all. -/
def empty_trees : fs_trees :=
  { dev_root := fun _ => (1, default), extent_root := fun _ => (1, default) }

/-- List memory with the `good_chunks` head at address 1, the `bad_chunks` head
at address 2, both initialised, and one chunk record whose list member lies at
address 10 linked into `good_chunks`. -/
def one_good_chunk_memory : list_memory :=
  list_add_tail (INIT_LIST_HEAD (INIT_LIST_HEAD (fun _ => { next := 0, prev := 0 }) 1) 2) 10 1

/-- The `container_of` of `one_good_chunk_memory`: the sample chunk lies at
address 10, the list heads lie in no chunk record. -/
def one_good_chunk_at (a : Nat) : Option chunk_record :=
  if a = 10 then some (sample_chunk 5 0) else none

/-! ## Rebuilder -/

/-- Modelled from the spec: the on-disk stripe `struct btrfs_stripe` of ctree.h
(absent). -/
structure btrfs_stripe where
  devid : Nat
  offset : Nat
  dev_uuid : Nat
deriving DecidableEq, Repr

/-- Modelled from the spec: the on-disk chunk payload `struct btrfs_chunk` of
ctree.h (absent), with its stripe vector. -/
structure btrfs_chunk where
  length : Nat
  owner : Nat
  stripe_len : Nat
  type : Nat
  io_align : Nat
  io_width : Nat
  sector_size : Nat
  num_stripes : Nat
  sub_stripes : Nat
  stripe : List btrfs_stripe
deriving DecidableEq, Repr

/-- The routine create_chunk_item: no payload for a record without stripes,
otherwise the record's fields and its first `num_stripes` stripes in order. The
allocation is taken to succeed. -/
def create_chunk_item (record : chunk_record) : Option btrfs_chunk :=
  if record.num_stripes = 0 then none
  else
    some
      { length := record.length, owner := record.owner, stripe_len := record.stripe_len,
        type := record.type_flags, io_align := record.io_align, io_width := record.io_width,
        sector_size := record.sector_size, num_stripes := record.num_stripes,
        sub_stripes := record.sub_stripes,
        stripe := (List.range record.num_stripes).map (fun i =>
          { devid := (record.stripes.getD i default).devid,
            offset := (record.stripes.getD i default).offset,
            dev_uuid := (record.stripes.getD i default).dev_uuid }) }

/-- An item handed to btrfs_insert_item for the chunk tree: key, payload and
size. -/
structure chunk_tree_item where
  key : btrfs_key
  data : btrfs_chunk
  size : Nat
deriving DecidableEq, Repr

/-- Modelled from the spec: btrfs_insert_item of ctree.c (absent) on the chunk
tree, which is kept as the sequence of items inserted so far; `insert_status`
stands for whatever decides the status of a call, and an item is inserted when
the status is 0. -/
def btrfs_insert_item (insert_status : List chunk_tree_item → chunk_tree_item → Int)
    (chunk_root : List chunk_tree_item) (item : chunk_tree_item) :
    Int × List chunk_tree_item :=
  if insert_status chunk_root item ≠ 0 then (insert_status chunk_root item, chunk_root)
  else (0, chunk_root ++ [item])

/-- The routine __rebuild_chunk_items over the entries of `good_chunks` in list
order. `btrfs_chunk_item_size` is the item size of volumes.h (absent). -/
def __rebuild_chunk_items (btrfs_chunk_item_size : Nat → Nat)
    (insert_status : List chunk_tree_item → chunk_tree_item → Int) :
    List chunk_record → List chunk_tree_item → Int × List chunk_tree_item
  | [], chunk_root => (0, chunk_root)
  | chunk_rec :: rest, chunk_root =>
    match create_chunk_item chunk_rec with
    | none => (-ENOMEM, chunk_root)
    | some chunk =>
      let key : btrfs_key :=
        { objectid := BTRFS_FIRST_CHUNK_TREE_OBJECTID, type := BTRFS_CHUNK_ITEM_KEY,
          offset := chunk_rec.offset }
      let r := btrfs_insert_item insert_status chunk_root
        { key := key, data := chunk, size := btrfs_chunk_item_size chunk.num_stripes }
      if r.1 ≠ 0 then (r.1, r.2)
      else __rebuild_chunk_items btrfs_chunk_item_size insert_status rest r.2

/-- Reading a chunk item back: logical offset, length, type and stripes. -/
def decode_chunk_item (item : chunk_tree_item) : Nat × Nat × Nat × List stripe :=
  (item.key.offset, item.data.length, item.data.type,
   item.data.stripe.map (fun s => { devid := s.devid, offset := s.offset,
                                    dev_uuid := s.dev_uuid }))

/-- A chunk record without stripes, as a chunk item with `num_stripes = 0` gives. -/
def stripeless_chunk (type_flags : Nat) : chunk_record :=
  { generation := 5, offset := 1048576, owner := 2, length := 4194304,
    type_flags := type_flags, stripe_len := 65536, num_stripes := 0, sub_stripes := 0,
    io_align := 4096, io_width := 4096, sector_size := 4096, stripes := [] }

/-- Modelled from the spec: the size of the packed on-disk key that precedes
each chunk payload in the superblock's system-chunk array. -/
def btrfs_disk_key_size : Nat := 17

/-- One (key, chunk payload) pair of the superblock's system-chunk array, with
the size of its payload. -/
structure sys_chunk_entry where
  key : btrfs_key
  chunk : btrfs_chunk
  item_size : Nat
deriving DecidableEq, Repr

/-- Modelled from the spec: the embedded system-chunk array of `struct
btrfs_super_block` (ctree.h, absent): the number of valid bytes and, by byte
offset, the pair stored from that offset on. Whatever lies at or beyond
`sys_array_size` is stale. -/
structure btrfs_super_block where
  sys_array_size : Nat
  sys_chunk_array : Nat → Option sys_chunk_entry

/-- Modelled from the spec: btrfs_set_super_sys_array_size of ctree.h (absent). -/
def btrfs_set_super_sys_array_size (super_copy : btrfs_super_block) (size : Nat) :
    btrfs_super_block :=
  { super_copy with sys_array_size := size }

/-- Modelled from the spec: btrfs_add_system_chunk of volumes.c (absent) appends
the (key, chunk payload) pair after the valid bytes of the array and extends the
size by the key and the payload; `add_status` stands for whatever decides the
status of a call (the array being full, for one), and nothing is written when it
is not 0. -/
def btrfs_add_system_chunk (add_status : btrfs_super_block → sys_chunk_entry → Int)
    (super_copy : btrfs_super_block) (key : btrfs_key) (chunk : btrfs_chunk)
    (item_size : Nat) : Int × btrfs_super_block :=
  if add_status super_copy { key := key, chunk := chunk, item_size := item_size } ≠ 0 then
    (add_status super_copy { key := key, chunk := chunk, item_size := item_size }, super_copy)
  else
    (0, { sys_array_size := super_copy.sys_array_size + btrfs_disk_key_size + item_size,
          sys_chunk_array := fun off =>
            if off = super_copy.sys_array_size then
              some { key := key, chunk := chunk, item_size := item_size }
            else super_copy.sys_chunk_array off })

/-- The loop of rebuild_sys_array over the entries of `good_chunks` in list
order. -/
def rebuild_sys_array_loop (btrfs_chunk_item_size : Nat → Nat)
    (add_status : btrfs_super_block → sys_chunk_entry → Int) :
    List chunk_record → btrfs_super_block → Int × btrfs_super_block
  | [], super_copy => (0, super_copy)
  | chunk_rec :: rest, super_copy =>
    if chunk_rec.type_flags &&& BTRFS_BLOCK_GROUP_SYSTEM = 0 then
      rebuild_sys_array_loop btrfs_chunk_item_size add_status rest super_copy
    else
      let num_stripes := chunk_rec.num_stripes
      match create_chunk_item chunk_rec with
      | none => (-ENOMEM, super_copy)
      | some chunk =>
        let key : btrfs_key :=
          { objectid := BTRFS_FIRST_CHUNK_TREE_OBJECTID, type := BTRFS_CHUNK_ITEM_KEY,
            offset := chunk_rec.offset }
        let r := btrfs_add_system_chunk add_status super_copy key chunk
          (btrfs_chunk_item_size num_stripes)
        if r.1 ≠ 0 then (r.1, r.2)
        else rebuild_sys_array_loop btrfs_chunk_item_size add_status rest r.2

/-- The routine rebuild_sys_array. -/
def rebuild_sys_array (btrfs_chunk_item_size : Nat → Nat)
    (add_status : btrfs_super_block → sys_chunk_entry → Int)
    (good_chunks : List chunk_record) (super_copy : btrfs_super_block) :
    Int × btrfs_super_block :=
  rebuild_sys_array_loop btrfs_chunk_item_size add_status good_chunks
    (btrfs_set_super_sys_array_size super_copy 0)

/-- The pairs of the system-chunk array from byte offset `off` to the end of its
valid bytes, reading at most `fuel` pairs. -/
def read_sys_array_from (super_copy : btrfs_super_block) : Nat → Nat → List sys_chunk_entry
  | 0, _ => []
  | fuel + 1, off =>
    if off < super_copy.sys_array_size then
      match super_copy.sys_chunk_array off with
      | none => []
      | some e =>
        e :: read_sys_array_from super_copy fuel (off + btrfs_disk_key_size + e.item_size)
    else []

/-- The system-chunk array as a reader of the superblock sees it. Every pair
takes at least the 17 bytes of its key, so `sys_array_size` reads are enough. -/
def read_sys_array (super_copy : btrfs_super_block) : List sys_chunk_entry :=
  read_sys_array_from super_copy super_copy.sys_array_size 0

/-- The pairs `es` lie back to back from offset `off` up to exactly the end of
the valid bytes. -/
def sys_array_layout (super_copy : btrfs_super_block) : Nat → List sys_chunk_entry → Prop
  | off, [] => off = super_copy.sys_array_size
  | off, e :: es =>
    off < super_copy.sys_array_size ∧ super_copy.sys_chunk_array off = some e ∧
    sys_array_layout super_copy (off + btrfs_disk_key_size + e.item_size) es

/-- A superblock whose system-chunk array holds one stale pair. -/
def stale_super : btrfs_super_block :=
  { sys_array_size := 97,
    sys_chunk_array := fun off =>
      if off = 0 then
        some { key := { objectid := 256, type := 228, offset := 0 },
               chunk := { length := 1, owner := 2, stripe_len := 1, type := 2, io_align := 1,
                          io_width := 1, sector_size := 1, num_stripes := 1, sub_stripes := 0,
                          stripe := [{ devid := 9, offset := 9, dev_uuid := 9 }] },
               item_size := 80 }
      else none }

/-- The sample chunk with the *system* type flag (it has it: flags 2), and a data
chunk after it. -/
def sample_good_chunks : List chunk_record :=
  [sample_chunk 5 0, chunk_at 5 8388608 4194304]

/-- A sample library: the checksum verifies when the stored checksum is 0, and
the constructors read the key of the item and the generation of the leaf. -/
def sample_library : scan_library :=
  { verify_tree_block_csum_silent := fun buf _ => if buf.csum = 0 then 0 else -1
    btrfs_new_block_group_record := fun leaf key _ =>
      { generation := leaf.generation, objectid := key.objectid, offset := key.offset,
        flags := 2 }
    btrfs_new_chunk_record := fun leaf key _ =>
      { generation := leaf.generation, offset := key.offset, owner := 2, length := 4194304,
        type_flags := 2, stripe_len := 65536, num_stripes := 1, sub_stripes := 0,
        io_align := 4096, io_width := 4096, sector_size := 4096,
        stripes := [{ devid := 1, offset := 0, dev_uuid := 7 }] }
    btrfs_new_device_extent_record := fun leaf key _ =>
      { generation := leaf.generation, objectid := key.objectid, offset := key.offset,
        chunk_offset := 1048576, length := 4194304 } }

/-- A sample block: a tree block of filesystem `fsid` with a valid checksum and
one chunk item keyed at logical offset 1 MiB. -/
def sample_block (fsid level owner generation : Nat) : extent_buffer :=
  { fsid := fsid, csum := 0, level := level, owner := owner, generation := generation,
    nritems := 1,
    item_key := fun _ =>
      { objectid := BTRFS_FIRST_CHUNK_TREE_OBJECTID, type := BTRFS_CHUNK_ITEM_KEY,
        offset := 1048576 },
    item_data := fun _ => [] }

/-- A sample device of three 4 KiB blocks: a chunk-tree leaf of filesystem 42 at
generation 5, a leaf of another filesystem, and a chunk-tree leaf of filesystem
42 at generation 9. -/
def sample_device : device_image :=
  { size := 12288,
    block := fun bytenr =>
      if bytenr = 0 then sample_block 42 0 BTRFS_CHUNK_TREE_OBJECTID 5
      else if bytenr = 4096 then sample_block 43 0 BTRFS_CHUNK_TREE_OBJECTID 5
      else sample_block 42 0 BTRFS_CHUNK_TREE_OBJECTID 9 }

/-- A sample recovery state for filesystem 42 with 4 KiB sectors and leaves,
tree-root generation 6 and chunk-root generation 6, and empty stores. -/
def sample_recover_control : recover_control :=
  { verbose := 0, yes := 0, csum_size := 4, sectorsize := 4096, leafsize := 4096,
    generation := 6, chunk_root_generation := 6,
    fs_devices := { fsid := 42, devices := [] },
    chunk := [], bg := { tree := [], block_groups := [] },
    devext := { tree := [], no_chunk_orphans := [], no_device_orphans := [] },
    good_chunks := [], bad_chunks := [] }

/-! ## Scanning all devices -/

/-- The loop of scan_devices over the member devices: a device that cannot be
opened ends the scan with -1, a non-zero status of scan_one_device ends it with
that status. Each device is given `fuel` passes of the scan loop. -/
def scan_devices_from (lib : scan_library) (fuel : Nat) :
    List btrfs_device → recover_control → Option Int × recover_control
  | [], rc => (some 0, rc)
  | dev :: rest, rc =>
    match dev.image with
    | none => (some (-1), rc)
    | some fd =>
      match scan_one_device lib rc fd fuel with
      | (none, rc, _) => (none, rc)
      | (some ret, rc, _) =>
        if ret ≠ 0 then (some ret, rc)
        else scan_devices_from lib fuel rest rc

/-- The routine scan_devices. -/
def scan_devices (lib : scan_library) (rc : recover_control) (fuel : Nat) :
    Option Int × recover_control :=
  scan_devices_from lib fuel rc.fs_devices.devices rc

/-! ## Driver -/

/-- The sentinel BTRFS_CHUNK_TREE_REBUILD_ABORTED. -/
def BTRFS_CHUNK_TREE_REBUILD_ABORTED : Int := -7500

/-- The routine init_recover_control: a zeroed state with empty stores and
lists, and the two flags. -/
def init_recover_control (verbose yes : Int) : recover_control :=
  { verbose := verbose, yes := yes, csum_size := 0, sectorsize := 0, leafsize := 0,
    generation := 0, chunk_root_generation := 0,
    fs_devices := { fsid := 0, devices := [] },
    chunk := [], bg := { tree := [], block_groups := [] },
    devext := { tree := [], no_chunk_orphans := [], no_device_orphans := [] },
    good_chunks := [], bad_chunks := [] }

/-- The calls of btrfs_recover_chunk_tree that consult the operator or go on to
change the filesystem, as they are recorded in the order they are made. -/
inductive recover_event where
  | ask_user
  | btrfs_start_transaction
  | remove_chunk_extent_item
  | rebuild_chunk_tree
  | rebuild_sys_array
  | btrfs_commit_transaction
deriving DecidableEq, Repr

/-- The routines that btrfs_recover_chunk_tree calls, each taken as the outcome
it has on the recovery state, so that what is proved of the driver holds
whatever they do. check_chunks is absent from the sources (cmds-check.c);
`open_ctree_with_broken_chunk` gives status 0 and the opened trees, or the
status behind its `ERR_PTR`; `scan_devices` and `check_all_chunks_by_metadata`
give `none` when they do not return; `ask_user` is the operator's answer. -/
structure recover_phases where
  recover_prepare : recover_control → Int × recover_control
  scan_devices : recover_control → Option Int × recover_control
  check_chunks : recover_control → Int × recover_control
  open_ctree_with_broken_chunk : recover_control → Int × fs_trees
  check_all_chunks_by_metadata : recover_control → fs_trees → Option (Int × recover_control)
  ask_user : Int
  remove_chunk_extent_item : recover_control → fs_trees → Int
  rebuild_chunk_tree : recover_control → fs_trees → Int
  rebuild_sys_array : recover_control → fs_trees → Int

/-- The rebuild part of btrfs_recover_chunk_tree, from btrfs_start_transaction
to the commit. Each `BUG_ON(ret)` aborts the run (`none`). -/
def recover_rebuild (phases : recover_phases) (rc : recover_control) (root : fs_trees)
    (log : List recover_event) : Option Int × List recover_event :=
  let log := log ++ [recover_event.btrfs_start_transaction,
    recover_event.remove_chunk_extent_item]
  if phases.remove_chunk_extent_item rc root ≠ 0 then (none, log)
  else
    let log := log ++ [recover_event.rebuild_chunk_tree]
    if phases.rebuild_chunk_tree rc root ≠ 0 then (none, log)
    else
      let log := log ++ [recover_event.rebuild_sys_array]
      if phases.rebuild_sys_array rc root ≠ 0 then (none, log)
      else (some (phases.rebuild_sys_array rc root),
            log ++ [recover_event.btrfs_commit_transaction])

/-- The routine btrfs_recover_chunk_tree: the status it returns (`none` when it
does not return) and the record of its calls. -/
def btrfs_recover_chunk_tree (phases : recover_phases) (verbose yes : Int) :
    Option Int × List recover_event :=
  let rc := init_recover_control verbose yes
  let prepared := phases.recover_prepare rc
  if prepared.1 ≠ 0 then (some prepared.1, [])
  else
    match phases.scan_devices prepared.2 with
    | (none, _) => (none, [])
    | (some ret, rc) =>
      if ret ≠ 0 then (some ret, [])
      else if rc.chunk = [] ∧ rc.bg.tree = [] ∧ rc.devext.tree = [] then (some ret, [])
      else
        let checked := phases.check_chunks rc
        if checked.1 ≠ 0 ∧
            (checked.2.bg.block_groups ≠ [] ∨ checked.2.devext.no_chunk_orphans ≠ []) then
          (some checked.1, [])
        else
          let opened := phases.open_ctree_with_broken_chunk checked.2
          if opened.1 ≠ 0 then (some opened.1, [])
          else
            match phases.check_all_chunks_by_metadata checked.2 opened.2 with
            | none => (none, [])
            | some (ret, rc) =>
              if ret ≠ 0 then (some ret, [])
              else if rc.yes = 0 then
                if phases.ask_user = 0 then
                  (some BTRFS_CHUNK_TREE_REBUILD_ABORTED, [recover_event.ask_user])
                else recover_rebuild phases rc opened.2 [recover_event.ask_user]
              else recover_rebuild phases rc opened.2 []

/-- The routine cmd_chunk_recover after its option parsing: `check_mounted` is
the status of the mount check on the device. -/
def cmd_chunk_recover (phases : recover_phases) (check_mounted verbose yes : Int) :
    Option Int × List recover_event :=
  if check_mounted ≠ 0 then (some check_mounted, [])
  else
    match btrfs_recover_chunk_tree phases verbose yes with
    | (none, log) => (none, log)
    | (some ret, log) =>
      if ret = 0 then (some ret, log)
      else if ret = BTRFS_CHUNK_TREE_REBUILD_ABORTED then (some 0, log)
      else (some ret, log)

/-- A device of filesystem 43 only: two 4 KiB blocks, none of filesystem 42. -/
def foreign_device : device_image :=
  { size := 8192, block := fun _ => sample_block 43 0 BTRFS_CHUNK_TREE_OBJECTID 5 }

/-- The phases of a run on a filesystem whose devices hold nothing recoverable:
the preparation succeeds and names filesystem 42 with one member device, the
scan is scan_devices itself, every later phase would succeed and the operator
would agree. -/
def nothing_found_phases : recover_phases :=
  { recover_prepare := fun rc =>
      (0, { rc with csum_size := 4, sectorsize := 4096, leafsize := 4096, generation := 6,
                    chunk_root_generation := 6,
                    fs_devices :=
                      { fsid := 42,
                        devices := [{ devid := 1, type := 0, total_bytes := 8192,
                                      bytes_used := 0, io_align := 4096, io_width := 4096,
                                      sector_size := 4096, uuid := 7,
                                      image := some foreign_device }] } })
    scan_devices := fun rc => scan_devices sample_library rc 10
    check_chunks := fun rc => (0, rc)
    open_ctree_with_broken_chunk := fun _ => (0, sample_trees)
    check_all_chunks_by_metadata := fun rc _ => some (0, rc)
    ask_user := 1
    remove_chunk_extent_item := fun _ _ => 0
    rebuild_chunk_tree := fun _ _ => 0
    rebuild_sys_array := fun _ _ => 0 }

/-- The phases of a run that finds the sample chunk and reaches the confirmation
prompt, with the operator's answer as given. -/
def prompt_phases (answer : Int) : recover_phases :=
  { recover_prepare := fun rc => (0, rc)
    scan_devices := fun rc => (some 0, { rc with chunk := [sample_chunk 5 0] })
    check_chunks := fun rc => (0, { rc with good_chunks := rc.chunk })
    open_ctree_with_broken_chunk := fun _ => (0, sample_trees)
    check_all_chunks_by_metadata := fun rc _ => some (0, rc)
    ask_user := answer
    remove_chunk_extent_item := fun _ _ => 0
    rebuild_chunk_tree := fun _ _ => 0
    rebuild_sys_array := fun _ _ => 0 }

/-! ## Rebuilding the device items -/

/-- Modelled from the spec: the object id under which device items are keyed
(`DEV_ITEMS object`). -/
def BTRFS_DEV_ITEMS_OBJECTID : Nat := 1

/-- Modelled from the spec: the key type of a device item. -/
def BTRFS_DEV_ITEM_KEY : Nat := 216

/-- Modelled from the spec: the on-disk device item `struct btrfs_dev_item` of
ctree.h (absent): generation, device type, device id, total bytes, bytes used,
I/O alignment and width, sector size, device uuid and filesystem uuid. -/
structure btrfs_dev_item where
  generation : Nat
  type : Nat
  devid : Nat
  total_bytes : Nat
  bytes_used : Nat
  io_align : Nat
  io_width : Nat
  sector_size : Nat
  uuid : Nat
  fsid : Nat
deriving DecidableEq, Repr

/-- A device item handed to btrfs_insert_item: key, payload and size. -/
structure dev_tree_item where
  key : btrfs_key
  data : btrfs_dev_item
  size : Nat
deriving DecidableEq, Repr

/-- Modelled from the spec: btrfs_insert_item of ctree.c (absent) on the device
items of the chunk tree, kept as the sequence of items inserted so far;
`insert_status` stands for whatever decides the status of a call, and an item
is inserted when the status is 0. -/
def btrfs_insert_dev_item (insert_status : List dev_tree_item → dev_tree_item → Int)
    (root : List dev_tree_item) (item : dev_tree_item) : Int × List dev_tree_item :=
  if insert_status root item ≠ 0 then (insert_status root item, root)
  else (0, root ++ [item])

/-- The loop of __rebuild_device_items over the member devices: `ret` is
assigned the status of each insertion in turn and the loop goes on whatever it
is. `fsid` is `dev->fs_devices->fsid` and `dev_item_size` is
`sizeof(struct btrfs_dev_item)`. -/
def __rebuild_device_items_loop (dev_item_size fsid : Nat)
    (insert_status : List dev_tree_item → dev_tree_item → Int) :
    List btrfs_device → List dev_tree_item → Int → Int × List dev_tree_item
  | [], root, ret => (ret, root)
  | dev :: rest, root, _ =>
    let key : btrfs_key :=
      { objectid := BTRFS_DEV_ITEMS_OBJECTID, type := BTRFS_DEV_ITEM_KEY,
        offset := dev.devid }
    let dev_item : btrfs_dev_item :=
      { generation := 0, type := dev.type, devid := dev.devid,
        total_bytes := dev.total_bytes, bytes_used := dev.bytes_used,
        io_align := dev.io_align, io_width := dev.io_width,
        sector_size := dev.sector_size, uuid := dev.uuid, fsid := fsid }
    let r := btrfs_insert_dev_item insert_status root
      { key := key, data := dev_item, size := dev_item_size }
    __rebuild_device_items_loop dev_item_size fsid insert_status rest r.2 r.1

/-- The routine __rebuild_device_items (the allocation of the scratch item is
taken to succeed). -/
def __rebuild_device_items (dev_item_size : Nat)
    (insert_status : List dev_tree_item → dev_tree_item → Int)
    (fs_devices : btrfs_fs_devices) (root : List dev_tree_item) :
    Int × List dev_tree_item :=
  __rebuild_device_items_loop dev_item_size fs_devices.fsid insert_status
    fs_devices.devices root 0

/-- The new chunk tree as rebuild_chunk_tree fills it: its device items and its
chunk items. -/
structure chunk_tree where
  dev_items : List dev_tree_item
  chunk_items : List chunk_tree_item
deriving DecidableEq, Repr

/-- The routine __rebuild_chunk_root: it attaches an empty leaf as the node of
the chunk root and returns 0. -/
def __rebuild_chunk_root : Int × chunk_tree :=
  (0, { dev_items := [], chunk_items := [] })

/-- The routine rebuild_chunk_tree: the fresh root, then the device items, then
the chunk items, stopping at the first step that returns a non-zero status. -/
def rebuild_chunk_tree (dev_item_size : Nat) (btrfs_chunk_item_size : Nat → Nat)
    (dev_insert_status : List dev_tree_item → dev_tree_item → Int)
    (chunk_insert_status : List chunk_tree_item → chunk_tree_item → Int)
    (rc : recover_control) : Int × chunk_tree :=
  let rooted := __rebuild_chunk_root
  if rooted.1 ≠ 0 then rooted
  else
    let devs := __rebuild_device_items dev_item_size dev_insert_status rc.fs_devices
      rooted.2.dev_items
    if devs.1 ≠ 0 then (devs.1, { rooted.2 with dev_items := devs.2 })
    else
      let chunks := __rebuild_chunk_items btrfs_chunk_item_size chunk_insert_status
        rc.good_chunks rooted.2.chunk_items
      (chunks.1, { dev_items := devs.2, chunk_items := chunks.2 })

/-- A member device with the given id and no image. -/
def sample_member (devid : Nat) : btrfs_device :=
  { devid := devid, type := 0, total_bytes := 1073741824, bytes_used := 4194304,
    io_align := 4096, io_width := 4096, sector_size := 4096, uuid := 7 + devid,
    image := none }

/-- A recovery state with two member devices (ids 1 and 2) and the sample chunk
as its one good chunk. -/
def two_device_recover_control : recover_control :=
  { sample_recover_control with
    fs_devices := { fsid := 42, devices := [sample_member 1, sample_member 2] },
    good_chunks := [sample_chunk 5 0] }

/-- An insertion that fails with -EEXIST for the device item of device 1 and
succeeds for every other. -/
def first_device_fails (_root : List dev_tree_item) (item : dev_tree_item) : Int :=
  if item.key.offset = 1 then -EEXIST else 0

/-! ## Scanner runs, pass by pass -/

/-- The body of the item loop of extract_metadata_record for slot `i`: the
`switch` on the key type. -/
def process_item (lib : scan_library) (leaf : extent_buffer) (i : Nat)
    (rc : recover_control) : Option (Int × recover_control) :=
  if (leaf.item_key i).type = BTRFS_BLOCK_GROUP_ITEM_KEY then
    (process_block_group_item rc.bg
        (lib.btrfs_new_block_group_record leaf (leaf.item_key i) i)).map
      (fun r => (r.1, { rc with bg := r.2 }))
  else if (leaf.item_key i).type = BTRFS_CHUNK_ITEM_KEY then
    (process_chunk_item rc.chunk (lib.btrfs_new_chunk_record leaf (leaf.item_key i) i)).map
      (fun r => (r.1, { rc with chunk := r.2 }))
  else if (leaf.item_key i).type = BTRFS_DEV_EXTENT_KEY then
    (process_device_extent_item rc.devext
        (lib.btrfs_new_device_extent_record leaf (leaf.item_key i) i)).map
      (fun r => (r.1, { rc with devext := r.2 }))
  else some (0, rc)

/-- The items of slots `i`, ..., `i + k - 1` of a leaf are processed in turn,
each with status 0, and take the state `rc` to `rc2`. -/
def items_pass (lib : scan_library) (leaf : extent_buffer) :
    Nat → Nat → recover_control → recover_control → Prop
  | 0, _, rc, rc2 => rc2 = rc
  | k + 1, i, rc, rc2 =>
    ∃ rc1, process_item lib leaf i rc = some (0, rc1) ∧ items_pass lib leaf k (i + 1) rc1 rc2

/-- The offset scan_one_device reads at when a pass starts at `bytenr`: one
sector further when `bytenr` is a superblock mirror offset. -/
def read_offset (rc : recover_control) (bytenr : Nat) : Nat :=
  if is_super_block_address bytenr then (bytenr + rc.sectorsize) % 2 ^ 64 else bytenr

/-- One pass of the scan loop that goes on to a next pass: the block is read in
full and either nothing is submitted and the state is unchanged, or the block
is forwarded and every submission returns 0. -/
def scan_pass_continues (lib : scan_library) (fd : device_image)
    (rc : recover_control) (bytenr : Nat) (log : scan_log)
    (rc2 : recover_control) (bytenr2 : Nat) (log2 : scan_log) : Prop :=
  rc.leafsize ≤ pread64 fd rc.leafsize (read_offset rc bytenr) ∧
  ((rc2 = rc ∧
      log2 = { reads := log.reads ++ [read_offset rc bytenr], extracted := log.extracted } ∧
      (bytenr2 = (read_offset rc bytenr + rc.sectorsize) % 2 ^ 64 ∨
        bytenr2 = (read_offset rc bytenr + rc.leafsize) % 2 ^ 64)) ∨
    (extract_metadata_record lib rc (fd.block (read_offset rc bytenr)) = some (0, rc2) ∧
      log2 = { reads := log.reads ++ [read_offset rc bytenr],
               extracted := log.extracted ++ [read_offset rc bytenr] } ∧
      bytenr2 = (read_offset rc bytenr + rc.leafsize) % 2 ^ 64))

/-- The scan loop makes `k` passes that each go on to a next one, from the state
`rc`, offset `bytenr` and log `log` to `rc2`, `bytenr2` and `log2`. -/
def scan_passes (lib : scan_library) (fd : device_image) :
    Nat → recover_control → Nat → scan_log → recover_control → Nat → scan_log → Prop
  | 0, rc, bytenr, log, rc2, bytenr2, log2 => rc2 = rc ∧ bytenr2 = bytenr ∧ log2 = log
  | k + 1, rc, bytenr, log, rc2, bytenr2, log2 =>
    ∃ rc1 bytenr1 log1, scan_pass_continues lib fd rc bytenr log rc1 bytenr1 log1 ∧
      scan_passes lib fd k rc1 bytenr1 log1 rc2 bytenr2 log2

/-- The devices of a list are opened and scanned in turn, each scan returning 0,
and take the state `rc` to `rc2`. -/
def devices_pass (lib : scan_library) (fuel : Nat) :
    List btrfs_device → recover_control → recover_control → Prop
  | [], rc, rc2 => rc2 = rc
  | dev :: rest, rc, rc2 =>
    ∃ fd rc1 log, dev.image = some fd ∧ scan_one_device lib rc fd fuel = (some 0, rc1, log) ∧
      devices_pass lib fuel rest rc1 rc2

/-- The pass of the scan loop that leaves it, started at `bytenr` in state `rc`
with log `log`: either the read is short and the loop breaks with status 0 and
the state unchanged, or the block is read in full and forwarded and a submission
returns the non-zero status `ret`, which ends the scan at once in the state
`rc2` that extract_metadata_record left. -/
def scan_pass_exits (lib : scan_library) (fd : device_image)
    (rc : recover_control) (bytenr : Nat) (log : scan_log)
    (ret : Int) (rc2 : recover_control) (log2 : scan_log) : Prop :=
  (ret = 0 ∧ pread64 fd rc.leafsize (read_offset rc bytenr) < rc.leafsize ∧ rc2 = rc ∧
    log2 = { reads := log.reads ++ [read_offset rc bytenr], extracted := log.extracted }) ∨
  (ret ≠ 0 ∧ rc.leafsize ≤ pread64 fd rc.leafsize (read_offset rc bytenr) ∧
    extract_metadata_record lib rc (fd.block (read_offset rc bytenr)) = some (ret, rc2) ∧
    log2 = { reads := log.reads ++ [read_offset rc bytenr],
             extracted := log.extracted ++ [read_offset rc bytenr] })

/-- A sample library like `sample_library`, except that the chunk constructor
reads the physical offset of the stripe from the first byte of the item. -/
def stripe_library : scan_library :=
  { sample_library with
    btrfs_new_chunk_record := fun leaf key i =>
      { generation := leaf.generation, offset := key.offset, owner := 2, length := 4194304,
        type_flags := 2, stripe_len := 65536, num_stripes := 1, sub_stripes := 0,
        io_align := 4096, io_width := 4096, sector_size := 4096,
        stripes := [{ devid := 1, offset := (leaf.item_data i).headD 0, dev_uuid := 7 }] } }

/-- A device of three 4 KiB blocks, each a generation-5 chunk-tree leaf of
filesystem 42 with one chunk item at logical offset 1 MiB; the stripe offset is
0 in the first leaf and 8192 in the other two. -/
def conflicting_device : device_image :=
  { size := 12288,
    block := fun bytenr =>
      { sample_block 42 0 BTRFS_CHUNK_TREE_OBJECTID 5 with
        item_data := fun _ => if bytenr = 0 then [0] else [8192] } }

/-- Two member devices: the conflicting device and the sample device. -/
def conflicting_members : List btrfs_device :=
  [{ sample_member 1 with image := some conflicting_device },
   { sample_member 2 with image := some sample_device }]

/-- A recovery state for filesystem 42 with 4 KiB sectors and 16 KiB leaves. -/
def large_leaf_recover_control : recover_control :=
  { sample_recover_control with leafsize := 16384 }

/-- A device of 32 KiB whose every block bears the UUID of filesystem 43. -/
def foreign_device_32k : device_image :=
  { size := 32768, block := fun _ => sample_block 43 0 BTRFS_CHUNK_TREE_OBJECTID 5 }

/-! ## Purging the extent items of a system block group -/

/-- Modelled from the spec: the key type of an extent item. -/
def BTRFS_EXTENT_ITEM_KEY : Nat := 168

/-- Modelled from the spec: the key type of a metadata item. -/
def BTRFS_METADATA_ITEM_KEY : Nat := 169

/-- Modelled from the spec: the order of keys in a tree (btrfs_comp_keys of
ctree.c, absent): by object id, then type, then offset. -/
def key_lt (a b : btrfs_key) : Bool :=
  decide (a.objectid < b.objectid ∨
    (a.objectid = b.objectid ∧ (a.type < b.type ∨ (a.type = b.type ∧ a.offset < b.offset))))

/-- Modelled from the spec: the slot btrfs_search_slot (ctree.c, absent) leaves
the path at in a leaf: the first slot whose key is not below the searched key,
the number of items when there is none. -/
def search_slot (items : List btrfs_key) (key : btrfs_key) : Nat :=
  (items.takeWhile (fun k => key_lt k key)).length

/-- The variables of the `for` loop of block_group_remove_all_extent_items:
`del_s` (-1 while nothing is marked), `del_nr`, the superblock's bytes_used and
the key last read. -/
structure purge_pass where
  del_s : Int
  del_nr : Nat
  bytes_used : Nat
  key : btrfs_key
deriving DecidableEq, Repr

/-- The `for` loop of block_group_remove_all_extent_items over the items of the
leaf from slot `i` on: it stops at the first key at or beyond `end_`, skips a
block-group item while nothing is marked and stops at one otherwise, marks
every other item for deletion and, for an extent item or a metadata item, adds
`key.offset` or the leaf size to the superblock's bytes_used (64-bit). -/
def remove_extent_items_in_leaf (leafsize end_ : Nat) :
    List btrfs_key → Nat → purge_pass → purge_pass
  | [], _, st => st
  | key :: rest, i, st =>
    if key.objectid ≥ end_ then { st with key := key }
    else if key.type = BTRFS_BLOCK_GROUP_ITEM_KEY then
      if st.del_nr = 0 then
        remove_extent_items_in_leaf leafsize end_ rest (i + 1) { st with key := key }
      else { st with key := key }
    else
      let del_s := if st.del_s = -1 then (i : Int) else st.del_s
      let old_val :=
        if key.type = BTRFS_EXTENT_ITEM_KEY ∨ key.type = BTRFS_METADATA_ITEM_KEY then
          if key.type = BTRFS_METADATA_ITEM_KEY then (st.bytes_used + leafsize) % 2 ^ 64
          else (st.bytes_used + key.offset) % 2 ^ 64
        else st.bytes_used
      remove_extent_items_in_leaf leafsize end_ rest (i + 1)
        { del_s := del_s, del_nr := st.del_nr + 1, bytes_used := old_val, key := key }

/-- Modelled from the spec: btrfs_del_items of ctree.c (absent) removes `nr`
items of the leaf from slot `slot` on. -/
def btrfs_del_items (items : List btrfs_key) (slot nr : Nat) : List btrfs_key :=
  items.take slot ++ items.drop (slot + nr)

/-- The `again:` loop of block_group_remove_all_extent_items on an extent tree
whose root is its only leaf, given by the keys of its items in order: the
status, the items left and the superblock's bytes_used. With a single leaf
btrfs_next_leaf finds no further leaf. Every tree operation is taken to
succeed; `none` stands for a run not finished within `fuel` passes. -/
def block_group_remove_all_extent_items_again (leafsize sectorsize end_ : Nat) :
    Nat → btrfs_key → List btrfs_key → Nat → Option (Int × List btrfs_key × Nat)
  | 0, _, _, _ => none
  | fuel + 1, key, items, bytes_used =>
    let slot := search_slot items key
    let nitems := items.length
    if nitems = 0 then some (0, items, bytes_used)
    else if slot ≥ nitems then some (0, items, bytes_used)
    else
      let st := remove_extent_items_in_leaf leafsize end_ (items.drop slot) slot
        { del_s := -1, del_nr := 0, bytes_used := bytes_used, key := key }
      let items := if st.del_nr ≠ 0 then btrfs_del_items items st.del_s.toNat st.del_nr
        else items
      if st.key.objectid < end_ then
        let key : btrfs_key :=
          if st.key.type = BTRFS_BLOCK_GROUP_ITEM_KEY then
            { objectid := (st.key.objectid + sectorsize) % 2 ^ 64,
              type := BTRFS_EXTENT_ITEM_KEY, offset := 0 }
          else st.key
        block_group_remove_all_extent_items_again leafsize sectorsize end_ fuel key items
          st.bytes_used
      else some (0, items, st.bytes_used)

/-- The routine block_group_remove_all_extent_items for the block group `bg`, on
an extent tree whose root is its only leaf. -/
def block_group_remove_all_extent_items (leafsize sectorsize : Nat)
    (bg : block_group_record) (items : List btrfs_key) (bytes_used fuel : Nat) :
    Option (Int × List btrfs_key × Nat) :=
  block_group_remove_all_extent_items_again leafsize sectorsize
    ((bg.objectid + bg.offset) % 2 ^ 64) fuel
    { objectid := bg.objectid, type := BTRFS_EXTENT_ITEM_KEY, offset := 0 } items bytes_used

/-- An extent tree leaf for the block group of the sample chunk: an 8 KiB extent
item at its start, the block-group item, and a metadata item 16 KiB in. -/
def sample_extent_leaf : List btrfs_key :=
  [{ objectid := 1048576, type := BTRFS_EXTENT_ITEM_KEY, offset := 8192 },
   { objectid := 1048576, type := BTRFS_BLOCK_GROUP_ITEM_KEY, offset := 4194304 },
   { objectid := 1064960, type := BTRFS_METADATA_ITEM_KEY, offset := 0 }]

/-- List memory with the `good_chunks` head at address 1 and the `bad_chunks`
head at address 2, one chunk record at address 10 linked into `good_chunks` and
one at address 20 linked into `bad_chunks`. -/
def good_and_bad_memory : list_memory :=
  list_add_tail one_good_chunk_memory 20 2

/-- The `container_of` of `good_and_bad_memory`: the sample chunk at address 10
and a data chunk at 8 MiB at address 20. -/
def good_and_bad_at (a : Nat) : Option chunk_record :=
  if a = 10 then some (sample_chunk 5 0)
  else if a = 20 then some (chunk_at 5 8388608 4194304)
  else none

/-- Trees that hold the block group of the data chunk at 8 MiB with its flags,
and no device extent. -/
def bad_chunk_trees : fs_trees :=
  { dev_root := fun _ => (1, default)
    extent_root := fun key =>
      if key = { objectid := 8388608, type := BTRFS_BLOCK_GROUP_ITEM_KEY, offset := 4194304 }
      then (0, { used := 0, flags := 1 })
      else (1, default) }

/-! ## Opening the trees with the chunks in memory -/

/-- Modelled from the spec: btrfs_find_device of volumes.c (absent) resolves a
device id and device uuid to the open device of the fs-devices list, if there
is one. -/
def btrfs_find_device (fs_devices : btrfs_fs_devices) (devid uuid : Nat) :
    Option btrfs_device :=
  fs_devices.devices.find? (fun dev => decide (dev.devid = devid) && decide (dev.uuid = uuid))

/-- Modelled from the spec: one stripe of a `struct map_lookup` of volumes.h
(absent): the physical offset and the device it lies on. -/
structure map_stripe where
  physical : Nat
  dev : btrfs_device

/-- Modelled from the spec: `struct map_lookup` of volumes.h (absent), the entry
of the library's mapping tree for one chunk. -/
structure map_lookup where
  ce : cache_extent
  num_stripes : Nat
  io_width : Nat
  io_align : Nat
  sector_size : Nat
  stripe_len : Nat
  type : Nat
  sub_stripes : Nat
  stripes : List map_stripe

/-- The stripe loop of build_device_map_by_chunk_record from stripe `i`, with
`n` stripes left: the resolved stripes, or `none` when a device is not found. -/
def build_map_stripes (fs_devices : btrfs_fs_devices) (chunk : chunk_record) :
    Nat → Nat → Option (List map_stripe)
  | 0, _ => some []
  | n + 1, i =>
    match btrfs_find_device fs_devices (chunk.stripes.getD i default).devid
        (chunk.stripes.getD i default).dev_uuid with
    | none => none
    | some dev =>
      (build_map_stripes fs_devices chunk n (i + 1)).map
        (fun rest => { physical := (chunk.stripes.getD i default).offset, dev := dev } :: rest)

/-- The routine build_device_map_by_chunk_record: -EIO when a stripe names a
device that is not found, otherwise the status of inserting the map into the
mapping tree. The allocation of the map is taken to succeed. -/
def build_device_map_by_chunk_record (fs_devices : btrfs_fs_devices)
    (map_tree : cache_tree map_lookup) (chunk : chunk_record) :
    Int × cache_tree map_lookup :=
  match build_map_stripes fs_devices chunk chunk.num_stripes 0 with
  | none => (- EIO, map_tree)
  | some stripes =>
    insert_cache_extent (fun m => m.ce) map_tree
      { ce := { objectid := 0, start := chunk.offset, size := chunk.length },
        num_stripes := chunk.num_stripes, io_width := chunk.io_width,
        io_align := chunk.io_align, sector_size := chunk.sector_size,
        stripe_len := chunk.stripe_len, type := chunk.type_flags,
        sub_stripes := chunk.sub_stripes, stripes := stripes }

/-- The routine build_device_maps_by_chunk_records over the entries of
`good_chunks` in list order, stopping at the first non-zero status. -/
def build_device_maps_by_chunk_records (fs_devices : btrfs_fs_devices) :
    List chunk_record → cache_tree map_lookup → Int × cache_tree map_lookup
  | [], map_tree => (0, map_tree)
  | chunk :: rest, map_tree =>
    let r := build_device_map_by_chunk_record fs_devices map_tree chunk
    if r.1 ≠ 0 then (r.1, r.2)
    else build_device_maps_by_chunk_records fs_devices rest r.2

/-- The routines of the filesystem library that open_ctree_with_broken_chunk
calls and that are absent from the sources, each taken as its outcome: whether
btrfs_new_fs_info yields a context, the statuses of btrfs_open_devices,
btrfs_read_dev_super and btrfs_check_fs_compatibility, and the status and trees
of btrfs_setup_all_roots over the mapping tree. -/
structure open_library where
  btrfs_new_fs_info : Bool
  btrfs_open_devices : btrfs_fs_devices → Int
  btrfs_read_dev_super : Int
  btrfs_check_fs_compatibility : Int
  btrfs_setup_all_roots : cache_tree map_lookup → Int × fs_trees

/-- The routine open_ctree_with_broken_chunk: status 0 and the opened trees, or
the status behind its `ERR_PTR` (with no trees to speak of). -/
def open_ctree_with_broken_chunk (lib : open_library) (rc : recover_control) :
    Int × fs_trees :=
  if lib.btrfs_new_fs_info = false then (-ENOMEM, empty_trees)
  else if lib.btrfs_open_devices rc.fs_devices ≠ 0 then
    (lib.btrfs_open_devices rc.fs_devices, empty_trees)
  else if lib.btrfs_read_dev_super ≠ 0 then (lib.btrfs_read_dev_super, empty_trees)
  else if lib.btrfs_check_fs_compatibility ≠ 0 then
    (lib.btrfs_check_fs_compatibility, empty_trees)
  else
    let maps := build_device_maps_by_chunk_records rc.fs_devices rc.good_chunks []
    if maps.1 ≠ 0 then (maps.1, empty_trees)
    else
      let roots := lib.btrfs_setup_all_roots maps.2
      if roots.1 ≠ 0 then (roots.1, empty_trees)
      else (0, roots.2)

/-- A library whose every step succeeds and yields the sample trees. -/
def sample_open_library : open_library :=
  { btrfs_new_fs_info := true, btrfs_open_devices := fun _ => 0, btrfs_read_dev_super := 0,
    btrfs_check_fs_compatibility := 0, btrfs_setup_all_roots := fun _ => (0, sample_trees) }

/-- The phases of a run in which the checker leaves the sample chunk (stripe on
device 1) as the one good chunk while the fs-devices list holds device 2 only;
the trees are opened by open_ctree_with_broken_chunk itself. -/
def absent_device_phases : recover_phases :=
  { prompt_phases 1 with
    check_chunks := fun rc =>
      (0, { rc with good_chunks := rc.chunk,
                    fs_devices := { fsid := 42, devices := [sample_member 2] } })
    open_ctree_with_broken_chunk := open_ctree_with_broken_chunk sample_open_library }

/-- The state after the blocks at the offsets of a list are handed to
extract_metadata_record one after the other, starting from the state `rc`: what
the three stores hold once the items of those blocks, and of no other, have been
submitted. -/
def forward_blocks (lib : scan_library) (fd : device_image) :
    List Nat → recover_control → recover_control
  | [], rc => rc
  | bytenr :: rest, rc =>
    match extract_metadata_record lib rc (fd.block bytenr) with
    | none => rc
    | some (_, rc1) => forward_blocks lib fd rest rc1

/-! # Theorems -/

/-! ## The loops against their closed form -/

theorem store_again_spec {α β : Type} [DecidableEq α] (hit : α → α → Bool) (gen : α → Nat)
    (differ : α → α → Bool) (unlink link : β → α → β) (rec : α) :
    ∀ (l p : List α) (fuel : Nat) (aux : β), (∀ x ∈ p, hit x rec = false) →
      l.length < fuel →
      ∃ aux2, store_again hit gen differ unlink link fuel (p ++ l) aux rec =
        some ((store_submit hit gen differ l rec).1,
              p ++ (store_submit hit gen differ l rec).2, aux2) := by
  intro l
  induction l with
  | nil =>
    intro p fuel aux hp hf
    obtain ⟨f, rfl⟩ : ∃ f, fuel = f + 1 := ⟨fuel - 1, by simp at hf; omega⟩
    have hnone : List.find? (fun e => hit e rec) p = none := by
      simp only [List.find?_eq_none]
      intro x hx
      simp [hp x hx]
    refine ⟨link aux rec, ?_⟩
    simp only [store_again, List.append_nil, hnone, store_submit]
  | cons e l ih =>
    intro p fuel aux hp hf
    obtain ⟨f, rfl⟩ : ∃ f, fuel = f + 1 := ⟨fuel - 1, by simp at hf; omega⟩
    have hf2 : l.length < f := by simp at hf; omega
    by_cases he : hit e rec = true
    · have hfind : List.find? (fun e => hit e rec) (p ++ e :: l) = some e := by
        rw [List.find?_append]
        have : List.find? (fun e => hit e rec) p = none := by
          simp only [List.find?_eq_none]
          intro x hx
          simp [hp x hx]
        simp [this, List.find?_cons, he]
      have hnotin : e ∉ p := by
        intro hmem
        have := hp e hmem
        rw [he] at this
        exact Bool.noConfusion this
      by_cases h1 : gen e > gen rec
      · exact ⟨aux, by simp [store_again, hfind, store_submit, he, h1]⟩
      · by_cases h2 : gen e = gen rec
        · by_cases h3 : differ e rec = true
          · exact ⟨aux, by simp [store_again, hfind, store_submit, he, h2, h3]⟩
          · exact ⟨aux, by simp [store_again, hfind, store_submit, he, h2, h3]⟩
        · obtain ⟨aux2, h⟩ := ih p f (unlink aux e) hp hf2
          refine ⟨aux2, ?_⟩
          have herase : (p ++ e :: l).erase e = p ++ l := by
            rw [List.erase_append_right _ hnotin]
            simp
          simp only [store_again, hfind, store_submit, he, h1, h2, if_false, if_true, herase]
          exact h
    · have he2 : hit e rec = false := by simpa using he
      have hp2 : ∀ x ∈ p ++ [e], hit x rec = false := by
        intro x hx
        rcases List.mem_append.mp hx with h | h
        · exact hp x h
        · simp at h
          rw [h]; exact he2
      obtain ⟨aux2, h⟩ := ih (p ++ [e]) (f + 1) aux hp2 (by omega)
      refine ⟨aux2, ?_⟩
      have happ : p ++ e :: l = (p ++ [e]) ++ l := by simp
      rw [happ, h]
      simp [store_submit, he2]

theorem process_chunk_item_again_eq (rec : chunk_record) :
    ∀ (fuel : Nat) (t : cache_tree chunk_record),
      process_chunk_item_again fuel t rec =
        (store_again chunk_hit chunk_record.generation chunk_differ
          (fun (u : Unit) _ => u) (fun u _ => u) fuel t () rec).map
          (fun x => (x.1, x.2.1)) := by
  intro fuel
  induction fuel with
  | zero => intro t; rfl
  | succ f ih =>
    intro t
    have hl : lookup_cache_extent chunk_record.cache t rec.offset rec.length =
        List.find? (fun e => chunk_hit e rec) t := rfl
    cases hfind : List.find? (fun e => chunk_hit e rec) t with
    | none =>
      simp [process_chunk_item_again, store_again, hl, hfind, insert_cache_extent,
        lookup_cache_extent, chunk_record.cache]
      have h2 : List.find? (fun e => extents_collide e.offset e.length rec.offset rec.length) t
          = none := hfind
      simp [h2]
    | some e =>
      simp only [process_chunk_item_again, store_again, hl, hfind, remove_cache_extent, ih]
      by_cases h1 : e.generation > rec.generation
      · simp [h1]
      · by_cases h2 : e.generation = rec.generation
        · by_cases h3 : chunk_differ e rec = true
          · have h4 := h3
            simp only [chunk_differ, decide_eq_true_eq] at h4
            simp [h2, h3, h4]
          · have h4 := h3
            simp only [chunk_differ, decide_eq_true_eq] at h4
            simp [h2, h3, h4]
        · simp [h1, h2]

theorem process_block_group_item_again_eq (rec : block_group_record) :
    ∀ (fuel : Nat) (st : block_group_tree),
      process_block_group_item_again fuel st rec =
        (store_again block_group_hit block_group_record.generation block_group_record_memcmp
          (fun (l : List block_group_record) e => l.erase e) (fun l e => l ++ [e])
          fuel st.tree st.block_groups rec).map
          (fun x => (x.1, { tree := x.2.1, block_groups := x.2.2 })) := by
  intro fuel
  induction fuel with
  | zero => intro st; rfl
  | succ f ih =>
    intro st
    have hl : lookup_cache_extent block_group_record.cache st.tree rec.cache.start
        rec.cache.size = List.find? (fun e => block_group_hit e rec) st.tree := rfl
    cases hfind : List.find? (fun e => block_group_hit e rec) st.tree with
    | none =>
      simp [process_block_group_item_again, store_again, hl, hfind, insert_block_group_record,
        insert_cache_extent]
    | some e =>
      simp only [process_block_group_item_again, store_again, hl, hfind, remove_cache_extent, ih]
      by_cases h1 : e.generation > rec.generation
      · simp [h1]
      · by_cases h2 : e.generation = rec.generation
        · by_cases h3 : block_group_record_memcmp e rec = true
          · simp [h2, h3]
          · simp [h2, h3]
        · simp [h1, h2]

theorem process_device_extent_item_again_eq (rec : device_extent_record) :
    ∀ (fuel : Nat) (st : device_extent_tree),
      process_device_extent_item_again fuel st rec =
        (store_again device_extent_hit device_extent_record.generation
          device_extent_record_memcmp
          (fun (l : List device_extent_record × List device_extent_record) e =>
            (l.1.erase e, l.2.erase e))
          (fun l e => (l.1 ++ [e], l.2 ++ [e]))
          fuel st.tree (st.no_chunk_orphans, st.no_device_orphans) rec).map
          (fun x => (x.1, { tree := x.2.1, no_chunk_orphans := x.2.2.1,
                            no_device_orphans := x.2.2.2 })) := by
  intro fuel
  induction fuel with
  | zero => intro st; rfl
  | succ f ih =>
    intro st
    have hl : lookup_cache_extent2 device_extent_record.cache st.tree rec.cache.objectid
        rec.cache.start rec.cache.size =
        List.find? (fun e => device_extent_hit e rec) st.tree := rfl
    cases hfind : List.find? (fun e => device_extent_hit e rec) st.tree with
    | none =>
      simp [process_device_extent_item_again, store_again, hl, hfind,
        insert_device_extent_record, insert_cache_extent2]
    | some e =>
      simp only [process_device_extent_item_again, store_again, hl, hfind,
        remove_cache_extent, ih]
      by_cases h1 : e.generation > rec.generation
      · simp [h1]
      · by_cases h2 : e.generation = rec.generation
        · by_cases h3 : device_extent_record_memcmp e rec = true
          · simp [h2, h3]
          · simp [h2, h3]
        · simp [h1, h2]

/-! ## Facts about one submission -/

/-- The collision test decides whether two intervals cover a common byte. -/
theorem extents_collide_iff (start size start2 size2 : Nat) :
    extents_collide start size start2 size2 = true ↔
      ∃ x, start ≤ x ∧ x < start + size ∧ start2 ≤ x ∧ x < start2 + size2 := by
  simp only [extents_collide, decide_eq_true_eq]
  constructor
  · intro h
    refine ⟨max start start2, le_max_left _ _, ?_, le_max_right _ _, ?_⟩
    · exact lt_of_lt_of_le h (min_le_left _ _)
    · exact lt_of_lt_of_le h (min_le_right _ _)
  · rintro ⟨x, h1, h2, h3, h4⟩
    exact lt_of_le_of_lt (max_le h1 h3) (lt_min h2 h4)

theorem store_submit_mem {α : Type} (hit : α → α → Bool) (gen : α → Nat)
    (differ : α → α → Bool) (rec : α) :
    ∀ (l : List α) (x : α), x ∈ (store_submit hit gen differ l rec).2 → x ∈ l ∨ x = rec := by
  intro l
  induction l with
  | nil => intro x hx; simp [store_submit] at hx; exact Or.inr hx
  | cons e l ih =>
    intro x hx
    simp only [store_submit] at hx
    by_cases he : hit e rec = true
    · by_cases h1 : gen e > gen rec
      · simp [he, h1] at hx; left; simpa using hx
      · by_cases h2 : gen e = gen rec
        · simp [he, h2] at hx; left; simpa using hx
        · simp [he, h1, h2] at hx
          rcases ih x hx with h | h
          · left; exact List.mem_cons_of_mem _ h
          · right; exact h
    · simp [he] at hx
      rcases hx with h | h
      · left; simp [h]
      · rcases ih x h with h | h
        · left; exact List.mem_cons_of_mem _ h
        · right; exact h

theorem store_submit_pairwise {α : Type} (hit : α → α → Bool) (gen : α → Nat)
    (differ : α → α → Bool) (rec : α) :
    ∀ (l : List α), l.Pairwise (fun a b => hit a b = false) →
      (store_submit hit gen differ l rec).2.Pairwise (fun a b => hit a b = false) := by
  intro l
  induction l with
  | nil => intro _; simp [store_submit]
  | cons e l ih =>
    intro hp0
    have hp := hp0
    rw [List.pairwise_cons] at hp
    simp only [store_submit]
    by_cases he : hit e rec = true
    · rw [if_pos he]
      by_cases h1 : gen e > gen rec
      · rw [if_pos h1]; exact hp0
      · rw [if_neg h1]
        by_cases h2 : gen e = gen rec
        · rw [if_pos h2]; exact hp0
        · rw [if_neg h2]; exact ih hp.2
    · have he2 : hit e rec = false := by simpa using he
      simp only [he2, Bool.false_eq_true, if_false]
      refine List.pairwise_cons.mpr ⟨?_, ih hp.2⟩
      intro x hx
      rcases store_submit_mem hit gen differ rec l x hx with h | h
      · exact hp.1 x h
      · rw [h]; exact he2

theorem store_submit_settled {α : Type} (hit : α → α → Bool) (gen : α → Nat)
    (differ : α → α → Bool) (rec : α) (hself : hit rec rec = true)
    (hsame : differ rec rec = false) :
    ∀ (l : List α), (store_submit hit gen differ l rec).1 ≠ -EEXIST →
      ∃ e, List.find? (fun e => hit e rec) (store_submit hit gen differ l rec).2 = some e ∧
        (gen e > gen rec ∨ (gen e = gen rec ∧ differ e rec = false)) := by
  intro l
  induction l with
  | nil =>
    intro _
    exact ⟨rec, by simp [store_submit, hself], Or.inr ⟨rfl, hsame⟩⟩
  | cons e l ih =>
    intro hret
    simp only [store_submit] at hret ⊢
    by_cases he : hit e rec = true
    · by_cases h1 : gen e > gen rec
      · exact ⟨e, by simp [he, h1], Or.inl h1⟩
      · by_cases h2 : gen e = gen rec
        · by_cases h3 : differ e rec = true
          · simp [he, h2, h3] at hret
          · exact ⟨e, by simp [he, h2], Or.inr ⟨h2, by simpa using h3⟩⟩
        · simp only [he, h1, h2, if_true, if_false] at hret ⊢
          exact ih hret
    · have he2 : hit e rec = false := by simpa using he
      simp only [he2, Bool.false_eq_true, if_false] at hret ⊢
      obtain ⟨x, hx, hg⟩ := ih hret
      exact ⟨x, by simp [List.find?_cons, he2, hx], hg⟩

theorem store_again_settled {α β : Type} [DecidableEq α] (hit : α → α → Bool)
    (gen : α → Nat) (differ : α → α → Bool) (unlink link : β → α → β) (rec e : α)
    (fuel : Nat) (t : cache_tree α) (aux : β)
    (hfind : List.find? (fun e => hit e rec) t = some e)
    (hg : gen e > gen rec ∨ (gen e = gen rec ∧ differ e rec = false)) :
    store_again hit gen differ unlink link (fuel + 1) t aux rec = some (0, t, aux) := by
  rcases hg with h | ⟨h, hd⟩
  · simp [store_again, hfind, h]
  · simp [store_again, hfind, h, hd]

theorem store_submit_newer {α : Type} (hit : α → α → Bool) (gen : α → Nat)
    (differ : α → α → Bool) (rec : α) :
    ∀ (l : List α), (∀ e ∈ l, hit e rec = true → gen e < gen rec) →
      store_submit hit gen differ l rec = (0, l.filter (fun e => !hit e rec) ++ [rec]) := by
  intro l
  induction l with
  | nil => intro _; simp [store_submit]
  | cons e l ih =>
    intro h
    have ih2 := ih (fun x hx => h x (List.mem_cons_of_mem _ hx))
    by_cases he : hit e rec = true
    · have hlt := h e (List.mem_cons_self _ _) he
      have h1 : ¬ gen e > gen rec := by omega
      have h2 : ¬ gen e = gen rec := by omega
      simp [store_submit, he, h1, h2, ih2]
    · have he2 : hit e rec = false := by simpa using he
      simp [store_submit, he2, ih2]

/-- Closed form of process_chunk_item. -/
theorem process_chunk_item_eq (t : cache_tree chunk_record) (rec : chunk_record) :
    process_chunk_item t rec =
      if rec.length = 0 then some (0, t)
      else some (store_submit chunk_hit chunk_record.generation chunk_differ t rec) := by
  unfold process_chunk_item
  by_cases h : rec.length = 0
  · simp [chunk_record.cache, h]
  · obtain ⟨aux2, h2⟩ := store_again_spec chunk_hit chunk_record.generation chunk_differ
      (fun (u : Unit) _ => u) (fun u _ => u) rec t [] (t.length + 1) ()
      (by simp) (by omega)
    simp only [List.nil_append] at h2
    simp [chunk_record.cache, h, process_chunk_item_again_eq, h2]

/-- Closed form of process_block_group_item on the index. -/
theorem process_block_group_item_eq (st : block_group_tree) (rec : block_group_record) :
    ∃ bgs, process_block_group_item st rec =
      if rec.cache.size = 0 then some (0, st)
      else some ((store_submit block_group_hit block_group_record.generation
              block_group_record_memcmp st.tree rec).1,
            { tree := (store_submit block_group_hit block_group_record.generation
                block_group_record_memcmp st.tree rec).2, block_groups := bgs }) := by
  unfold process_block_group_item
  by_cases h : rec.cache.size = 0
  · exact ⟨[], by simp [h]⟩
  · obtain ⟨aux2, h2⟩ := store_again_spec block_group_hit block_group_record.generation
      block_group_record_memcmp
      (fun (l : List block_group_record) e => l.erase e) (fun l e => l ++ [e]) rec st.tree []
      (st.tree.length + 1) st.block_groups (by simp) (by omega)
    simp only [List.nil_append] at h2
    exact ⟨aux2, by simp [h, process_block_group_item_again_eq, h2]⟩

/-- Closed form of process_device_extent_item on the index. -/
theorem process_device_extent_item_eq (st : device_extent_tree)
    (rec : device_extent_record) :
    ∃ l1 l2, process_device_extent_item st rec =
      if rec.cache.size = 0 then some (0, st)
      else some ((store_submit device_extent_hit device_extent_record.generation
              device_extent_record_memcmp st.tree rec).1,
            { tree := (store_submit device_extent_hit device_extent_record.generation
                device_extent_record_memcmp st.tree rec).2,
              no_chunk_orphans := l1, no_device_orphans := l2 }) := by
  unfold process_device_extent_item
  by_cases h : rec.cache.size = 0
  · exact ⟨[], [], by simp [h]⟩
  · obtain ⟨aux2, h2⟩ := store_again_spec device_extent_hit device_extent_record.generation
      device_extent_record_memcmp
      (fun (l : List device_extent_record × List device_extent_record) e =>
        (l.1.erase e, l.2.erase e))
      (fun l e => (l.1 ++ [e], l.2 ++ [e])) rec st.tree []
      (st.tree.length + 1) (st.no_chunk_orphans, st.no_device_orphans) (by simp) (by omega)
    simp only [List.nil_append] at h2
    exact ⟨aux2.1, aux2.2, by simp [h, process_device_extent_item_again_eq, h2]⟩

theorem extents_collide_self (start size : Nat) (h : size ≠ 0) :
    extents_collide start size start size = true := by
  simp only [extents_collide, max_self, min_self, decide_eq_true_eq]
  omega

theorem chunk_differ_self (rec : chunk_record) : chunk_differ rec rec = false := by
  simp [chunk_differ, chunk_record_memcmp]

theorem take_eq_take_iff {α : Type} (n : Nat) (l1 l2 : List α) :
    l1.take n = l2.take n ↔ ∀ i, i < n → l1[i]? = l2[i]? := by
  constructor
  · intro h i hi
    have h1 : (l1.take n)[i]? = (l2.take n)[i]? := by rw [h]
    simpa [List.getElem?_take, hi] using h1
  · intro h
    apply List.ext_getElem?
    intro i
    by_cases hi : i < n
    · simp [List.getElem?_take, hi, h i hi]
    · simp [List.getElem?_take, hi]

/-! ## The Record Store claims -/

/-- C1: for every chunk store and every candidate of non-zero length, if every
stored record colliding with the candidate has a strictly smaller generation,
process_chunk_item returns 0 and the new store is the old one without the
colliding records (however many) followed by the candidate; the records that do
not collide are kept. -/
theorem process_chunk_item_newer_replaces (chunk_cache : cache_tree chunk_record)
    (rec : chunk_record) (hlen : rec.length ≠ 0)
    (hgen : ∀ e ∈ chunk_cache, chunk_hit e rec = true → e.generation < rec.generation) :
    process_chunk_item chunk_cache rec =
      some (0, chunk_cache.filter (fun e => !chunk_hit e rec) ++ [rec]) := by
  rw [process_chunk_item_eq, if_neg hlen,
    store_submit_newer chunk_hit chunk_record.generation chunk_differ rec chunk_cache hgen]

/-- C1, on the generation-5 and generation-7 copies of one chunk item: the store
ends with exactly one record, the generation-7 copy. -/
theorem process_chunk_item_newer_replaces_witness :
    process_chunk_item [] (sample_chunk 5 0) = some (0, [sample_chunk 5 0]) ∧
    process_chunk_item [sample_chunk 5 0] (sample_chunk 7 0) =
      some (0, [sample_chunk 7 0]) :=
  ⟨process_chunk_item_newer_replaces [] (sample_chunk 5 0) (by decide) (by simp),
   process_chunk_item_newer_replaces [sample_chunk 5 0] (sample_chunk 7 0) (by decide)
     (by decide)⟩

/-- C2: when the record that process_chunk_item locates has the generation of
the candidate, the routine returns -EEXIST exactly when the two differ in
num_stripes or in a field from generation onward (offset, owner, length, type
flags, stripe length, sub-stripes, io align, io width, sector size, or one of
the candidate's num_stripes stripes), returns 0 exactly when they do not, and in
both cases leaves the store as it was; this holds for the loop at any pass and
for the routine. -/
theorem process_chunk_item_equal_generation (chunk_cache : cache_tree chunk_record)
    (rec exist : chunk_record) (hlen : rec.length ≠ 0)
    (hfound : lookup_cache_extent chunk_record.cache chunk_cache rec.offset rec.length =
      some exist)
    (hgen : exist.generation = rec.generation) :
    ∃ ret : Int,
      (∀ fuel, process_chunk_item_again (fuel + 1) chunk_cache rec =
        some (ret, chunk_cache)) ∧
      process_chunk_item chunk_cache rec = some (ret, chunk_cache) ∧
      (ret = -EEXIST ↔
        (exist.num_stripes ≠ rec.num_stripes ∨ exist.offset ≠ rec.offset ∨
         exist.owner ≠ rec.owner ∨ exist.length ≠ rec.length ∨
         exist.type_flags ≠ rec.type_flags ∨ exist.stripe_len ≠ rec.stripe_len ∨
         exist.sub_stripes ≠ rec.sub_stripes ∨ exist.io_align ≠ rec.io_align ∨
         exist.io_width ≠ rec.io_width ∨ exist.sector_size ≠ rec.sector_size ∨
         ∃ i, i < rec.num_stripes ∧ exist.stripes[i]? ≠ rec.stripes[i]?)) ∧
      (ret = 0 ↔
        (exist.num_stripes = rec.num_stripes ∧ exist.offset = rec.offset ∧
         exist.owner = rec.owner ∧ exist.length = rec.length ∧
         exist.type_flags = rec.type_flags ∧ exist.stripe_len = rec.stripe_len ∧
         exist.sub_stripes = rec.sub_stripes ∧ exist.io_align = rec.io_align ∧
         exist.io_width = rec.io_width ∧ exist.sector_size = rec.sector_size ∧
         ∀ i, i < rec.num_stripes → exist.stripes[i]? = rec.stripes[i]?)) := by
  have hloop : ∀ fuel, process_chunk_item_again (fuel + 1) chunk_cache rec =
      some (if exist.num_stripes ≠ rec.num_stripes ∨ chunk_record_memcmp exist rec = true
        then -EEXIST else 0, chunk_cache) := by
    intro fuel
    by_cases hd : exist.num_stripes ≠ rec.num_stripes ∨ chunk_record_memcmp exist rec = true
    · simp only [process_chunk_item_again, hfound, hgen, gt_iff_lt, lt_irrefl, if_false,
        if_true, if_pos hd]
    · simp only [process_chunk_item_again, hfound, hgen, gt_iff_lt, lt_irrefl, if_false,
        if_true, if_neg hd]
  have htop : process_chunk_item chunk_cache rec =
      some (if exist.num_stripes ≠ rec.num_stripes ∨ chunk_record_memcmp exist rec = true
        then -EEXIST else 0, chunk_cache) := by
    unfold process_chunk_item
    rw [if_neg (by simpa [chunk_record.cache] using hlen)]
    exact hloop _
  have hcmp : (exist.num_stripes ≠ rec.num_stripes ∨ chunk_record_memcmp exist rec = true) ↔
      (exist.num_stripes ≠ rec.num_stripes ∨ exist.offset ≠ rec.offset ∨
         exist.owner ≠ rec.owner ∨ exist.length ≠ rec.length ∨
         exist.type_flags ≠ rec.type_flags ∨ exist.stripe_len ≠ rec.stripe_len ∨
         exist.sub_stripes ≠ rec.sub_stripes ∨ exist.io_align ≠ rec.io_align ∨
         exist.io_width ≠ rec.io_width ∨ exist.sector_size ≠ rec.sector_size ∨
         ∃ i, i < rec.num_stripes ∧ exist.stripes[i]? ≠ rec.stripes[i]?) := by
    simp only [chunk_record_memcmp, Bool.not_eq_true', Bool.and_eq_false_iff,
      decide_eq_false_iff_not, take_eq_take_iff, hgen, not_true_eq_false, false_or,
      not_forall, ne_eq, exists_prop]
    tauto
  refine ⟨_, hloop, htop, ?_, ?_⟩
  · rw [← hcmp]
    by_cases hd : exist.num_stripes ≠ rec.num_stripes ∨ chunk_record_memcmp exist rec = true
    · simp [hd]
    · simp only [if_neg hd, hd, iff_false]
      decide
  · have hneg : (exist.num_stripes = rec.num_stripes ∧ exist.offset = rec.offset ∧
         exist.owner = rec.owner ∧ exist.length = rec.length ∧
         exist.type_flags = rec.type_flags ∧ exist.stripe_len = rec.stripe_len ∧
         exist.sub_stripes = rec.sub_stripes ∧ exist.io_align = rec.io_align ∧
         exist.io_width = rec.io_width ∧ exist.sector_size = rec.sector_size ∧
         ∀ i, i < rec.num_stripes → exist.stripes[i]? = rec.stripes[i]?) ↔
        ¬ (exist.num_stripes ≠ rec.num_stripes ∨
          chunk_record_memcmp exist rec = true) := by
      rw [hcmp]
      simp only [not_or, not_exists, not_and, ne_eq, not_not]
    rw [hneg]
    by_cases hd : exist.num_stripes ≠ rec.num_stripes ∨ chunk_record_memcmp exist rec = true
    · simp only [if_pos hd, hd, not_true_eq_false, iff_false]
      decide
    · simp [hd]

/-- C2, on two equal-generation copies of one chunk item that differ only in a
stripe offset: the routine reports -EEXIST and the store is unchanged. -/
theorem process_chunk_item_equal_generation_witness :
    process_chunk_item [sample_chunk 5 0] (sample_chunk 5 8192) =
      some (-EEXIST, [sample_chunk 5 0]) := by
  obtain ⟨ret, _, htop, hiff, _⟩ :=
    process_chunk_item_equal_generation [sample_chunk 5 0] (sample_chunk 5 8192)
      (sample_chunk 5 0) (by decide) (by decide) (by decide)
  have hret : ret = -EEXIST :=
    hiff.mpr (by
      right; right; right; right; right; right; right; right; right; right
      exact ⟨0, by decide, by decide⟩)
  rw [htop, hret]

/-- C3: each of the three submission routines returns, and if no two records of
the container collide before the call (for device extents: same device id and
overlapping physical range), none collide after it, whatever the candidate and
whatever the status. -/
theorem record_store_no_collision :
    (∀ (bg_cache : block_group_tree) (rec : block_group_record),
      collision_free block_group_hit bg_cache.tree →
      ∃ ret st, process_block_group_item bg_cache rec = some (ret, st) ∧
        collision_free block_group_hit st.tree) ∧
    (∀ (chunk_cache : cache_tree chunk_record) (rec : chunk_record),
      collision_free chunk_hit chunk_cache →
      ∃ ret st, process_chunk_item chunk_cache rec = some (ret, st) ∧
        collision_free chunk_hit st) ∧
    (∀ (devext_cache : device_extent_tree) (rec : device_extent_record),
      collision_free device_extent_hit devext_cache.tree →
      ∃ ret st, process_device_extent_item devext_cache rec = some (ret, st) ∧
        collision_free device_extent_hit st.tree) := by
  refine ⟨?_, ?_, ?_⟩
  · intro bg_cache rec h
    obtain ⟨bgs, heq⟩ := process_block_group_item_eq bg_cache rec
    by_cases hz : rec.cache.size = 0
    · exact ⟨0, bg_cache, by rw [heq, if_pos hz], h⟩
    · rw [if_neg hz] at heq
      exact ⟨_, _, heq, store_submit_pairwise _ _ _ rec bg_cache.tree h⟩
  · intro chunk_cache rec h
    have heq := process_chunk_item_eq chunk_cache rec
    by_cases hz : rec.length = 0
    · exact ⟨0, chunk_cache, by rw [heq, if_pos hz], h⟩
    · rw [if_neg hz] at heq
      exact ⟨_, _, heq, store_submit_pairwise _ _ _ rec chunk_cache h⟩
  · intro devext_cache rec h
    obtain ⟨l1, l2, heq⟩ := process_device_extent_item_eq devext_cache rec
    by_cases hz : rec.cache.size = 0
    · exact ⟨0, devext_cache, by rw [heq, if_pos hz], h⟩
    · rw [if_neg hz] at heq
      exact ⟨_, _, heq, store_submit_pairwise _ _ _ rec devext_cache.tree h⟩

/-- C3, on a chunk store holding the generation-5 sample chunk and receiving its
generation-7 copy. -/
theorem record_store_no_collision_witness :
    collision_free chunk_hit [sample_chunk 5 0] ∧
    ∃ ret st, process_chunk_item [sample_chunk 5 0] (sample_chunk 7 0) = some (ret, st) ∧
      collision_free chunk_hit st :=
  ⟨by simp [collision_free],
   record_store_no_collision.2.1 [sample_chunk 5 0] (sample_chunk 7 0)
     (by simp [collision_free])⟩

/-- C4: each of the three submission routines returns, and unless that first
submission reports -EEXIST, submitting the same record again at once returns 0
and leaves the store exactly as the first submission left it. -/
theorem record_store_idempotent :
    (∀ (bg_cache : block_group_tree) (rec : block_group_record),
      ∃ ret st, process_block_group_item bg_cache rec = some (ret, st) ∧
        (ret ≠ -EEXIST → process_block_group_item st rec = some (0, st))) ∧
    (∀ (chunk_cache : cache_tree chunk_record) (rec : chunk_record),
      ∃ ret st, process_chunk_item chunk_cache rec = some (ret, st) ∧
        (ret ≠ -EEXIST → process_chunk_item st rec = some (0, st))) ∧
    (∀ (devext_cache : device_extent_tree) (rec : device_extent_record),
      ∃ ret st, process_device_extent_item devext_cache rec = some (ret, st) ∧
        (ret ≠ -EEXIST → process_device_extent_item st rec = some (0, st))) := by
  refine ⟨?_, ?_, ?_⟩
  · intro bg_cache rec
    obtain ⟨bgs, heq⟩ := process_block_group_item_eq bg_cache rec
    by_cases hz : rec.cache.size = 0
    · refine ⟨0, bg_cache, by rw [heq, if_pos hz], fun _ => ?_⟩
      simp [process_block_group_item, hz]
    · rw [if_neg hz] at heq
      refine ⟨_, _, heq, fun hret => ?_⟩
      obtain ⟨e, hfind, hg⟩ := store_submit_settled block_group_hit
        block_group_record.generation block_group_record_memcmp rec
        (extents_collide_self _ _ hz) (by simp [block_group_record_memcmp]) bg_cache.tree hret
      simp only [process_block_group_item, if_neg hz, process_block_group_item_again_eq]
      rw [store_again_settled _ _ _ _ _ rec e _ _ _ hfind hg]
      rfl
  · intro chunk_cache rec
    have heq := process_chunk_item_eq chunk_cache rec
    by_cases hz : rec.length = 0
    · refine ⟨0, chunk_cache, by rw [heq, if_pos hz], fun _ => ?_⟩
      rw [process_chunk_item_eq, if_pos hz]
    · rw [if_neg hz] at heq
      refine ⟨_, _, heq, fun hret => ?_⟩
      obtain ⟨e, hfind, hg⟩ := store_submit_settled chunk_hit
        chunk_record.generation chunk_differ rec
        (extents_collide_self _ _ hz) (chunk_differ_self rec) chunk_cache hret
      have hz2 : ¬ rec.cache.size = 0 := hz
      simp only [process_chunk_item, if_neg hz2, process_chunk_item_again_eq]
      rw [store_again_settled _ _ _ _ _ rec e _ _ _ hfind hg]
      rfl
  · intro devext_cache rec
    obtain ⟨l1, l2, heq⟩ := process_device_extent_item_eq devext_cache rec
    by_cases hz : rec.cache.size = 0
    · refine ⟨0, devext_cache, by rw [heq, if_pos hz], fun _ => ?_⟩
      simp [process_device_extent_item, hz]
    · rw [if_neg hz] at heq
      refine ⟨_, _, heq, fun hret => ?_⟩
      have hself : device_extent_hit rec rec = true := by
        simp [device_extent_hit, extents_collide_self _ _ hz]
      obtain ⟨e, hfind, hg⟩ := store_submit_settled device_extent_hit
        device_extent_record.generation device_extent_record_memcmp rec
        hself (by simp [device_extent_record_memcmp]) devext_cache.tree hret
      simp only [process_device_extent_item, if_neg hz, process_device_extent_item_again_eq]
      rw [store_again_settled _ _ _ _ _ rec e _ _ _ hfind hg]
      rfl

/-! ## Generation monotonicity -/

theorem store_submit_keep {α : Type} (hit : α → α → Bool) (gen : α → Nat)
    (differ : α → α → Bool) (rec : α) :
    ∀ (l : List α) (x : α), x ∈ l →
      x ∈ (store_submit hit gen differ l rec).2 ∨ (hit x rec = true ∧ gen x < gen rec) := by
  intro l
  induction l with
  | nil => intro x hx; simp at hx
  | cons e l ih =>
    intro x hx
    simp only [store_submit]
    by_cases he : hit e rec = true
    · rw [if_pos he]
      by_cases h1 : gen e > gen rec
      · rw [if_pos h1]; exact Or.inl hx
      · rw [if_neg h1]
        by_cases h2 : gen e = gen rec
        · rw [if_pos h2]; exact Or.inl hx
        · rw [if_neg h2]
          rcases List.mem_cons.mp hx with h | h
          · right; rw [h]; exact ⟨he, by omega⟩
          · exact ih x h
    · rw [if_neg he]
      rcases List.mem_cons.mp hx with h | h
      · left; rw [h]; exact List.mem_cons_self _ _
      · rcases ih x h with h3 | h3
        · left; exact List.mem_cons_of_mem _ h3
        · right; exact h3

theorem store_submit_winner {α : Type} (hit : α → α → Bool) (gen : α → Nat)
    (differ : α → α → Bool) (rec : α) (hself : hit rec rec = true) :
    ∀ (l : List α), ∃ w, w ∈ (store_submit hit gen differ l rec).2 ∧
      hit w rec = true ∧ gen rec ≤ gen w := by
  intro l
  induction l with
  | nil => exact ⟨rec, by simp [store_submit], hself, le_refl _⟩
  | cons e l ih =>
    simp only [store_submit]
    by_cases he : hit e rec = true
    · rw [if_pos he]
      by_cases h1 : gen e > gen rec
      · rw [if_pos h1]; exact ⟨e, List.mem_cons_self _ _, he, by omega⟩
      · rw [if_neg h1]
        by_cases h2 : gen e = gen rec
        · rw [if_pos h2]; exact ⟨e, List.mem_cons_self _ _, he, by omega⟩
        · rw [if_neg h2]; exact ih
    · rw [if_neg he]
      obtain ⟨w, hw, h⟩ := ih
      exact ⟨w, List.mem_cons_of_mem _ hw, h⟩

theorem chunk_hit_symm (a b : chunk_record) : chunk_hit a b = chunk_hit b a := by
  simp only [chunk_hit, chunk_record.cache, extents_collide, max_comm, min_comm]

theorem chunk_hit_length (a b : chunk_record) (h : chunk_hit a b = true) :
    a.length ≠ 0 := by
  intro hz
  simp only [chunk_hit, chunk_record.cache, extents_collide, decide_eq_true_eq, hz] at h
  have h1 := lt_of_le_of_lt (le_max_left _ _) h
  have h2 := lt_of_lt_of_le h1 (min_le_left _ _)
  omega

theorem chunk_hit_same_interval (a b c : chunk_record) (ho : a.offset = b.offset)
    (hl : a.length = b.length) : chunk_hit a c = chunk_hit b c := by
  simp only [chunk_hit, chunk_record.cache, ho, hl]

theorem collision_free_mem_eq {α : Type} (hit : α → α → Bool)
    (hsymm : ∀ a b, hit a b = hit b a) :
    ∀ (l : List α), collision_free hit l → ∀ a ∈ l, ∀ b ∈ l, hit a b = true → a = b := by
  intro l
  induction l with
  | nil => intro _ a ha; simp at ha
  | cons e l ih =>
    intro hp a ha b hb hab
    have hp2 := List.pairwise_cons.mp hp
    rcases List.mem_cons.mp ha with h1 | h1 <;> rcases List.mem_cons.mp hb with h2 | h2
    · rw [h1, h2]
    · have := hp2.1 b h2
      rw [h1] at hab
      rw [hab] at this
      exact Bool.noConfusion this
    · have := hp2.1 a h1
      rw [h2, hsymm] at hab
      rw [hab] at this
      exact Bool.noConfusion this
    · exact ih hp2.2 a h1 b h2 hab

/-- The invariant carried along a sequence of chunk submissions whose intervals
are pairwise equal or disjoint. -/
theorem submit_chunks_invariant :
    ∀ (rest done : List chunk_record) (t : cache_tree chunk_record),
      (∀ a ∈ done ++ rest, ∀ b ∈ done ++ rest, chunk_hit a b = true →
        a.offset = b.offset ∧ a.length = b.length) →
      (∀ r ∈ t, r ∈ done) → collision_free chunk_hit t →
      (∀ s ∈ done, s.length ≠ 0 → ∃ r ∈ t, r.offset = s.offset ∧ r.length = s.length ∧
        s.generation ≤ r.generation) →
      ∃ rets final, submit_chunks t rest = some (rets, final) ∧
        (∀ r ∈ final, r ∈ done ++ rest) ∧ collision_free chunk_hit final ∧
        (∀ s ∈ done ++ rest, s.length ≠ 0 → ∃ r ∈ final, r.offset = s.offset ∧
          r.length = s.length ∧ s.generation ≤ r.generation) := by
  intro rest
  induction rest with
  | nil =>
    intro done t _ h1 h2 h3
    refine ⟨[], t, rfl, ?_, h2, ?_⟩
    · simpa using h1
    · simpa using h3
  | cons rec rest ih =>
    intro done t hsame h1 h2 h3
    have hsame2 : ∀ a ∈ (done ++ [rec]) ++ rest, ∀ b ∈ (done ++ [rec]) ++ rest,
        chunk_hit a b = true → a.offset = b.offset ∧ a.length = b.length := by
      intro a ha b hb
      exact hsame a (by simpa using ha) b (by simpa using hb)
    have hrec_mem : rec ∈ done ++ rec :: rest := by simp
    have hdone_mem : ∀ x ∈ done, x ∈ done ++ rec :: rest := by
      intro x hx; simp [hx]
    by_cases hz : rec.length = 0
    · have hstep : process_chunk_item t rec = some (0, t) := by
        rw [process_chunk_item_eq, if_pos hz]
      obtain ⟨rets, final, hrun, g1, g2, g3⟩ := ih (done ++ [rec]) t hsame2
        (fun r hr => List.mem_append_left _ (h1 r hr)) h2
        (by
          intro s hs hsz
          rcases List.mem_append.mp hs with h | h
          · exact h3 s h hsz
          · simp at h
            rw [h] at hsz
            exact absurd hz hsz)
      refine ⟨0 :: rets, final, by simp [submit_chunks, hstep, hrun], ?_, g2, ?_⟩
      · intro r hr; simpa using g1 r hr
      · intro s hs; exact g3 s (by simpa using hs)
    · have hstep : process_chunk_item t rec =
          some (store_submit chunk_hit chunk_record.generation chunk_differ t rec) := by
        rw [process_chunk_item_eq, if_neg hz]
      have hself : chunk_hit rec rec = true := extents_collide_self _ _ hz
      have hmem := store_submit_mem chunk_hit chunk_record.generation chunk_differ rec t
      have hkeep := store_submit_keep chunk_hit chunk_record.generation chunk_differ rec t
      obtain ⟨w, hw, hwhit, hwgen⟩ :=
        store_submit_winner chunk_hit chunk_record.generation chunk_differ rec hself t
      have hw_sub : w ∈ done ++ rec :: rest := by
        rcases hmem w hw with h | h
        · exact hdone_mem w (h1 w h)
        · rw [h]; exact hrec_mem
      have hw_int := hsame w hw_sub rec hrec_mem hwhit
      obtain ⟨rets, final, hrun, g1, g2, g3⟩ := ih (done ++ [rec])
        (store_submit chunk_hit chunk_record.generation chunk_differ t rec).2 hsame2
        (by
          intro r hr
          rcases hmem r hr with h | h
          · exact List.mem_append_left _ (h1 r h)
          · simp [h])
        (store_submit_pairwise _ _ _ rec t h2)
        (by
          intro s hs hsz
          rcases List.mem_append.mp hs with h | h
          · obtain ⟨r, hr, ro, rl, rg⟩ := h3 s h hsz
            rcases hkeep r hr with hk | ⟨hhit, hlt⟩
            · exact ⟨r, hk, ro, rl, rg⟩
            · have hr_int := hsame r (hdone_mem r (h1 r hr)) rec hrec_mem hhit
              exact ⟨w, hw, by rw [hw_int.1, ← hr_int.1, ro],
                by rw [hw_int.2, ← hr_int.2, rl], by omega⟩
          · simp at h
            rw [h]
            exact ⟨w, hw, hw_int.1, hw_int.2, hwgen⟩)
      refine ⟨(store_submit chunk_hit chunk_record.generation chunk_differ t rec).1 :: rets,
        final, by simp [submit_chunks, hstep, hrun], ?_, g2, ?_⟩
      · intro r hr; simpa using g1 r hr
      · intro s hs; exact g3 s (by simpa using hs)

/-- C5, as amended: for every sequence of submissions to a chunk store starting
from the empty store (none of which reported -EEXIST) in which any two submitted
records have either the same interval or non-colliding intervals, the run
returns and every record held in the store at the end has a generation at least
that of every submitted record whose interval collides with its own. -/
theorem chunk_store_generation_max (subs : List chunk_record)
    (hsame : ∀ a ∈ subs, ∀ b ∈ subs, chunk_hit a b = true →
      a.offset = b.offset ∧ a.length = b.length) :
    ∃ rets final, submit_chunks [] subs = some (rets, final) ∧
      (-EEXIST ∉ rets → ∀ r ∈ final, ∀ s ∈ subs, chunk_hit s r = true →
        s.generation ≤ r.generation) := by
  obtain ⟨rets, final, hrun, g1, g2, g3⟩ := submit_chunks_invariant subs [] []
    (by simpa using hsame) (by simp) (by simp [collision_free]) (by simp)
  refine ⟨rets, final, hrun, fun _ r hr s hs hhit => ?_⟩
  obtain ⟨r2, hr2, ho, hl, hg⟩ := g3 s (by simpa using hs) (chunk_hit_length s r hhit)
  have hhit2 : chunk_hit r2 r = true := by
    rw [chunk_hit_same_interval r2 s r ho hl]; exact hhit
  have heq := collision_free_mem_eq chunk_hit chunk_hit_symm final g2 r2 hr2 r hr hhit2
  rw [← heq]; exact hg

/-- C5 as amended, on the generation-5 and generation-7 copies of one chunk
item submitted in either order of age. -/
theorem chunk_store_generation_max_witness :
    (∀ a ∈ [sample_chunk 7 0, sample_chunk 5 0], ∀ b ∈ [sample_chunk 7 0, sample_chunk 5 0],
      chunk_hit a b = true → a.offset = b.offset ∧ a.length = b.length) ∧
    ∃ rets final, submit_chunks [] [sample_chunk 7 0, sample_chunk 5 0] =
        some (rets, final) ∧
      (-EEXIST ∉ rets → ∀ r ∈ final, ∀ s ∈ [sample_chunk 7 0, sample_chunk 5 0],
        chunk_hit s r = true → s.generation ≤ r.generation) :=
  ⟨by decide, chunk_store_generation_max [sample_chunk 7 0, sample_chunk 5 0] (by decide)⟩

/-- C5 fails as stated: submit a generation-5 chunk on `[0, 10)`, then a
generation-7 chunk on `[5, 15)` (which evicts the first), then a generation-1
chunk on `[0, 5)`. No submission reports -EEXIST, the generation-1 record is in
the final store, and it collides with the submitted generation-5 record. -/
theorem chunk_store_generation_not_max :
    submit_chunks [] [chunk_at 5 0 10, chunk_at 7 5 10, chunk_at 1 0 5] =
        some ([0, 0, 0], [chunk_at 7 5 10, chunk_at 1 0 5]) ∧
      chunk_at 1 0 5 ∈ [chunk_at 7 5 10, chunk_at 1 0 5] ∧
      chunk_at 5 0 10 ∈ [chunk_at 5 0 10, chunk_at 7 5 10, chunk_at 1 0 5] ∧
      chunk_hit (chunk_at 5 0 10) (chunk_at 1 0 5) = true ∧
      ¬ (chunk_at 5 0 10).generation ≤ (chunk_at 1 0 5).generation := by
  refine ⟨by decide, by decide, by decide, by decide, by decide⟩

/-! ## Scanner -/

theorem same_config_refl (rc : recover_control) : same_config rc rc :=
  ⟨rfl, rfl, rfl, rfl, rfl, rfl⟩

theorem same_config_trans (a b c : recover_control) (h1 : same_config a b)
    (h2 : same_config b c) : same_config a c := by
  unfold same_config at h1 h2 ⊢
  refine ⟨?_, ?_, ?_, ?_, ?_, ?_⟩
  · rw [h2.1, h1.1]
  · rw [h2.2.1, h1.2.1]
  · rw [h2.2.2.1, h1.2.2.1]
  · rw [h2.2.2.2.1, h1.2.2.2.1]
  · rw [h2.2.2.2.2.1, h1.2.2.2.2.1]
  · rw [h2.2.2.2.2.2, h1.2.2.2.2.2]

theorem extract_metadata_record_from_config (lib : scan_library) (leaf : extent_buffer) :
    ∀ (n i : Nat) (rc : recover_control) (ret : Int) (rc2 : recover_control),
      extract_metadata_record_from lib leaf n i rc = some (ret, rc2) → same_config rc rc2 := by
  intro n
  induction n with
  | zero =>
    intro i rc ret rc2 h
    simp only [extract_metadata_record_from, Option.some.injEq, Prod.mk.injEq] at h
    rw [← h.2]; exact same_config_refl rc
  | succ n ih =>
    intro i rc ret rc2 h
    simp only [extract_metadata_record_from] at h
    split at h
    · cases h
    · rename_i ret1 rc1 hstep
      have hc1 : same_config rc rc1 := by
        split_ifs at hstep with k1 k2 k3
        · simp only [Option.map_eq_some'] at hstep
          obtain ⟨r, _, hr⟩ := hstep
          cases hr
          exact ⟨rfl, rfl, rfl, rfl, rfl, rfl⟩
        · simp only [Option.map_eq_some'] at hstep
          obtain ⟨r, _, hr⟩ := hstep
          cases hr
          exact ⟨rfl, rfl, rfl, rfl, rfl, rfl⟩
        · simp only [Option.map_eq_some'] at hstep
          obtain ⟨r, _, hr⟩ := hstep
          cases hr
          exact ⟨rfl, rfl, rfl, rfl, rfl, rfl⟩
        · cases hstep
          exact same_config_refl rc
      split_ifs at h with hret
      · cases h; exact hc1
      · exact same_config_trans _ _ _ hc1 (ih _ _ _ _ h)

theorem log_consistent_read (lib : scan_library) (fd : device_image) (rc : recover_control)
    (log : scan_log) (b : Nat) (h : log_consistent lib fd rc log)
    (hno : ¬ (rc.leafsize ≤ pread64 fd rc.leafsize b ∧ scan_accepts lib rc (fd.block b))) :
    log_consistent lib fd rc { log with reads := log.reads ++ [b] } := by
  intro x
  constructor
  · intro hx
    obtain ⟨h1, h2, h3⟩ := (h x).mp hx
    exact ⟨List.mem_append_left _ h1, h2, h3⟩
  · rintro ⟨h1, h2, h3⟩
    rcases List.mem_append.mp h1 with h4 | h4
    · exact (h x).mpr ⟨h4, h2, h3⟩
    · simp at h4
      rw [h4] at h2 h3
      exact absurd ⟨h2, h3⟩ hno

theorem log_consistent_extract (lib : scan_library) (fd : device_image)
    (rc : recover_control) (log : scan_log) (b : Nat) (h : log_consistent lib fd rc log)
    (hyes : rc.leafsize ≤ pread64 fd rc.leafsize b ∧ scan_accepts lib rc (fd.block b)) :
    log_consistent lib fd rc
      { reads := log.reads ++ [b], extracted := log.extracted ++ [b] } := by
  intro x
  constructor
  · intro hx
    rcases List.mem_append.mp hx with h4 | h4
    · obtain ⟨h1, h2, h3⟩ := (h x).mp h4
      exact ⟨List.mem_append_left _ h1, h2, h3⟩
    · simp at h4
      rw [h4]
      exact ⟨by simp, hyes.1, hyes.2⟩
  · rintro ⟨h1, h2, h3⟩
    rcases List.mem_append.mp h1 with h4 | h4
    · exact List.mem_append_left _ ((h x).mpr ⟨h4, h2, h3⟩)
    · simp at h4
      rw [h4]; simp

theorem scan_one_device_loop_log (lib : scan_library) (fd : device_image)
    (rc0 : recover_control) :
    ∀ (fuel : Nat) (rc : recover_control) (bytenr : Nat) (log : scan_log),
      same_config rc0 rc → log_consistent lib fd rc0 log →
      log_consistent lib fd rc0 (scan_one_device_loop lib fd fuel rc bytenr log).2.2 := by
  intro fuel
  induction fuel with
  | zero => intro rc bytenr log _ h; exact h
  | succ f ih =>
    intro rc bytenr log hc h
    obtain ⟨c1, c2, c3, c4, c5, c6⟩ := hc
    have hc : same_config rc0 rc := ⟨c1, c2, c3, c4, c5, c6⟩
    simp only [scan_one_device_loop]
    generalize (if is_super_block_address bytenr = true
      then (bytenr + rc.sectorsize) % 2 ^ 64 else bytenr) = b
    simp only [c1, c2, c3, c4, c5, c6]
    have hread := fun hno => log_consistent_read lib fd rc0 log b h hno
    have hextract := fun hyes => log_consistent_extract lib fd rc0 log b h hyes
    by_cases hshort : pread64 fd rc0.leafsize b < rc0.leafsize
    · rw [if_pos hshort]
      exact hread (fun hx => absurd hx.1 (by omega))
    rw [if_neg hshort]
    by_cases hfsid : (fd.block b).fsid ≠ rc0.fs_devices.fsid
    · rw [if_pos hfsid]
      exact ih rc _ _ hc (hread (fun hx => hfsid hx.2.1))
    rw [if_neg hfsid]
    by_cases hcsum : lib.verify_tree_block_csum_silent (fd.block b) rc0.csum_size ≠ 0
    · rw [if_pos hcsum]
      exact ih rc _ _ hc (hread (fun hx => hcsum hx.2.2.1))
    rw [if_neg hcsum]
    by_cases hlevel : (fd.block b).level ≠ 0
    · rw [if_pos hlevel]
      exact ih rc _ _ hc (hread (fun hx => hlevel hx.2.2.2.1))
    rw [if_neg hlevel]
    have hfull : rc0.leafsize ≤ pread64 fd rc0.leafsize b := by omega
    have hfsid2 : (fd.block b).fsid = rc0.fs_devices.fsid := by
      by_contra hk; exact hfsid hk
    have hcsum2 : lib.verify_tree_block_csum_silent (fd.block b) rc0.csum_size = 0 := by
      by_contra hk; exact hcsum hk
    have hlevel2 : (fd.block b).level = 0 := by
      by_contra hk; exact hlevel hk
    have hCE : BTRFS_CHUNK_TREE_OBJECTID ≠ BTRFS_EXTENT_TREE_OBJECTID := by decide
    have hCD : BTRFS_CHUNK_TREE_OBJECTID ≠ BTRFS_DEV_TREE_OBJECTID := by decide
    by_cases howner : (fd.block b).owner = BTRFS_EXTENT_TREE_OBJECTID ∨
        (fd.block b).owner = BTRFS_DEV_TREE_OBJECTID
    · rw [if_pos howner]
      by_cases hgen : (fd.block b).generation > rc0.generation
      · rw [if_pos hgen]
        refine ih rc _ _ hc (hread ?_)
        rintro ⟨_, _, _, _, hx | hx⟩
        · omega
        · rcases howner with ho | ho
          · rw [ho] at hx; exact hCE hx.1.symm
          · rw [ho] at hx; exact hCD hx.1.symm
      · rw [if_neg hgen]
        have hlog := hextract ⟨hfull, hfsid2, hcsum2, hlevel2, Or.inl ⟨howner, by omega⟩⟩
        cases hex : extract_metadata_record lib rc (fd.block b) with
        | none => exact hlog
        | some r =>
          obtain ⟨ret, rc2⟩ := r
          have hc2 := same_config_trans _ _ _ hc
            (extract_metadata_record_from_config lib _ _ _ _ _ _ hex)
          simp only []
          by_cases hret : ret ≠ 0
          · rw [if_pos hret]; exact hlog
          · rw [if_neg hret]; exact ih rc2 _ _ hc2 hlog
    · rw [if_neg howner]
      by_cases hchunk : (fd.block b).owner = BTRFS_CHUNK_TREE_OBJECTID
      · rw [if_pos hchunk]
        by_cases hgen : (fd.block b).generation > rc0.chunk_root_generation
        · rw [if_pos hgen]
          refine ih rc _ _ hc (hread ?_)
          rintro ⟨_, _, _, _, hx | hx⟩
          · exact howner hx.1
          · omega
        · rw [if_neg hgen]
          have hlog := hextract ⟨hfull, hfsid2, hcsum2, hlevel2, Or.inr ⟨hchunk, by omega⟩⟩
          cases hex : extract_metadata_record lib rc (fd.block b) with
          | none => exact hlog
          | some r =>
            obtain ⟨ret, rc2⟩ := r
            have hc2 := same_config_trans _ _ _ hc
              (extract_metadata_record_from_config lib _ _ _ _ _ _ hex)
            simp only []
            by_cases hret : ret ≠ 0
            · rw [if_pos hret]; exact hlog
            · rw [if_neg hret]; exact ih rc2 _ _ hc2 hlog
      · rw [if_neg hchunk]
        refine ih rc _ _ hc (hread ?_)
        rintro ⟨_, _, _, _, hx | hx⟩
        · exact howner hx.1
        · exact hchunk hx.1

/-! ## Metadata cross-check -/

/-- C7 fails on the code. One good chunk whose device extent is missing from the
device tree: its check returns -ENOENT, it is moved to the tail of the local
orphan list, and `list_for_each_entry` then steps through its `next` pointer to
the head of the orphan list (address 3), which is not the `good_chunks` head
(address 1), so the loop body runs on an address that holds no chunk record. -/
theorem check_all_chunks_by_metadata_walks_off :
    check_chunk_by_metadata empty_trees (sample_chunk 5 0) 0 = -ENOENT ∧
    list_entries one_good_chunk_memory 1 8 (one_good_chunk_memory 1).next = [10] ∧
    list_entries one_good_chunk_memory 2 8 (one_good_chunk_memory 2).next = [] ∧
    ∀ fuel, check_all_chunks_by_metadata empty_trees one_good_chunk_at 1 2 3
      one_good_chunk_memory (fuel + 2) = list_walk.stray 3 := by
  refine ⟨by decide, by decide, by decide, ?_⟩
  intro fuel
  rfl

/-! ## Rebuilder -/

theorem create_chunk_item_some (record : chunk_record) (h : record.num_stripes ≠ 0) :
    ∃ chunk, create_chunk_item record = some chunk ∧
      chunk.length = record.length ∧ chunk.owner = record.owner ∧
      chunk.stripe_len = record.stripe_len ∧ chunk.type = record.type_flags ∧
      chunk.io_align = record.io_align ∧ chunk.io_width = record.io_width ∧
      chunk.sector_size = record.sector_size ∧ chunk.num_stripes = record.num_stripes ∧
      chunk.sub_stripes = record.sub_stripes ∧
      chunk.stripe.length = record.num_stripes ∧
      (∀ i, i < record.num_stripes → chunk.stripe[i]? =
        some { devid := (record.stripes.getD i default).devid,
               offset := (record.stripes.getD i default).offset,
               dev_uuid := (record.stripes.getD i default).dev_uuid }) ∧
      (record.stripes.length = record.num_stripes →
        chunk.stripe.map (fun s => stripe.mk s.devid s.offset s.dev_uuid) =
          record.stripes) := by
  unfold create_chunk_item
  rw [if_neg h]
  refine ⟨_, rfl, rfl, rfl, rfl, rfl, rfl, rfl, rfl, rfl, rfl, by simp, ?_, ?_⟩
  · intro i hi
    simp [hi]
  · intro hlen
    apply List.ext_getElem?
    intro i
    by_cases hi : i < record.num_stripes
    · have hi2 : i < record.stripes.length := by omega
      simp [hi, List.getD_eq_getElem?_getD, List.getElem?_eq_getElem hi2]
    · have hi2 : record.stripes.length ≤ i := by omega
      simp [hi, List.getElem?_eq_none hi2]
      omega

theorem rebuild_chunk_items_spec (btrfs_chunk_item_size : Nat → Nat)
    (insert_status : List chunk_tree_item → chunk_tree_item → Int)
    (hins : ∀ t it, insert_status t it = 0) :
    ∀ (good_chunks : List chunk_record) (chunk_root : List chunk_tree_item),
      (∀ r ∈ good_chunks, r.num_stripes ≠ 0) →
      ∃ items, __rebuild_chunk_items btrfs_chunk_item_size insert_status good_chunks
          chunk_root = (0, chunk_root ++ items) ∧
        List.Forall₂ (fun r it =>
          it.key.objectid = BTRFS_FIRST_CHUNK_TREE_OBJECTID ∧
          it.key.type = BTRFS_CHUNK_ITEM_KEY ∧ it.key.offset = r.offset ∧
          it.size = btrfs_chunk_item_size r.num_stripes ∧
          create_chunk_item r = some it.data) good_chunks items := by
  intro good_chunks
  induction good_chunks with
  | nil => intro chunk_root _; exact ⟨[], by simp [__rebuild_chunk_items], List.Forall₂.nil⟩
  | cons r rest ih =>
    intro chunk_root hs
    obtain ⟨chunk, hc, hrest⟩ := create_chunk_item_some r (hs r (List.mem_cons_self _ _))
    obtain ⟨items, hrun, hall⟩ := ih
      (chunk_root ++ [{ key := { objectid := BTRFS_FIRST_CHUNK_TREE_OBJECTID,
                                 type := BTRFS_CHUNK_ITEM_KEY, offset := r.offset },
                        data := chunk,
                        size := btrfs_chunk_item_size chunk.num_stripes }])
      (fun x hx => hs x (List.mem_cons_of_mem _ hx))
    refine ⟨chunk_tree_item.mk (btrfs_key.mk BTRFS_FIRST_CHUNK_TREE_OBJECTID
      BTRFS_CHUNK_ITEM_KEY r.offset) chunk (btrfs_chunk_item_size chunk.num_stripes) :: items,
      ?_, List.Forall₂.cons ⟨rfl, rfl, rfl, ?_, hc⟩ hall⟩
    · simp only [__rebuild_chunk_items, hc, btrfs_insert_item, hins, ne_eq,
        not_true_eq_false, if_false, hrun, List.append_assoc, List.singleton_append]
    · simp only [hrest.2.2.2.2.2.2.2.1]

/-- C9, as amended: when no insertion fails and every record of good_chunks has
at least one stripe, __rebuild_chunk_items returns 0 having inserted exactly one
item per record, in list order, with key (BTRFS_FIRST_CHUNK_TREE_OBJECTID,
CHUNK_ITEM, record.offset) and size btrfs_chunk_item_size(num_stripes), whose
payload is the one create_chunk_item builds and carries the record's length,
owner, stripe length, type flags, io align, io width, sector size, num_stripes
and sub-stripes, and whose i-th stripe is the record's i-th stripe for every i
below num_stripes; for a record holding exactly num_stripes stripes the item
decodes to the record's (offset, length, type, stripes). -/
theorem rebuild_chunk_items_emits (btrfs_chunk_item_size : Nat → Nat)
    (insert_status : List chunk_tree_item → chunk_tree_item → Int)
    (good_chunks : List chunk_record) (chunk_root : List chunk_tree_item)
    (hins : ∀ t it, insert_status t it = 0)
    (hstripes : ∀ r ∈ good_chunks, r.num_stripes ≠ 0) :
    ∃ items, __rebuild_chunk_items btrfs_chunk_item_size insert_status good_chunks
        chunk_root = (0, chunk_root ++ items) ∧
      List.Forall₂ (fun r it =>
        it.key.objectid = BTRFS_FIRST_CHUNK_TREE_OBJECTID ∧
        it.key.type = BTRFS_CHUNK_ITEM_KEY ∧ it.key.offset = r.offset ∧
        it.size = btrfs_chunk_item_size r.num_stripes ∧
        create_chunk_item r = some it.data ∧
        it.data.length = r.length ∧ it.data.owner = r.owner ∧
        it.data.stripe_len = r.stripe_len ∧ it.data.type = r.type_flags ∧
        it.data.io_align = r.io_align ∧ it.data.io_width = r.io_width ∧
        it.data.sector_size = r.sector_size ∧ it.data.num_stripes = r.num_stripes ∧
        it.data.sub_stripes = r.sub_stripes ∧
        it.data.stripe.length = r.num_stripes ∧
        (∀ i, i < r.num_stripes → it.data.stripe[i]? =
          some { devid := (r.stripes.getD i default).devid,
                 offset := (r.stripes.getD i default).offset,
                 dev_uuid := (r.stripes.getD i default).dev_uuid }) ∧
        (r.stripes.length = r.num_stripes →
          decode_chunk_item it = (r.offset, r.length, r.type_flags, r.stripes)))
        good_chunks items := by
  obtain ⟨items, hrun, hall⟩ := rebuild_chunk_items_spec btrfs_chunk_item_size
    insert_status hins good_chunks chunk_root hstripes
  refine ⟨items, hrun, ?_⟩
  refine List.Forall₂.imp ?_ hall
  intro r it ⟨h1, h2, h3, h4, h5⟩
  have hn : r.num_stripes ≠ 0 := by
    intro hz
    simp [create_chunk_item, hz] at h5
  obtain ⟨chunk, hc, g⟩ := create_chunk_item_some r hn
  have hd : it.data = chunk := by
    rw [h5] at hc; exact Option.some.inj hc
  rw [hd]
  refine ⟨h1, h2, h3, h4, by rw [h5, hd], g.1, g.2.1, g.2.2.1, g.2.2.2.1, g.2.2.2.2.1,
    g.2.2.2.2.2.1, g.2.2.2.2.2.2.1, g.2.2.2.2.2.2.2.1, g.2.2.2.2.2.2.2.2.1,
    g.2.2.2.2.2.2.2.2.2.1, g.2.2.2.2.2.2.2.2.2.2.1, ?_⟩
  intro hlen
  simp only [decode_chunk_item, hd, h3, g.1, g.2.2.2.1, g.2.2.2.2.2.2.2.2.2.2.2 hlen]

/-- C9 as amended, on a list holding the sample chunk and a tree where every
insertion succeeds. -/
theorem rebuild_chunk_items_emits_witness :
    ∃ items, __rebuild_chunk_items (fun n => 48 + 32 * n) (fun _ _ => 0)
        [sample_chunk 5 0] [] = (0, [] ++ items) ∧
      List.Forall₂ (fun r it =>
        it.key.objectid = BTRFS_FIRST_CHUNK_TREE_OBJECTID ∧
        it.key.type = BTRFS_CHUNK_ITEM_KEY ∧ it.key.offset = r.offset ∧
        it.size = (fun n => 48 + 32 * n) r.num_stripes ∧
        create_chunk_item r = some it.data ∧
        it.data.length = r.length ∧ it.data.owner = r.owner ∧
        it.data.stripe_len = r.stripe_len ∧ it.data.type = r.type_flags ∧
        it.data.io_align = r.io_align ∧ it.data.io_width = r.io_width ∧
        it.data.sector_size = r.sector_size ∧ it.data.num_stripes = r.num_stripes ∧
        it.data.sub_stripes = r.sub_stripes ∧
        it.data.stripe.length = r.num_stripes ∧
        (∀ i, i < r.num_stripes → it.data.stripe[i]? =
          some { devid := (r.stripes.getD i default).devid,
                 offset := (r.stripes.getD i default).offset,
                 dev_uuid := (r.stripes.getD i default).dev_uuid }) ∧
        (r.stripes.length = r.num_stripes →
          decode_chunk_item it = (r.offset, r.length, r.type_flags, r.stripes)))
        [sample_chunk 5 0] items :=
  rebuild_chunk_items_emits (fun n => 48 + 32 * n) (fun _ _ => 0) [sample_chunk 5 0] []
    (fun _ _ => rfl) (by decide)

/-- C9 fails as stated: with a good chunk that has no stripe, no insertion fails
(none is attempted), yet __rebuild_chunk_items returns -ENOMEM and inserts no
item for the record. -/
theorem rebuild_chunk_items_stripeless :
    create_chunk_item (stripeless_chunk 1) = none ∧
    __rebuild_chunk_items (fun n => 48 + 32 * n) (fun _ _ => 0)
      [stripeless_chunk 1] [] = (-ENOMEM, []) := by
  constructor <;> rfl

theorem sys_array_layout_bound (super_copy : btrfs_super_block) :
    ∀ (es : List sys_chunk_entry) (off : Nat), sys_array_layout super_copy off es →
      off + es.length ≤ super_copy.sys_array_size := by
  intro es
  induction es with
  | nil => intro off h; simp only [sys_array_layout] at h; simp [h]
  | cons e es ih =>
    intro off h
    simp only [sys_array_layout] at h
    have := ih _ h.2.2
    simp only [btrfs_disk_key_size, List.length_cons] at this ⊢
    omega

theorem sys_array_layout_read (super_copy : btrfs_super_block) :
    ∀ (es : List sys_chunk_entry) (off fuel : Nat), sys_array_layout super_copy off es →
      es.length ≤ fuel → read_sys_array_from super_copy fuel off = es := by
  intro es
  induction es with
  | nil =>
    intro off fuel h _
    simp only [sys_array_layout] at h
    cases fuel with
    | zero => rfl
    | succ f => simp [read_sys_array_from, h]
  | cons e es ih =>
    intro off fuel h hf
    simp only [sys_array_layout] at h
    cases fuel with
    | zero => simp at hf
    | succ f =>
      simp only [read_sys_array_from, if_pos h.1, h.2.1]
      rw [ih _ f h.2.2 (by simpa using hf)]

theorem sys_array_layout_append
    (add_status : btrfs_super_block → sys_chunk_entry → Int)
    (hadd : ∀ s e, add_status s e = 0)
    (super_copy : btrfs_super_block) (key : btrfs_key) (chunk : btrfs_chunk)
    (item_size : Nat) :
    (btrfs_add_system_chunk add_status super_copy key chunk item_size).1 = 0 ∧
    ∀ (es : List sys_chunk_entry) (off : Nat), sys_array_layout super_copy off es →
      sys_array_layout (btrfs_add_system_chunk add_status super_copy key chunk item_size).2
        off (es ++ [{ key := key, chunk := chunk, item_size := item_size }]) := by
  have hstep : btrfs_add_system_chunk add_status super_copy key chunk item_size =
      (0, { sys_array_size := super_copy.sys_array_size + btrfs_disk_key_size + item_size,
            sys_chunk_array := fun off =>
              if off = super_copy.sys_array_size then
                some { key := key, chunk := chunk, item_size := item_size }
              else super_copy.sys_chunk_array off }) := by
    simp [btrfs_add_system_chunk, hadd]
  rw [hstep]
  refine ⟨rfl, ?_⟩
  intro es
  induction es with
  | nil =>
    intro off h
    simp only [sys_array_layout] at h
    simp only [List.nil_append, sys_array_layout, h, btrfs_disk_key_size, if_true, and_true]
    omega
  | cons e es ih =>
    intro off h
    simp only [sys_array_layout] at h
    simp only [List.cons_append, sys_array_layout]
    refine ⟨by omega, ?_, ih _ h.2.2⟩
    rw [if_neg (by omega)]
    exact h.2.1

theorem rebuild_sys_array_loop_spec (btrfs_chunk_item_size : Nat → Nat)
    (add_status : btrfs_super_block → sys_chunk_entry → Int)
    (hadd : ∀ s e, add_status s e = 0) :
    ∀ (good_chunks : List chunk_record) (super_copy : btrfs_super_block)
      (es : List sys_chunk_entry),
      (∀ r ∈ good_chunks, r.type_flags &&& BTRFS_BLOCK_GROUP_SYSTEM ≠ 0 →
        r.num_stripes ≠ 0) →
      sys_array_layout super_copy 0 es →
      ∃ added,
        (rebuild_sys_array_loop btrfs_chunk_item_size add_status good_chunks super_copy).1 = 0 ∧
        sys_array_layout
          (rebuild_sys_array_loop btrfs_chunk_item_size add_status good_chunks super_copy).2
          0 (es ++ added) ∧
        List.Forall₂ (fun r e =>
          e.key.objectid = BTRFS_FIRST_CHUNK_TREE_OBJECTID ∧
          e.key.type = BTRFS_CHUNK_ITEM_KEY ∧ e.key.offset = r.offset ∧
          create_chunk_item r = some e.chunk ∧
          e.item_size = btrfs_chunk_item_size r.num_stripes)
          (good_chunks.filter (fun r => decide (r.type_flags &&& BTRFS_BLOCK_GROUP_SYSTEM ≠ 0)))
          added := by
  intro good_chunks
  induction good_chunks with
  | nil =>
    intro super_copy es _ h
    exact ⟨[], rfl, by simpa [rebuild_sys_array_loop] using h, by simp⟩
  | cons r rest ih =>
    intro super_copy es hs h
    have hs2 : ∀ x ∈ rest, x.type_flags &&& BTRFS_BLOCK_GROUP_SYSTEM ≠ 0 →
        x.num_stripes ≠ 0 := fun x hx => hs x (List.mem_cons_of_mem _ hx)
    by_cases hsys : r.type_flags &&& BTRFS_BLOCK_GROUP_SYSTEM = 0
    · obtain ⟨added, h1, h2, h3⟩ := ih super_copy es hs2 h
      refine ⟨added, ?_, ?_, ?_⟩
      · simpa only [rebuild_sys_array_loop, if_pos hsys] using h1
      · simpa only [rebuild_sys_array_loop, if_pos hsys] using h2
      · simpa [List.filter_cons, hsys] using h3
    · obtain ⟨chunk, hc, _⟩ := create_chunk_item_some r (hs r (List.mem_cons_self _ _) hsys)
      obtain ⟨hzero, happ⟩ := sys_array_layout_append add_status hadd super_copy
        (btrfs_key.mk BTRFS_FIRST_CHUNK_TREE_OBJECTID BTRFS_CHUNK_ITEM_KEY r.offset) chunk
        (btrfs_chunk_item_size r.num_stripes)
      obtain ⟨added, h1, h2, h3⟩ := ih _ _ hs2 (happ es 0 h)
      refine ⟨sys_chunk_entry.mk (btrfs_key.mk BTRFS_FIRST_CHUNK_TREE_OBJECTID
        BTRFS_CHUNK_ITEM_KEY r.offset) chunk (btrfs_chunk_item_size r.num_stripes) :: added,
        ?_, ?_, ?_⟩
      · simp only [rebuild_sys_array_loop, if_neg hsys, hc]
        rw [if_neg (by simp [hzero])]
        exact h1
      · simp only [rebuild_sys_array_loop, if_neg hsys, hc]
        rw [if_neg (by simp [hzero])]
        simpa using h2
      · have hfil : List.filter
            (fun r => decide (r.type_flags &&& BTRFS_BLOCK_GROUP_SYSTEM ≠ 0)) (r :: rest) =
            r :: List.filter
              (fun r => decide (r.type_flags &&& BTRFS_BLOCK_GROUP_SYSTEM ≠ 0)) rest := by
          simp [List.filter_cons, hsys]
        rw [hfil]
        exact List.Forall₂.cons ⟨rfl, rfl, rfl, hc, rfl⟩ h3

theorem rebuild_sys_array_with_stripes (btrfs_chunk_item_size : Nat → Nat)
    (add_status : btrfs_super_block → sys_chunk_entry → Int)
    (good_chunks : List chunk_record) (super_copy : btrfs_super_block)
    (hadd : ∀ s e, add_status s e = 0)
    (hstripes : ∀ r ∈ good_chunks, r.type_flags &&& BTRFS_BLOCK_GROUP_SYSTEM ≠ 0 →
      r.num_stripes ≠ 0) :
    (rebuild_sys_array btrfs_chunk_item_size add_status good_chunks super_copy).1 = 0 ∧
    List.Forall₂ (fun r e =>
      e.key.objectid = BTRFS_FIRST_CHUNK_TREE_OBJECTID ∧
      e.key.type = BTRFS_CHUNK_ITEM_KEY ∧ e.key.offset = r.offset ∧
      create_chunk_item r = some e.chunk ∧
      e.item_size = btrfs_chunk_item_size r.num_stripes)
      (good_chunks.filter (fun r => decide (r.type_flags &&& BTRFS_BLOCK_GROUP_SYSTEM ≠ 0)))
      (read_sys_array
        (rebuild_sys_array btrfs_chunk_item_size add_status good_chunks super_copy).2) := by
  obtain ⟨added, h1, h2, h3⟩ := rebuild_sys_array_loop_spec btrfs_chunk_item_size add_status
    hadd good_chunks (btrfs_set_super_sys_array_size super_copy 0) [] hstripes
    (by simp [sys_array_layout, btrfs_set_super_sys_array_size])
  refine ⟨h1, ?_⟩
  have hread : read_sys_array
      (rebuild_sys_array btrfs_chunk_item_size add_status good_chunks super_copy).2 =
      added := by
    have hb := sys_array_layout_bound _ _ _ h2
    exact sys_array_layout_read _ _ 0 _ h2 (by simpa using hb)
  rw [hread]
  exact h3

/-- When __rebuild_chunk_items returns 0, every record of the list had at least
one stripe: a record without stripes makes create_chunk_item fail and the
routine return -ENOMEM. -/
theorem rebuild_chunk_items_zero (btrfs_chunk_item_size : Nat → Nat)
    (insert_status : List chunk_tree_item → chunk_tree_item → Int) :
    ∀ (good_chunks : List chunk_record) (chunk_root : List chunk_tree_item),
      (__rebuild_chunk_items btrfs_chunk_item_size insert_status good_chunks
        chunk_root).1 = 0 →
      ∀ r ∈ good_chunks, r.num_stripes ≠ 0 := by
  intro good_chunks
  induction good_chunks with
  | nil => intro _ _ r hr; simp at hr
  | cons c rest ih =>
    intro chunk_root h r hr
    by_cases hn : c.num_stripes = 0
    · have hnone : create_chunk_item c = none := by simp [create_chunk_item, hn]
      simp only [__rebuild_chunk_items, hnone] at h
      exact absurd h (by decide)
    · obtain ⟨chunk, hc, _⟩ := create_chunk_item_some c hn
      simp only [__rebuild_chunk_items, hc] at h
      split_ifs at h with hret
      · exact absurd h hret
      · rcases List.mem_cons.mp hr with hx | hx
        · rw [hx]; exact hn
        · exact ih _ h r hx

/-- When rebuild_chunk_tree returns 0, every good chunk of the state had at
least one stripe. -/
theorem rebuild_chunk_tree_zero (dev_item_size : Nat) (btrfs_chunk_item_size : Nat → Nat)
    (dev_insert_status : List dev_tree_item → dev_tree_item → Int)
    (chunk_insert_status : List chunk_tree_item → chunk_tree_item → Int)
    (rc : recover_control)
    (h : (rebuild_chunk_tree dev_item_size btrfs_chunk_item_size dev_insert_status
      chunk_insert_status rc).1 = 0) :
    ∀ r ∈ rc.good_chunks, r.num_stripes ≠ 0 := by
  unfold rebuild_chunk_tree at h
  simp only [__rebuild_chunk_root, ne_eq, not_true_eq_false, if_false] at h
  split_ifs at h with hdev
  · exact rebuild_chunk_items_zero btrfs_chunk_item_size chunk_insert_status _ _ h
  · exact absurd h hdev

/-- C10: rebuild_sys_array has one call, in btrfs_recover_chunk_tree, right
after `ret = rebuild_chunk_tree(trans, &rc, root); BUG_ON(ret);` on the same
recovery state, so it runs only on a state on which rebuild_chunk_tree returned
0. On every such state, when no append fails, rebuild_sys_array returns 0 and
the resulting system-chunk array, whatever the superblock held before, reads as
exactly one (key, chunk payload) pair for each good chunk whose type flags
include BTRFS_BLOCK_GROUP_SYSTEM, in good_chunks order, and none for any other
chunk. -/
theorem rebuild_sys_array_equals_system_chunks (dev_item_size : Nat)
    (btrfs_chunk_item_size : Nat → Nat)
    (dev_insert_status : List dev_tree_item → dev_tree_item → Int)
    (chunk_insert_status : List chunk_tree_item → chunk_tree_item → Int)
    (add_status : btrfs_super_block → sys_chunk_entry → Int)
    (rc : recover_control) (super_copy : btrfs_super_block)
    (hreached : (rebuild_chunk_tree dev_item_size btrfs_chunk_item_size dev_insert_status
      chunk_insert_status rc).1 = 0)
    (hadd : ∀ s e, add_status s e = 0) :
    (rebuild_sys_array btrfs_chunk_item_size add_status rc.good_chunks super_copy).1 = 0 ∧
    List.Forall₂ (fun r e =>
      e.key.objectid = BTRFS_FIRST_CHUNK_TREE_OBJECTID ∧
      e.key.type = BTRFS_CHUNK_ITEM_KEY ∧ e.key.offset = r.offset ∧
      create_chunk_item r = some e.chunk ∧
      e.item_size = btrfs_chunk_item_size r.num_stripes)
      (rc.good_chunks.filter
        (fun r => decide (r.type_flags &&& BTRFS_BLOCK_GROUP_SYSTEM ≠ 0)))
      (read_sys_array
        (rebuild_sys_array btrfs_chunk_item_size add_status rc.good_chunks super_copy).2) :=
  rebuild_sys_array_with_stripes btrfs_chunk_item_size add_status rc.good_chunks super_copy
    hadd (fun r hr _ => rebuild_chunk_tree_zero dev_item_size btrfs_chunk_item_size
      dev_insert_status chunk_insert_status rc hreached r hr)

/-- C10, on a state whose good chunks are the sample system chunk and a data
chunk, after a rebuild_chunk_tree that returned 0, and a superblock whose array
holds a stale pair: the array reads as the one pair of the system chunk. -/
theorem rebuild_sys_array_equals_system_chunks_witness :
    (rebuild_chunk_tree 98 (fun n => 48 + 32 * n) (fun _ _ => 0) (fun _ _ => 0)
      { two_device_recover_control with good_chunks := sample_good_chunks }).1 = 0 ∧
    (rebuild_sys_array (fun n => 48 + 32 * n) (fun _ _ => 0) sample_good_chunks
      stale_super).1 = 0 ∧
    List.Forall₂ (fun r e =>
      e.key.objectid = BTRFS_FIRST_CHUNK_TREE_OBJECTID ∧
      e.key.type = BTRFS_CHUNK_ITEM_KEY ∧ e.key.offset = r.offset ∧
      create_chunk_item r = some e.chunk ∧
      e.item_size = (fun n => 48 + 32 * n) r.num_stripes)
      (sample_good_chunks.filter
        (fun r => decide (r.type_flags &&& BTRFS_BLOCK_GROUP_SYSTEM ≠ 0)))
      (read_sys_array
        (rebuild_sys_array (fun n => 48 + 32 * n) (fun _ _ => 0) sample_good_chunks
          stale_super).2) :=
  ⟨by decide,
   rebuild_sys_array_equals_system_chunks 98 (fun n => 48 + 32 * n) (fun _ _ => 0)
     (fun _ _ => 0) (fun _ _ => 0)
     { two_device_recover_control with good_chunks := sample_good_chunks } stale_super
     (by decide) (fun _ _ => rfl)⟩

/-- The array the sample run leaves: the stale pair is gone and the one pair is
that of the system chunk at offset 1 MiB; the data chunk at 8 MiB has none. -/
theorem rebuild_sys_array_sample :
    (read_sys_array (rebuild_sys_array (fun n => 48 + 32 * n) (fun _ _ => 0)
      sample_good_chunks stale_super).2).map (fun e => (e.key.offset, e.chunk.type)) =
      [(1048576, 2)] := by
  decide

/-- A good chunk without stripes does not reach rebuild_sys_array: on a state
that holds one, rebuild_chunk_tree returns -ENOMEM, whatever the insertions do,
and the `BUG_ON(ret)` that follows stops the run. -/
theorem rebuild_chunk_tree_stripeless (dev_item_size : Nat)
    (btrfs_chunk_item_size : Nat → Nat)
    (dev_insert_status : List dev_tree_item → dev_tree_item → Int)
    (chunk_insert_status : List chunk_tree_item → chunk_tree_item → Int)
    (rc : recover_control) (r : chunk_record) (hr : r ∈ rc.good_chunks)
    (hnone : r.num_stripes = 0) :
    (rebuild_chunk_tree dev_item_size btrfs_chunk_item_size dev_insert_status
      chunk_insert_status rc).1 ≠ 0 :=
  fun h => rebuild_chunk_tree_zero dev_item_size btrfs_chunk_item_size dev_insert_status
    chunk_insert_status rc h r hr hnone

/-- A run of the scanner on the sample device: the four reads are 4 KiB apart,
only the first block is forwarded (the second bears another filesystem UUID, the
third is newer than the chunk root), the scan ends with status 0 at the short
read, and the chunk store holds the one chunk found. -/
theorem scan_one_device_sample :
    (scan_one_device sample_library sample_recover_control sample_device 10).1 = some 0 ∧
    (scan_one_device sample_library sample_recover_control sample_device 10).2.2 =
      { reads := [0, 4096, 8192, 12288], extracted := [0] } ∧
    (scan_one_device sample_library sample_recover_control sample_device 10).2.1.chunk =
      [sample_chunk 5 0] := by
  refine ⟨by decide, by decide, by decide⟩

/-! ## Driver -/

/-- C11 fails on the code. When the scan leaves all three stores empty,
btrfs_recover_chunk_tree takes the "no recoverable chunk" abort with the status
still 0 from scan_devices: it returns 0 without asking the operator and without
any rebuild or commit, and cmd_chunk_recover returns 0 as for a success. -/
theorem cmd_chunk_recover_nothing_found :
    (scan_devices sample_library (nothing_found_phases.recover_prepare
        (init_recover_control 0 0)).2 10).1 = some 0 ∧
    (scan_devices sample_library (nothing_found_phases.recover_prepare
        (init_recover_control 0 0)).2 10).2.chunk = [] ∧
    btrfs_recover_chunk_tree nothing_found_phases 0 0 = (some 0, []) ∧
    cmd_chunk_recover nothing_found_phases 0 0 0 = (some 0, []) := by
  refine ⟨by decide, by decide, by decide, by decide⟩

theorem recover_rebuild_returns (phases : recover_phases) (rc : recover_control)
    (root : fs_trees) (log : List recover_event) (ret : Int)
    (log2 : List recover_event)
    (h : recover_rebuild phases rc root log = (some ret, log2)) : ret = 0 := by
  unfold recover_rebuild at h
  simp only [] at h
  split_ifs at h with h1 h2 h3
  · simp at h
  · simp at h
  · simp at h
  · simp only [Prod.mk.injEq, Option.some.injEq] at h
    rw [← h.1]
    by_contra hk
    exact h3 hk

theorem recover_rebuild_commits (phases : recover_phases) (rc : recover_control)
    (root : fs_trees) (log : List recover_event) (ret : Int)
    (log2 : List recover_event)
    (h : recover_rebuild phases rc root log = (some ret, log2)) :
    recover_event.btrfs_commit_transaction ∈ log2 := by
  unfold recover_rebuild at h
  simp only [] at h
  by_cases h1 : phases.remove_chunk_extent_item rc root ≠ 0
  · rw [if_pos h1] at h; simp at h
  rw [if_neg h1] at h
  by_cases h2 : phases.rebuild_chunk_tree rc root ≠ 0
  · rw [if_pos h2] at h; simp at h
  rw [if_neg h2] at h
  by_cases h3 : phases.rebuild_sys_array rc root ≠ 0
  · rw [if_pos h3] at h; simp at h
  rw [if_neg h3] at h
  rw [← (Prod.mk.inj h).2]
  simp

/-- The two ways in which btrfs_recover_chunk_tree returns 0: after the commit
of the rebuilt chunk tree, or by the "no recoverable chunk" abort, when the scan
returned 0 and left all three stores empty. -/
theorem btrfs_recover_chunk_tree_zero (phases : recover_phases) (verbose yes : Int)
    (log : List recover_event)
    (hrun : btrfs_recover_chunk_tree phases verbose yes = (some 0, log)) :
    recover_event.btrfs_commit_transaction ∈ log ∨
    (log = [] ∧ ∃ rc,
      phases.scan_devices (phases.recover_prepare (init_recover_control verbose yes)).2 =
        (some 0, rc) ∧
      rc.chunk = [] ∧ rc.bg.tree = [] ∧ rc.devext.tree = []) := by
  unfold btrfs_recover_chunk_tree at hrun
  simp only [] at hrun
  by_cases h1 : (phases.recover_prepare (init_recover_control verbose yes)).1 ≠ 0
  · rw [if_pos h1] at hrun
    exact absurd (Option.some.inj (Prod.mk.inj hrun).1) h1
  rw [if_neg h1] at hrun
  rcases hscan : phases.scan_devices
      (phases.recover_prepare (init_recover_control verbose yes)).2 with ⟨st, rc⟩
  rw [hscan] at hrun
  cases st with
  | none => simp at hrun
  | some r =>
    simp only [] at hrun
    by_cases h2 : r ≠ 0
    · rw [if_pos h2] at hrun
      exact absurd (Option.some.inj (Prod.mk.inj hrun).1) h2
    rw [if_neg h2] at hrun
    have hr0 : r = 0 := by
      by_contra hk; exact h2 hk
    by_cases h3 : rc.chunk = [] ∧ rc.bg.tree = [] ∧ rc.devext.tree = []
    · rw [if_pos h3] at hrun
      exact Or.inr ⟨(Prod.mk.inj hrun).2.symm, rc, by rw [hr0], h3⟩
    rw [if_neg h3] at hrun
    by_cases h4 : (phases.check_chunks rc).1 ≠ 0 ∧
        ((phases.check_chunks rc).2.bg.block_groups ≠ [] ∨
          (phases.check_chunks rc).2.devext.no_chunk_orphans ≠ [])
    · rw [if_pos h4] at hrun
      exact absurd (Option.some.inj (Prod.mk.inj hrun).1) h4.1
    rw [if_neg h4] at hrun
    by_cases h5 : (phases.open_ctree_with_broken_chunk (phases.check_chunks rc).2).1 ≠ 0
    · rw [if_pos h5] at hrun
      exact absurd (Option.some.inj (Prod.mk.inj hrun).1) h5
    rw [if_neg h5] at hrun
    cases hall : phases.check_all_chunks_by_metadata (phases.check_chunks rc).2
        (phases.open_ctree_with_broken_chunk (phases.check_chunks rc).2).2 with
    | none => rw [hall] at hrun; simp at hrun
    | some q =>
      obtain ⟨r2, rc2⟩ := q
      rw [hall] at hrun
      simp only [] at hrun
      by_cases h6 : r2 ≠ 0
      · rw [if_pos h6] at hrun
        exact absurd (Option.some.inj (Prod.mk.inj hrun).1) h6
      rw [if_neg h6] at hrun
      by_cases h7 : rc2.yes = 0
      · rw [if_pos h7] at hrun
        by_cases h8 : phases.ask_user = 0
        · rw [if_pos h8] at hrun
          have := Option.some.inj (Prod.mk.inj hrun).1
          exact absurd this (by decide)
        · rw [if_neg h8] at hrun
          exact Or.inl (recover_rebuild_commits _ _ _ _ _ _ hrun)
      · rw [if_neg h7] at hrun
        exact Or.inl (recover_rebuild_commits _ _ _ _ _ _ hrun)

/-- C12: on every run of btrfs_recover_chunk_tree that returns a non-zero status,
whatever the phases it calls do, none of btrfs_start_transaction,
remove_chunk_extent_item, rebuild_chunk_tree, rebuild_sys_array and
btrfs_commit_transaction has been invoked: the record of calls holds at most the
question put to the operator. -/
theorem btrfs_recover_chunk_tree_abort_writes_nothing (phases : recover_phases)
    (verbose yes ret : Int) (log : List recover_event)
    (hrun : btrfs_recover_chunk_tree phases verbose yes = (some ret, log))
    (hret : ret ≠ 0) :
    recover_event.btrfs_start_transaction ∉ log ∧
    recover_event.remove_chunk_extent_item ∉ log ∧
    recover_event.rebuild_chunk_tree ∉ log ∧
    recover_event.rebuild_sys_array ∉ log ∧
    recover_event.btrfs_commit_transaction ∉ log := by
  have hlog : log = [] ∨ log = [recover_event.ask_user] := by
    unfold btrfs_recover_chunk_tree at hrun
    simp only [] at hrun
    by_cases h1 : (phases.recover_prepare (init_recover_control verbose yes)).1 ≠ 0
    · rw [if_pos h1] at hrun
      exact Or.inl (Prod.mk.inj hrun).2.symm
    rw [if_neg h1] at hrun
    rcases hscan : phases.scan_devices
        (phases.recover_prepare (init_recover_control verbose yes)).2 with ⟨st, rc⟩
    rw [hscan] at hrun
    cases st with
    | none => simp at hrun
    | some r =>
      simp only [] at hrun
      by_cases h2 : r ≠ 0
      · rw [if_pos h2] at hrun
        exact Or.inl (Prod.mk.inj hrun).2.symm
      rw [if_neg h2] at hrun
      by_cases h3 : rc.chunk = [] ∧ rc.bg.tree = [] ∧ rc.devext.tree = []
      · rw [if_pos h3] at hrun
        exact Or.inl (Prod.mk.inj hrun).2.symm
      rw [if_neg h3] at hrun
      by_cases h4 : (phases.check_chunks rc).1 ≠ 0 ∧
          ((phases.check_chunks rc).2.bg.block_groups ≠ [] ∨
            (phases.check_chunks rc).2.devext.no_chunk_orphans ≠ [])
      · rw [if_pos h4] at hrun
        exact Or.inl (Prod.mk.inj hrun).2.symm
      rw [if_neg h4] at hrun
      by_cases h5 : (phases.open_ctree_with_broken_chunk (phases.check_chunks rc).2).1 ≠ 0
      · rw [if_pos h5] at hrun
        exact Or.inl (Prod.mk.inj hrun).2.symm
      rw [if_neg h5] at hrun
      cases hall : phases.check_all_chunks_by_metadata (phases.check_chunks rc).2
          (phases.open_ctree_with_broken_chunk (phases.check_chunks rc).2).2 with
      | none => rw [hall] at hrun; simp at hrun
      | some q =>
        obtain ⟨r2, rc2⟩ := q
        rw [hall] at hrun
        simp only [] at hrun
        by_cases h6 : r2 ≠ 0
        · rw [if_pos h6] at hrun
          exact Or.inl (Prod.mk.inj hrun).2.symm
        rw [if_neg h6] at hrun
        by_cases h7 : rc2.yes = 0
        · rw [if_pos h7] at hrun
          by_cases h8 : phases.ask_user = 0
          · rw [if_pos h8] at hrun
            exact Or.inr (Prod.mk.inj hrun).2.symm
          · rw [if_neg h8] at hrun
            exact absurd (recover_rebuild_returns _ _ _ _ _ _ hrun) hret
        · rw [if_neg h7] at hrun
          exact absurd (recover_rebuild_returns _ _ _ _ _ _ hrun) hret
  rcases hlog with h | h <;> subst h <;> decide

/-- C12, on a run in which the operator answers no: the driver returns
BTRFS_CHUNK_TREE_REBUILD_ABORTED having only asked. -/
theorem btrfs_recover_chunk_tree_abort_writes_nothing_witness :
    btrfs_recover_chunk_tree (prompt_phases 0) 0 0 =
      (some BTRFS_CHUNK_TREE_REBUILD_ABORTED, [recover_event.ask_user]) ∧
    (recover_event.btrfs_start_transaction ∉ [recover_event.ask_user] ∧
     recover_event.remove_chunk_extent_item ∉ [recover_event.ask_user] ∧
     recover_event.rebuild_chunk_tree ∉ [recover_event.ask_user] ∧
     recover_event.rebuild_sys_array ∉ [recover_event.ask_user] ∧
     recover_event.btrfs_commit_transaction ∉ [recover_event.ask_user]) :=
  ⟨by decide,
   btrfs_recover_chunk_tree_abort_writes_nothing (prompt_phases 0) 0 0
     BTRFS_CHUNK_TREE_REBUILD_ABORTED [recover_event.ask_user] (by decide) (by decide)⟩

/-! ## Rebuilding the device items -/

/-- C13 fails on the code. With two member devices where the insertion of the
device item of device 1 fails with -EEXIST and that of device 2 succeeds,
__rebuild_device_items returns 0, the status of the last insertion, and
rebuild_chunk_tree goes on to emit the chunk item and returns 0. -/
theorem rebuild_device_items_forgets_failure :
    first_device_fails [] { key := { objectid := BTRFS_DEV_ITEMS_OBJECTID,
                                     type := BTRFS_DEV_ITEM_KEY, offset := 1 },
                            data := { generation := 0, type := 0, devid := 1,
                                      total_bytes := 1073741824, bytes_used := 4194304,
                                      io_align := 4096, io_width := 4096,
                                      sector_size := 4096, uuid := 8, fsid := 42 },
                            size := 98 } = -EEXIST ∧
    (__rebuild_device_items 98 first_device_fails two_device_recover_control.fs_devices
      []).1 = 0 ∧
    ((__rebuild_device_items 98 first_device_fails two_device_recover_control.fs_devices
      []).2.map (fun it => it.key.offset)) = [2] ∧
    (rebuild_chunk_tree 98 (fun n => 48 + 32 * n) first_device_fails (fun _ _ => 0)
      two_device_recover_control).1 = 0 ∧
    ((rebuild_chunk_tree 98 (fun n => 48 + 32 * n) first_device_fails (fun _ _ => 0)
      two_device_recover_control).2.chunk_items.map (fun it => it.key.offset)) =
      [1048576] := by
  refine ⟨by decide, by decide, by decide, by decide, by decide⟩

/-! ## Scanner runs, pass by pass -/

theorem extract_metadata_record_from_succ (lib : scan_library) (leaf : extent_buffer)
    (n i : Nat) (rc : recover_control) :
    extract_metadata_record_from lib leaf (n + 1) i rc =
      match process_item lib leaf i rc with
      | none => none
      | some (ret, rc1) =>
        if ret ≠ 0 then some (ret, rc1)
        else extract_metadata_record_from lib leaf n (i + 1) rc1 := rfl

theorem extract_metadata_record_from_outcome (lib : scan_library) (leaf : extent_buffer) :
    ∀ (n i : Nat) (rc : recover_control) (ret : Int) (rc2 : recover_control),
      extract_metadata_record_from lib leaf n i rc = some (ret, rc2) →
      (ret = 0 ∧ items_pass lib leaf n i rc rc2) ∨
      (ret ≠ 0 ∧ ∃ k rc_k, k < n ∧ items_pass lib leaf k i rc rc_k ∧
        process_item lib leaf (i + k) rc_k = some (ret, rc2)) := by
  intro n
  induction n with
  | zero =>
    intro i rc ret rc2 h
    simp only [extract_metadata_record_from, Option.some.injEq, Prod.mk.injEq] at h
    exact Or.inl ⟨h.1.symm, h.2.symm⟩
  | succ n ih =>
    intro i rc ret rc2 h
    rw [extract_metadata_record_from_succ] at h
    cases hp : process_item lib leaf i rc with
    | none => rw [hp] at h; cases h
    | some q =>
      obtain ⟨r1, rc1⟩ := q
      rw [hp] at h
      simp only [] at h
      by_cases hr : r1 ≠ 0
      · rw [if_pos hr] at h
        simp only [Option.some.injEq, Prod.mk.injEq] at h
        refine Or.inr ⟨by rw [← h.1]; exact hr, 0, rc, Nat.succ_pos n, rfl, ?_⟩
        rw [Nat.add_zero, hp, h.1, h.2]
      · rw [if_neg hr] at h
        have hr0 : r1 = 0 := by
          by_contra hk; exact hr hk
        rw [hr0] at hp
        rcases ih (i + 1) rc1 ret rc2 h with ⟨h0, hpass⟩ | ⟨hne, k, rc_k, hk, hpass, hfail⟩
        · exact Or.inl ⟨h0, rc1, hp, hpass⟩
        · refine Or.inr ⟨hne, k + 1, rc_k, by omega, ⟨rc1, hp, hpass⟩, ?_⟩
          have hidx : i + (k + 1) = i + 1 + k := by omega
          rw [hidx]; exact hfail

theorem scan_one_device_loop_outcome (lib : scan_library) (fd : device_image) :
    ∀ (fuel : Nat) (rc : recover_control) (bytenr : Nat) (log : scan_log) (ret : Int)
      (rc2 : recover_control) (log2 : scan_log),
      scan_one_device_loop lib fd fuel rc bytenr log = (some ret, rc2, log2) →
      ∃ k rc_k b_k log_k, scan_passes lib fd k rc bytenr log rc_k b_k log_k ∧
        scan_pass_exits lib fd rc_k b_k log_k ret rc2 log2 := by
  intro fuel
  induction fuel with
  | zero =>
    intro rc bytenr log ret rc2 log2 h
    simp [scan_one_device_loop] at h
  | succ f ih =>
    intro rc bytenr log ret rc2 log2 h
    simp only [scan_one_device_loop] at h
    rw [show (if is_super_block_address bytenr = true then (bytenr + rc.sectorsize) % 2 ^ 64
      else bytenr) = read_offset rc bytenr from rfl] at h
    have hskip : ∀ (b2 : Nat),
        (b2 = (read_offset rc bytenr + rc.sectorsize) % 2 ^ 64 ∨
          b2 = (read_offset rc bytenr + rc.leafsize) % 2 ^ 64) →
        rc.leafsize ≤ pread64 fd rc.leafsize (read_offset rc bytenr) →
        scan_one_device_loop lib fd f rc b2
          { reads := log.reads ++ [read_offset rc bytenr], extracted := log.extracted } =
          (some ret, rc2, log2) →
        ∃ k rc_k b_k log_k, scan_passes lib fd k rc bytenr log rc_k b_k log_k ∧
          scan_pass_exits lib fd rc_k b_k log_k ret rc2 log2 := by
      intro b2 hb2 hfull hrun
      obtain ⟨k, rc_k, b_k, log_k, hp, he⟩ := ih _ _ _ _ _ _ hrun
      exact ⟨k + 1, rc_k, b_k, log_k,
        ⟨rc, b2, _, ⟨hfull, Or.inl ⟨rfl, rfl, hb2⟩⟩, hp⟩, he⟩
    have hsub : rc.leafsize ≤ pread64 fd rc.leafsize (read_offset rc bytenr) →
        (match extract_metadata_record lib rc (fd.block (read_offset rc bytenr)) with
          | none => ((none : Option Int), rc,
              ({ reads := log.reads ++ [read_offset rc bytenr],
                 extracted := log.extracted ++ [read_offset rc bytenr] } : scan_log))
          | some (ret, rc1) =>
            if ret ≠ 0 then
              (some ret, rc1, { reads := log.reads ++ [read_offset rc bytenr],
                                extracted := log.extracted ++ [read_offset rc bytenr] })
            else
              scan_one_device_loop lib fd f rc1
                ((read_offset rc bytenr + rc1.leafsize) % 2 ^ 64)
                { reads := log.reads ++ [read_offset rc bytenr],
                  extracted := log.extracted ++ [read_offset rc bytenr] }) =
          (some ret, rc2, log2) →
        ∃ k rc_k b_k log_k, scan_passes lib fd k rc bytenr log rc_k b_k log_k ∧
          scan_pass_exits lib fd rc_k b_k log_k ret rc2 log2 := by
      intro hfull hrun
      cases hex : extract_metadata_record lib rc (fd.block (read_offset rc bytenr)) with
      | none => rw [hex] at hrun; simp at hrun
      | some q =>
        obtain ⟨r1, rc1⟩ := q
        rw [hex] at hrun
        simp only [] at hrun
        by_cases hr : r1 ≠ 0
        · rw [if_pos hr] at hrun
          simp only [Prod.mk.injEq, Option.some.injEq] at hrun
          refine ⟨0, rc, bytenr, log, ⟨rfl, rfl, rfl⟩, Or.inr ⟨?_, hfull, ?_, hrun.2.2.symm⟩⟩
          · rw [← hrun.1]; exact hr
          · rw [hex, hrun.1, hrun.2.1]
        · rw [if_neg hr] at hrun
          have hr0 : r1 = 0 := by
            by_contra hk; exact hr hk
          rw [hr0] at hex
          have hcfg := extract_metadata_record_from_config lib _ _ _ _ _ _ hex
          rw [hcfg.2.2.2.1] at hrun
          obtain ⟨k, rc_k, b_k, log_k, hp, he⟩ := ih _ _ _ _ _ _ hrun
          exact ⟨k + 1, rc_k, b_k, log_k,
            ⟨rc1, _, _, ⟨hfull, Or.inr ⟨hex, rfl, rfl⟩⟩, hp⟩, he⟩
    by_cases hshort : pread64 fd rc.leafsize (read_offset rc bytenr) < rc.leafsize
    · rw [if_pos hshort] at h
      simp only [Prod.mk.injEq, Option.some.injEq] at h
      exact ⟨0, rc, bytenr, log, ⟨rfl, rfl, rfl⟩,
        Or.inl ⟨h.1.symm, hshort, h.2.1.symm, h.2.2.symm⟩⟩
    rw [if_neg hshort] at h
    have hfull : rc.leafsize ≤ pread64 fd rc.leafsize (read_offset rc bytenr) := by omega
    by_cases hfsid : (fd.block (read_offset rc bytenr)).fsid ≠ rc.fs_devices.fsid
    · rw [if_pos hfsid] at h
      exact hskip _ (Or.inl rfl) hfull h
    rw [if_neg hfsid] at h
    by_cases hcsum : lib.verify_tree_block_csum_silent (fd.block (read_offset rc bytenr))
        rc.csum_size ≠ 0
    · rw [if_pos hcsum] at h
      exact hskip _ (Or.inl rfl) hfull h
    rw [if_neg hcsum] at h
    by_cases hlevel : (fd.block (read_offset rc bytenr)).level ≠ 0
    · rw [if_pos hlevel] at h
      exact hskip _ (Or.inr rfl) hfull h
    rw [if_neg hlevel] at h
    by_cases howner : (fd.block (read_offset rc bytenr)).owner = BTRFS_EXTENT_TREE_OBJECTID ∨
        (fd.block (read_offset rc bytenr)).owner = BTRFS_DEV_TREE_OBJECTID
    · rw [if_pos howner] at h
      by_cases hgen : (fd.block (read_offset rc bytenr)).generation > rc.generation
      · rw [if_pos hgen] at h
        exact hskip _ (Or.inr rfl) hfull h
      · rw [if_neg hgen] at h
        exact hsub hfull h
    · rw [if_neg howner] at h
      by_cases hchunk : (fd.block (read_offset rc bytenr)).owner = BTRFS_CHUNK_TREE_OBJECTID
      · rw [if_pos hchunk] at h
        by_cases hgen : (fd.block (read_offset rc bytenr)).generation >
            rc.chunk_root_generation
        · rw [if_pos hgen] at h
          exact hskip _ (Or.inr rfl) hfull h
        · rw [if_neg hgen] at h
          exact hsub hfull h
      · rw [if_neg hchunk] at h
        exact hskip _ (Or.inr rfl) hfull h

theorem scan_devices_from_outcome (lib : scan_library) (fuel : Nat) :
    ∀ (devices : List btrfs_device) (rc : recover_control) (ret : Int)
      (rc2 : recover_control),
      scan_devices_from lib fuel devices rc = (some ret, rc2) →
      (ret = 0 ∧ devices_pass lib fuel devices rc rc2) ∨
      (ret ≠ 0 ∧ ∃ pre dev post rc_k, devices = pre ++ dev :: post ∧
        devices_pass lib fuel pre rc rc_k ∧
        ((dev.image = none ∧ ret = -1 ∧ rc2 = rc_k) ∨
          ∃ fd log, dev.image = some fd ∧
            scan_one_device lib rc_k fd fuel = (some ret, rc2, log))) := by
  intro devices
  induction devices with
  | nil =>
    intro rc ret rc2 h
    simp only [scan_devices_from, Prod.mk.injEq, Option.some.injEq] at h
    exact Or.inl ⟨h.1.symm, h.2.symm⟩
  | cons dev rest ih =>
    intro rc ret rc2 h
    simp only [scan_devices_from] at h
    cases himg : dev.image with
    | none =>
      rw [himg] at h
      simp only [Prod.mk.injEq, Option.some.injEq] at h
      refine Or.inr ⟨by rw [← h.1]; decide, [], dev, rest, rc, rfl, rfl,
        Or.inl ⟨himg, h.1.symm, h.2.symm⟩⟩
    | some fd =>
      rw [himg] at h
      simp only [] at h
      rcases hscan : scan_one_device lib rc fd fuel with ⟨st, rc1, log⟩
      rw [hscan] at h
      cases st with
      | none => simp at h
      | some r =>
        simp only [] at h
        by_cases hr : r ≠ 0
        · rw [if_pos hr] at h
          simp only [Prod.mk.injEq, Option.some.injEq] at h
          refine Or.inr ⟨by rw [← h.1]; exact hr, [], dev, rest, rc, rfl, rfl,
            Or.inr ⟨fd, log, himg, ?_⟩⟩
          rw [hscan, h.1, h.2]
        · rw [if_neg hr] at h
          have hr0 : r = 0 := by
            by_contra hk; exact hr hk
          rw [hr0] at hscan
          rcases ih rc1 ret rc2 h with ⟨h0, hp⟩ | ⟨hne, pre, d, post, rc_k, hsplit, hp, hfail⟩
          · exact Or.inl ⟨h0, fd, rc1, log, himg, hscan, hp⟩
          · refine Or.inr ⟨hne, dev :: pre, d, post, rc_k, ?_, ⟨fd, rc1, log, himg, hscan, hp⟩,
              hfail⟩
            rw [hsplit]; rfl

/-! ## Read offsets of the scanner -/

/-- A property of offsets that holds at the start of a pass and is kept by the
superblock skip and by both strides holds of every offset the scan reads at. -/
theorem scan_one_device_loop_reads (lib : scan_library) (fd : device_image)
    (rc0 : recover_control) (P : Nat → Prop)
    (hskip : ∀ b, P b → P ((b + rc0.sectorsize) % 2 ^ 64))
    (hleaf : ∀ b, P b → P ((b + rc0.leafsize) % 2 ^ 64)) :
    ∀ (fuel : Nat) (rc : recover_control) (bytenr : Nat) (log : scan_log),
      same_config rc0 rc → P bytenr → (∀ x ∈ log.reads, P x) →
      ∀ x ∈ (scan_one_device_loop lib fd fuel rc bytenr log).2.2.reads, P x := by
  intro fuel
  induction fuel with
  | zero => intro rc bytenr log _ _ h; exact h
  | succ f ih =>
    intro rc bytenr log hc hb hlog
    have hsec : rc.sectorsize = rc0.sectorsize := hc.2.2.1
    have hlf : rc.leafsize = rc0.leafsize := hc.2.2.2.1
    have hro : P (read_offset rc bytenr) := by
      unfold read_offset
      by_cases hs : is_super_block_address bytenr = true
      · rw [if_pos hs, hsec]; exact hskip _ hb
      · rw [if_neg hs]; exact hb
    have hlog2 : ∀ (e : List Nat),
        ∀ x ∈ ({ reads := log.reads ++ [read_offset rc bytenr], extracted := e } :
          scan_log).reads, P x := by
      intro e x hx
      rcases List.mem_append.mp hx with h | h
      · exact hlog x h
      · simp at h; rw [h]; exact hro
    have hnextS := ih rc ((read_offset rc bytenr + rc.sectorsize) % 2 ^ 64)
      { reads := log.reads ++ [read_offset rc bytenr], extracted := log.extracted } hc
      (by rw [hsec]; exact hskip _ hro) (hlog2 _)
    have hnextL := ih rc ((read_offset rc bytenr + rc.leafsize) % 2 ^ 64)
      { reads := log.reads ++ [read_offset rc bytenr], extracted := log.extracted } hc
      (by rw [hlf]; exact hleaf _ hro) (hlog2 _)
    have hsub : ∀ x ∈
        (match extract_metadata_record lib rc (fd.block (read_offset rc bytenr)) with
          | none => ((none : Option Int), rc,
              ({ reads := log.reads ++ [read_offset rc bytenr],
                 extracted := log.extracted ++ [read_offset rc bytenr] } : scan_log))
          | some (ret, rc1) =>
            if ret ≠ 0 then
              (some ret, rc1, { reads := log.reads ++ [read_offset rc bytenr],
                                extracted := log.extracted ++ [read_offset rc bytenr] })
            else
              scan_one_device_loop lib fd f rc1
                ((read_offset rc bytenr + rc1.leafsize) % 2 ^ 64)
                { reads := log.reads ++ [read_offset rc bytenr],
                  extracted := log.extracted ++ [read_offset rc bytenr] }).2.2.reads,
        P x := by
      cases hex : extract_metadata_record lib rc (fd.block (read_offset rc bytenr)) with
      | none => exact hlog2 _
      | some q =>
        obtain ⟨r1, rc1⟩ := q
        simp only []
        have hc1 := same_config_trans _ _ _ hc
          (extract_metadata_record_from_config lib _ _ _ _ _ _ hex)
        by_cases hr : r1 ≠ 0
        · rw [if_pos hr]; exact hlog2 _
        · rw [if_neg hr]
          exact ih rc1 _ _ hc1 (by rw [hc1.2.2.2.1]; exact hleaf _ hro) (hlog2 _)
    simp only [scan_one_device_loop]
    rw [show (if is_super_block_address bytenr = true then (bytenr + rc.sectorsize) % 2 ^ 64
      else bytenr) = read_offset rc bytenr from rfl]
    by_cases hshort : pread64 fd rc.leafsize (read_offset rc bytenr) < rc.leafsize
    · rw [if_pos hshort]; exact hlog2 _
    rw [if_neg hshort]
    by_cases hfsid : (fd.block (read_offset rc bytenr)).fsid ≠ rc.fs_devices.fsid
    · rw [if_pos hfsid]; exact hnextS
    rw [if_neg hfsid]
    by_cases hcsum : lib.verify_tree_block_csum_silent (fd.block (read_offset rc bytenr))
        rc.csum_size ≠ 0
    · rw [if_pos hcsum]; exact hnextS
    rw [if_neg hcsum]
    by_cases hlevel : (fd.block (read_offset rc bytenr)).level ≠ 0
    · rw [if_pos hlevel]; exact hnextL
    rw [if_neg hlevel]
    by_cases howner : (fd.block (read_offset rc bytenr)).owner = BTRFS_EXTENT_TREE_OBJECTID ∨
        (fd.block (read_offset rc bytenr)).owner = BTRFS_DEV_TREE_OBJECTID
    · rw [if_pos howner]
      by_cases hgen : (fd.block (read_offset rc bytenr)).generation > rc.generation
      · rw [if_pos hgen]; exact hnextL
      · rw [if_neg hgen]; exact hsub
    · rw [if_neg howner]
      by_cases hchunk : (fd.block (read_offset rc bytenr)).owner = BTRFS_CHUNK_TREE_OBJECTID
      · rw [if_pos hchunk]
        by_cases hgen : (fd.block (read_offset rc bytenr)).generation >
            rc.chunk_root_generation
        · rw [if_pos hgen]; exact hnextL
        · rw [if_neg hgen]; exact hsub
      · rw [if_neg hchunk]; exact hnextL

theorem process_item_total (lib : scan_library) (leaf : extent_buffer) (i : Nat)
    (rc : recover_control) : ∃ r, process_item lib leaf i rc = some r := by
  unfold process_item
  by_cases h1 : (leaf.item_key i).type = BTRFS_BLOCK_GROUP_ITEM_KEY
  · rw [if_pos h1]
    obtain ⟨bgs, heq⟩ := process_block_group_item_eq rc.bg
      (lib.btrfs_new_block_group_record leaf (leaf.item_key i) i)
    rw [heq]
    split_ifs <;> exact ⟨_, rfl⟩
  rw [if_neg h1]
  by_cases h2 : (leaf.item_key i).type = BTRFS_CHUNK_ITEM_KEY
  · rw [if_pos h2, process_chunk_item_eq]
    split_ifs <;> exact ⟨_, rfl⟩
  rw [if_neg h2]
  by_cases h3 : (leaf.item_key i).type = BTRFS_DEV_EXTENT_KEY
  · rw [if_pos h3]
    obtain ⟨l1, l2, heq⟩ := process_device_extent_item_eq rc.devext
      (lib.btrfs_new_device_extent_record leaf (leaf.item_key i) i)
    rw [heq]
    split_ifs <;> exact ⟨_, rfl⟩
  rw [if_neg h3]
  exact ⟨_, rfl⟩

theorem extract_metadata_record_from_total (lib : scan_library) (leaf : extent_buffer) :
    ∀ (n i : Nat) (rc : recover_control),
      ∃ r, extract_metadata_record_from lib leaf n i rc = some r := by
  intro n
  induction n with
  | zero => intro i rc; exact ⟨_, rfl⟩
  | succ n ih =>
    intro i rc
    rw [extract_metadata_record_from_succ]
    obtain ⟨q, hq⟩ := process_item_total lib leaf i rc
    obtain ⟨r1, rc1⟩ := q
    rw [hq]
    simp only []
    by_cases hr : r1 ≠ 0
    · rw [if_pos hr]; exact ⟨_, rfl⟩
    · rw [if_neg hr]; exact ih (i + 1) rc1

/-- One pass of the scan loop either leaves the loop with a status, having read
at one more offset, or reads a full block and goes on from a later offset with
the same configuration. -/
theorem scan_one_device_loop_step (lib : scan_library) (fd : device_image) (f : Nat)
    (rc : recover_control) (bytenr : Nat) (log : scan_log) :
    (∃ ret rc1 e, scan_one_device_loop lib fd (f + 1) rc bytenr log =
      (some ret, rc1, { reads := log.reads ++ [read_offset rc bytenr], extracted := e })) ∨
    (rc.leafsize ≤ pread64 fd rc.leafsize (read_offset rc bytenr) ∧
      ∃ rc1 b1 e, same_config rc rc1 ∧
        (b1 = (read_offset rc bytenr + rc.sectorsize) % 2 ^ 64 ∨
          b1 = (read_offset rc bytenr + rc.leafsize) % 2 ^ 64) ∧
        scan_one_device_loop lib fd (f + 1) rc bytenr log =
          scan_one_device_loop lib fd f rc1 b1
            { reads := log.reads ++ [read_offset rc bytenr], extracted := e }) := by
  simp only [scan_one_device_loop]
  rw [show (if is_super_block_address bytenr = true then (bytenr + rc.sectorsize) % 2 ^ 64
    else bytenr) = read_offset rc bytenr from rfl]
  by_cases hshort : pread64 fd rc.leafsize (read_offset rc bytenr) < rc.leafsize
  · rw [if_pos hshort]; exact Or.inl ⟨0, rc, _, rfl⟩
  rw [if_neg hshort]
  have hfull : rc.leafsize ≤ pread64 fd rc.leafsize (read_offset rc bytenr) := by omega
  have hsub :
      (∃ ret rc1 e,
        (match extract_metadata_record lib rc (fd.block (read_offset rc bytenr)) with
          | none => ((none : Option Int), rc,
              ({ reads := log.reads ++ [read_offset rc bytenr],
                 extracted := log.extracted ++ [read_offset rc bytenr] } : scan_log))
          | some (ret, rc1) =>
            if ret ≠ 0 then
              (some ret, rc1, { reads := log.reads ++ [read_offset rc bytenr],
                                extracted := log.extracted ++ [read_offset rc bytenr] })
            else
              scan_one_device_loop lib fd f rc1
                ((read_offset rc bytenr + rc1.leafsize) % 2 ^ 64)
                { reads := log.reads ++ [read_offset rc bytenr],
                  extracted := log.extracted ++ [read_offset rc bytenr] }) =
        (some ret, rc1, { reads := log.reads ++ [read_offset rc bytenr], extracted := e })) ∨
      (rc.leafsize ≤ pread64 fd rc.leafsize (read_offset rc bytenr) ∧
        ∃ rc1 b1 e, same_config rc rc1 ∧
          (b1 = (read_offset rc bytenr + rc.sectorsize) % 2 ^ 64 ∨
            b1 = (read_offset rc bytenr + rc.leafsize) % 2 ^ 64) ∧
          (match extract_metadata_record lib rc (fd.block (read_offset rc bytenr)) with
            | none => ((none : Option Int), rc,
                ({ reads := log.reads ++ [read_offset rc bytenr],
                   extracted := log.extracted ++ [read_offset rc bytenr] } : scan_log))
            | some (ret, rc1) =>
              if ret ≠ 0 then
                (some ret, rc1, { reads := log.reads ++ [read_offset rc bytenr],
                                  extracted := log.extracted ++ [read_offset rc bytenr] })
              else
                scan_one_device_loop lib fd f rc1
                  ((read_offset rc bytenr + rc1.leafsize) % 2 ^ 64)
                  { reads := log.reads ++ [read_offset rc bytenr],
                    extracted := log.extracted ++ [read_offset rc bytenr] }) =
            scan_one_device_loop lib fd f rc1 b1
              { reads := log.reads ++ [read_offset rc bytenr], extracted := e }) := by
    obtain ⟨q, hex⟩ := extract_metadata_record_from_total lib
      (fd.block (read_offset rc bytenr)) (fd.block (read_offset rc bytenr)).nritems 0 rc
    obtain ⟨r1, rc1⟩ := q
    have hex2 : extract_metadata_record lib rc (fd.block (read_offset rc bytenr)) =
        some (r1, rc1) := hex
    rw [hex2]
    simp only []
    by_cases hr : r1 ≠ 0
    · rw [if_pos hr]; exact Or.inl ⟨r1, rc1, _, rfl⟩
    · rw [if_neg hr]
      have hc1 := extract_metadata_record_from_config lib _ _ _ _ _ _ hex
      exact Or.inr ⟨hfull, rc1, _, _, hc1, Or.inr (by rw [hc1.2.2.2.1]), rfl⟩
  by_cases hfsid : (fd.block (read_offset rc bytenr)).fsid ≠ rc.fs_devices.fsid
  · rw [if_pos hfsid]
    exact Or.inr ⟨hfull, rc, _, _, same_config_refl rc, Or.inl rfl, rfl⟩
  rw [if_neg hfsid]
  by_cases hcsum : lib.verify_tree_block_csum_silent (fd.block (read_offset rc bytenr))
      rc.csum_size ≠ 0
  · rw [if_pos hcsum]
    exact Or.inr ⟨hfull, rc, _, _, same_config_refl rc, Or.inl rfl, rfl⟩
  rw [if_neg hcsum]
  by_cases hlevel : (fd.block (read_offset rc bytenr)).level ≠ 0
  · rw [if_pos hlevel]
    exact Or.inr ⟨hfull, rc, _, _, same_config_refl rc, Or.inr rfl, rfl⟩
  rw [if_neg hlevel]
  by_cases howner : (fd.block (read_offset rc bytenr)).owner = BTRFS_EXTENT_TREE_OBJECTID ∨
      (fd.block (read_offset rc bytenr)).owner = BTRFS_DEV_TREE_OBJECTID
  · rw [if_pos howner]
    by_cases hgen : (fd.block (read_offset rc bytenr)).generation > rc.generation
    · rw [if_pos hgen]
      exact Or.inr ⟨hfull, rc, _, _, same_config_refl rc, Or.inr rfl, rfl⟩
    · rw [if_neg hgen]; exact hsub
  · rw [if_neg howner]
    by_cases hchunk : (fd.block (read_offset rc bytenr)).owner = BTRFS_CHUNK_TREE_OBJECTID
    · rw [if_pos hchunk]
      by_cases hgen : (fd.block (read_offset rc bytenr)).generation >
          rc.chunk_root_generation
      · rw [if_pos hgen]
        exact Or.inr ⟨hfull, rc, _, _, same_config_refl rc, Or.inr rfl, rfl⟩
      · rw [if_neg hgen]; exact hsub
    · rw [if_neg hchunk]
      exact Or.inr ⟨hfull, rc, _, _, same_config_refl rc, Or.inr rfl, rfl⟩

theorem scan_one_device_loop_reads_grow (lib : scan_library) (fd : device_image) :
    ∀ (f : Nat) (rc : recover_control) (b : Nat) (log : scan_log),
      ∃ rest, (scan_one_device_loop lib fd f rc b log).2.2.reads = log.reads ++ rest := by
  intro f
  induction f with
  | zero => intro rc b log; exact ⟨[], by simp [scan_one_device_loop]⟩
  | succ f ih =>
    intro rc b log
    rcases scan_one_device_loop_step lib fd f rc b log with
      ⟨ret, rc1, e, h⟩ | ⟨_, rc1, b1, e, _, _, h⟩
    · rw [h]; exact ⟨[read_offset rc b], rfl⟩
    · rw [h]
      obtain ⟨rest, hr⟩ := ih rc1 b1
        { reads := log.reads ++ [read_offset rc b], extracted := e }
      rw [hr]
      exact ⟨read_offset rc b :: rest, by simp⟩

theorem scan_one_device_first_read (lib : scan_library) (rc : recover_control)
    (fd : device_image) (fuel : Nat) :
    ∃ rest, (scan_one_device lib rc fd (fuel + 1)).2.2.reads = 0 :: rest := by
  unfold scan_one_device
  have hzero : read_offset rc 0 = 0 := by
    unfold read_offset
    rw [if_neg (by decide)]
  rcases scan_one_device_loop_step lib fd fuel rc 0 { reads := [], extracted := [] } with
    ⟨ret, rc1, e, h⟩ | ⟨_, rc1, b1, e, _, _, h⟩
  · rw [h, hzero]; exact ⟨[], rfl⟩
  · rw [h, hzero]
    obtain ⟨rest, hr⟩ := scan_one_device_loop_reads_grow lib fd fuel rc1 b1
      { reads := [] ++ [0], extracted := e }
    rw [hr]
    exact ⟨rest, rfl⟩

/-- C15, as amended: every offset at which scan_one_device reads a block (every
bytenr passed to pread64) is a multiple of every number that divides
rc->sectorsize, rc->leafsize and 2^64, hence of rc->sectorsize when the sector
size divides the leaf size and of rc->leafsize when the two are equal, starting
from offset 0. -/
theorem scan_one_device_reads_aligned (lib : scan_library) (rc : recover_control)
    (fd : device_image) (fuel d : Nat)
    (hsector : d ∣ rc.sectorsize) (hleaf : d ∣ rc.leafsize) (hword : d ∣ 2 ^ 64) :
    (∀ bytenr ∈ (scan_one_device lib rc fd fuel).2.2.reads, d ∣ bytenr) ∧
    (0 < fuel → (scan_one_device lib rc fd fuel).2.2.reads.head? = some 0) := by
  constructor
  · refine scan_one_device_loop_reads lib fd rc (fun b => d ∣ b) ?_ ?_ fuel rc 0 _
      (same_config_refl rc) (dvd_zero d) (by simp)
    · intro b hb
      exact (Nat.dvd_mod_iff hword).mpr (Nat.dvd_add hb hsector)
    · intro b hb
      exact (Nat.dvd_mod_iff hword).mpr (Nat.dvd_add hb hleaf)
  · intro hf
    obtain ⟨f, rfl⟩ : ∃ f, fuel = f + 1 := ⟨fuel - 1, by omega⟩
    obtain ⟨rest, h⟩ := scan_one_device_first_read lib rc fd f
    rw [h]; rfl

/-- C15 as amended, on the sample device with 4 KiB sectors and leaves: every
read offset is a multiple of 4096 and the first is 0. -/
theorem scan_one_device_reads_aligned_witness :
    (∀ bytenr ∈ (scan_one_device sample_library sample_recover_control sample_device
        10).2.2.reads, 4096 ∣ bytenr) ∧
    (0 < 10 → (scan_one_device sample_library sample_recover_control sample_device
        10).2.2.reads.head? = some 0) :=
  scan_one_device_reads_aligned sample_library sample_recover_control sample_device 10 4096
    (by decide) (by decide) (by decide)

/-- C15 fails as stated: with 4 KiB sectors and 16 KiB leaves, a block bearing
another filesystem UUID is followed by a read one sector further, so the scan
reads at offset 4096, which is not a multiple of the leaf size. -/
theorem scan_one_device_reads_unaligned :
    (scan_one_device sample_library large_leaf_recover_control foreign_device_32k
      10).2.2.reads = [0, 4096, 8192, 12288, 16384, 20480] ∧
    4096 ∈ (scan_one_device sample_library large_leaf_recover_control foreign_device_32k
      10).2.2.reads ∧
    ¬ large_leaf_recover_control.leafsize ∣ 4096 := by
  refine ⟨by decide, by decide, by decide⟩

/-! ## Purging the extent items of a system block group -/

/-- C16 fails on the code. Purging the block group of the sample chunk from a
leaf that holds an 8 KiB extent item, the block-group item and a metadata item,
with 4 KiB leaves and bytes_used at 1000000: both extent entries are deleted and
the block-group item is kept, but bytes_used goes up by 8192 + 4096 to 1012288
where the bytes reclaimed would bring it down to 987712. -/
theorem block_group_remove_all_extent_items_adds :
    block_group_remove_all_extent_items 4096 4096 (sample_block_group 5) sample_extent_leaf
      1000000 8 =
      some (0, [{ objectid := 1048576, type := BTRFS_BLOCK_GROUP_ITEM_KEY,
                  offset := 4194304 }], 1012288) ∧
    (1012288 : Nat) = 1000000 + (8192 + 4096) ∧
    (1012288 : Nat) ≠ 1000000 - (8192 + 4096) := by
  refine ⟨by decide, by decide, by decide⟩

/-! ## Cross-check status -/

/-- C17 fails on the code, by the defect of C7. One good chunk whose check
returns -ENOENT and one previously bad chunk whose block group is found with
matching flags (block-group-only result 0, to count as -EINVAL): the walk over
the good list moves the good chunk to the orphan list and steps onto the orphan
head (address 3), so the routine never reaches the bad list and returns no
status. -/
theorem check_all_chunks_by_metadata_no_status :
    check_chunk_by_metadata bad_chunk_trees (sample_chunk 5 0) 0 = -ENOENT ∧
    check_chunk_by_metadata bad_chunk_trees (chunk_at 5 8388608 4194304) 1 = 0 ∧
    list_entries good_and_bad_memory 1 8 (good_and_bad_memory 1).next = [10] ∧
    list_entries good_and_bad_memory 2 8 (good_and_bad_memory 2).next = [20] ∧
    ∀ fuel, check_all_chunks_by_metadata bad_chunk_trees good_and_bad_at 1 2 3
      good_and_bad_memory (fuel + 2) = list_walk.stray 3 := by
  refine ⟨by decide, by decide, by decide, by decide, ?_⟩
  intro fuel
  rfl

/-- Where no good chunk is demoted the routine does return: with the healthy
sample chunk as the one good chunk and the data chunk at 8 MiB, whose block
group resolves, as the one bad chunk, the status is -EINVAL. -/
theorem check_all_chunks_by_metadata_healthy :
    ∃ mem, check_all_chunks_by_metadata
      { dev_root := sample_trees.dev_root, extent_root := fun key =>
          if key.objectid = 8388608 then (0, { used := 0, flags := 1 })
          else sample_trees.extent_root key }
      good_and_bad_at 1 2 3 good_and_bad_memory 4 = list_walk.done (-EINVAL, mem) :=
  ⟨_, rfl⟩

/-! ## Scan termination -/

theorem pread64_full (fd : device_image) (count bytenr : Nat) (hcount : 0 < count)
    (h : count ≤ pread64 fd count bytenr) : bytenr + count ≤ fd.size := by
  unfold pread64 at h
  by_cases hs : fd.size ≤ bytenr
  · rw [if_pos hs] at h; omega
  · rw [if_neg hs] at h
    have := le_trans h (min_le_right _ _)
    omega

theorem read_offset_bounds (rc : recover_control) (bytenr : Nat)
    (hb : bytenr + rc.sectorsize < 2 ^ 64) :
    bytenr ≤ read_offset rc bytenr ∧ read_offset rc bytenr ≤ bytenr + rc.sectorsize := by
  unfold read_offset
  by_cases hs : is_super_block_address bytenr = true
  · rw [if_pos hs, Nat.mod_eq_of_lt hb]; omega
  · rw [if_neg hs]; omega

theorem scan_one_device_loop_terminates (lib : scan_library) (fd : device_image)
    (rc0 : recover_control) (hsector : 0 < rc0.sectorsize) (hleaf : 0 < rc0.leafsize)
    (hsector32 : rc0.sectorsize < 2 ^ 32) (hleaf32 : rc0.leafsize < 2 ^ 32)
    (hsize : fd.size < 2 ^ 63) :
    ∀ (fuel : Nat) (rc : recover_control) (bytenr : Nat) (log : scan_log),
      same_config rc0 rc → bytenr ≤ fd.size + 2 ^ 32 → fd.size + 1 < fuel + bytenr →
      0 < fuel → (∀ x ∈ log.reads, x < bytenr) → log.reads.Pairwise (fun a b => a < b) →
      (∀ x ∈ log.reads, rc0.leafsize ≤ pread64 fd rc0.leafsize x) →
      ∃ ret rc2 log2, scan_one_device_loop lib fd fuel rc bytenr log = (some ret, rc2, log2) ∧
        log2.reads.Pairwise (fun a b => a < b) ∧
        ∀ x ∈ log2.reads.dropLast, rc0.leafsize ≤ pread64 fd rc0.leafsize x := by
  intro fuel
  induction fuel with
  | zero => intro rc bytenr log _ _ _ hf; omega
  | succ f ih =>
    intro rc bytenr log hc hbound hfuel _ hlt hpw hfullall
    have hsec : rc.sectorsize = rc0.sectorsize := hc.2.2.1
    have hlf : rc.leafsize = rc0.leafsize := hc.2.2.2.1
    have hro := read_offset_bounds rc bytenr (by rw [hsec]; omega)
    have hpw2 : (log.reads ++ [read_offset rc bytenr]).Pairwise (fun a b => a < b) := by
      rw [List.pairwise_append]
      refine ⟨hpw, List.pairwise_singleton _ _, ?_⟩
      intro a ha b hb
      simp at hb
      rw [hb]
      exact lt_of_lt_of_le (hlt a ha) hro.1
    rcases scan_one_device_loop_step lib fd f rc bytenr log with
      ⟨ret, rc1, e, h⟩ | ⟨hfull, rc1, b1, e, hc1, hb1, h⟩
    · refine ⟨ret, rc1, _, h, hpw2, ?_⟩
      intro x hx
      simp only [List.dropLast_concat] at hx
      exact hfullall x hx
    · rw [h]
      rw [hlf] at hfull
      have hfit := pread64_full fd rc0.leafsize (read_offset rc bytenr) hleaf hfull
      have hb1gt : read_offset rc bytenr < b1 ∧ b1 ≤ fd.size + 2 ^ 32 := by
        rcases hb1 with hb1 | hb1
        · rw [hsec, Nat.mod_eq_of_lt (by omega)] at hb1
          omega
        · rw [hlf, Nat.mod_eq_of_lt (by omega)] at hb1
          omega
      obtain ⟨ret, rc2, log2, hrun, hsorted, hfulls⟩ := ih rc1 b1
        { reads := log.reads ++ [read_offset rc bytenr], extracted := e }
        (same_config_trans _ _ _ hc hc1) hb1gt.2 (by omega) (by omega)
        (by
          intro x hx
          rcases List.mem_append.mp hx with hx | hx
          · exact lt_trans (lt_of_lt_of_le (hlt x hx) hro.1) hb1gt.1
          · simp at hx; rw [hx]; exact hb1gt.1)
        hpw2
        (by
          intro x hx
          rcases List.mem_append.mp hx with hx | hx
          · exact hfullall x hx
          · simp at hx; rw [hx]; exact hfull)
      exact ⟨ret, rc2, log2, hrun, hsorted, hfulls⟩

/-- C18: for every device image (of a size an `off_t` can hold) and every
recovery state with sectorsize > 0 and leafsize > 0 (both 32-bit),
scan_one_device terminates: given as many passes as the device has bytes, and
two more, it returns a status. The offsets it reads at increase strictly, and
every read but the last yields a full leaf, so the loop is left at the first
short read unless a submission fails before. -/
theorem scan_one_device_terminates (lib : scan_library) (rc : recover_control)
    (fd : device_image) (fuel : Nat)
    (hsector : 0 < rc.sectorsize) (hleaf : 0 < rc.leafsize)
    (hsector32 : rc.sectorsize < 2 ^ 32) (hleaf32 : rc.leafsize < 2 ^ 32)
    (hsize : fd.size < 2 ^ 63) (hfuel : fd.size + 2 ≤ fuel) :
    ∃ ret rc2 log, scan_one_device lib rc fd fuel = (some ret, rc2, log) ∧
      log.reads.Pairwise (fun a b => a < b) ∧
      ∀ x ∈ log.reads.dropLast, rc.leafsize ≤ pread64 fd rc.leafsize x :=
  scan_one_device_loop_terminates lib fd rc hsector hleaf hsector32 hleaf32 hsize fuel rc 0
    { reads := [], extracted := [] } (same_config_refl rc) (by omega) (by omega) (by omega)
    (by simp) (by simp) (by simp)

/-- C18, on the sample device of 12288 bytes with 4 KiB sectors and leaves. -/
theorem scan_one_device_terminates_witness :
    ∃ ret rc2 log, scan_one_device sample_library sample_recover_control sample_device
        12290 = (some ret, rc2, log) ∧
      log.reads.Pairwise (fun a b => a < b) ∧
      ∀ x ∈ log.reads.dropLast, sample_recover_control.leafsize ≤
        pread64 sample_device sample_recover_control.leafsize x :=
  scan_one_device_terminates sample_library sample_recover_control sample_device 12290
    (by decide) (by decide) (by decide) (by decide) (by decide) (by decide)

/-- The superblock mirror offsets that the scan steps over are 64 KiB, 64 MiB
and 256 GiB. -/
theorem is_super_block_address_iff (offset : Nat) :
    is_super_block_address offset = true ↔
      (offset = 65536 ∨ offset = 67108864 ∨ offset = 274877906944) := by
  have h0 : btrfs_sb_offset 0 = 65536 := by decide
  have h1 : btrfs_sb_offset 1 = 67108864 := by decide
  have h2 : btrfs_sb_offset 2 = 274877906944 := by decide
  have hr : List.range BTRFS_SUPER_MIRROR_MAX = [0, 1, 2] := by decide
  simp [is_super_block_address, hr, h0, h1, h2]

/-! ## Opening the trees with the chunks in memory -/

theorem build_map_stripes_absent (fs_devices : btrfs_fs_devices) (chunk : chunk_record) :
    ∀ (n i j : Nat), i ≤ j → j < i + n →
      btrfs_find_device fs_devices (chunk.stripes.getD j default).devid
        (chunk.stripes.getD j default).dev_uuid = none →
      build_map_stripes fs_devices chunk n i = none := by
  intro n
  induction n with
  | zero => intro i j h1 h2; omega
  | succ n ih =>
    intro i j h1 h2 hnone
    simp only [build_map_stripes]
    by_cases hji : j = i
    · rw [hji] at hnone
      rw [hnone]
    · cases hfind : btrfs_find_device fs_devices (chunk.stripes.getD i default).devid
          (chunk.stripes.getD i default).dev_uuid with
      | none => rfl
      | some dev =>
        simp only []
        rw [ih (i + 1) j (by omega) (by omega) hnone]
        rfl

/-- A good chunk with a stripe on a device that is not found makes
build_device_map_by_chunk_record return -EIO, and with it
open_ctree_with_broken_chunk when that chunk is the first good chunk and the
earlier steps succeed. -/
theorem open_ctree_with_broken_chunk_absent_device (lib : open_library)
    (rc : recover_control) (chunk : chunk_record) (rest : List chunk_record) (j : Nat)
    (hgood : rc.good_chunks = chunk :: rest) (hj : j < chunk.num_stripes)
    (habsent : btrfs_find_device rc.fs_devices (chunk.stripes.getD j default).devid
      (chunk.stripes.getD j default).dev_uuid = none)
    (hinfo : lib.btrfs_new_fs_info = true) (hopen : lib.btrfs_open_devices rc.fs_devices = 0)
    (hsuper : lib.btrfs_read_dev_super = 0) (hcompat : lib.btrfs_check_fs_compatibility = 0) :
    (open_ctree_with_broken_chunk lib rc).1 = - EIO := by
  have hmap : build_device_map_by_chunk_record rc.fs_devices [] chunk = (- EIO, []) := by
    unfold build_device_map_by_chunk_record
    rw [build_map_stripes_absent rc.fs_devices chunk _ 0 j (by omega) (by omega) habsent]
  have hne : (- EIO : Int) ≠ 0 := by decide
  simp [open_ctree_with_broken_chunk, hinfo, hopen, hsuper, hcompat, hgood,
    build_device_maps_by_chunk_records, hmap, hne]

/-- A run in which the one good chunk has its stripe on a device absent from the
fs-devices list: the trees cannot be opened, the driver returns -EIO and has
made none of the recorded calls. -/
theorem btrfs_recover_chunk_tree_absent_device :
    btrfs_recover_chunk_tree absent_device_phases 0 0 = (some (- EIO), []) := by
  decide

/-! ## What the scanner forwards to the stores -/

theorem scan_accepts_config (lib : scan_library) (rc0 rc : recover_control)
    (buf : extent_buffer) (hc : same_config rc0 rc) :
    scan_accepts lib rc buf ↔ scan_accepts lib rc0 buf := by
  unfold same_config at hc
  unfold scan_accepts
  rw [hc.1, hc.2.1, hc.2.2.2.2.1, hc.2.2.2.2.2]

/-- One pass of the scan loop, by whether the block read passes the acceptance
test. A block that does not, or is not read in full, leaves the state as it
was: the loop is left with status 0 or goes on. A block read in full that does
is handed to extract_metadata_record: a non-zero status ends the scan in the
state that call left, status 0 goes on from that state. -/
theorem scan_one_device_loop_pass (lib : scan_library) (fd : device_image) (f : Nat)
    (rc : recover_control) (bytenr : Nat) (log : scan_log) :
    (¬ (rc.leafsize ≤ pread64 fd rc.leafsize (read_offset rc bytenr) ∧
          scan_accepts lib rc (fd.block (read_offset rc bytenr))) ∧
      (scan_one_device_loop lib fd (f + 1) rc bytenr log =
          (some 0, rc, { reads := log.reads ++ [read_offset rc bytenr],
                         extracted := log.extracted }) ∨
        ∃ b1, scan_one_device_loop lib fd (f + 1) rc bytenr log =
          scan_one_device_loop lib fd f rc b1
            { reads := log.reads ++ [read_offset rc bytenr],
              extracted := log.extracted })) ∨
    ((rc.leafsize ≤ pread64 fd rc.leafsize (read_offset rc bytenr) ∧
          scan_accepts lib rc (fd.block (read_offset rc bytenr))) ∧
      ∃ ret rc1,
        extract_metadata_record lib rc (fd.block (read_offset rc bytenr)) = some (ret, rc1) ∧
        ((ret ≠ 0 ∧ scan_one_device_loop lib fd (f + 1) rc bytenr log =
            (some ret, rc1, { reads := log.reads ++ [read_offset rc bytenr],
                              extracted := log.extracted ++ [read_offset rc bytenr] })) ∨
          (ret = 0 ∧ ∃ b1, scan_one_device_loop lib fd (f + 1) rc bytenr log =
            scan_one_device_loop lib fd f rc1 b1
              { reads := log.reads ++ [read_offset rc bytenr],
                extracted := log.extracted ++ [read_offset rc bytenr] }))) := by
  generalize hL : scan_one_device_loop lib fd (f + 1) rc bytenr log = L
  simp only [scan_one_device_loop] at hL
  rw [show (if is_super_block_address bytenr = true then (bytenr + rc.sectorsize) % 2 ^ 64
    else bytenr) = read_offset rc bytenr from rfl] at hL
  have hCE : BTRFS_CHUNK_TREE_OBJECTID ≠ BTRFS_EXTENT_TREE_OBJECTID := by decide
  have hCD : BTRFS_CHUNK_TREE_OBJECTID ≠ BTRFS_DEV_TREE_OBJECTID := by decide
  obtain ⟨q, hex⟩ := extract_metadata_record_from_total lib
    (fd.block (read_offset rc bytenr)) (fd.block (read_offset rc bytenr)).nritems 0 rc
  obtain ⟨r1, rc1⟩ := q
  have hex2 : extract_metadata_record lib rc (fd.block (read_offset rc bytenr)) =
      some (r1, rc1) := hex
  by_cases hshort : pread64 fd rc.leafsize (read_offset rc bytenr) < rc.leafsize
  · rw [if_pos hshort] at hL
    exact Or.inl ⟨fun hx => absurd hx.1 (by omega), Or.inl hL.symm⟩
  rw [if_neg hshort] at hL
  have hfull : rc.leafsize ≤ pread64 fd rc.leafsize (read_offset rc bytenr) := by omega
  by_cases hfsid : (fd.block (read_offset rc bytenr)).fsid ≠ rc.fs_devices.fsid
  · rw [if_pos hfsid] at hL
    exact Or.inl ⟨fun hx => hfsid hx.2.1, Or.inr ⟨_, hL.symm⟩⟩
  rw [if_neg hfsid] at hL
  by_cases hcsum : lib.verify_tree_block_csum_silent (fd.block (read_offset rc bytenr))
      rc.csum_size ≠ 0
  · rw [if_pos hcsum] at hL
    exact Or.inl ⟨fun hx => hcsum hx.2.2.1, Or.inr ⟨_, hL.symm⟩⟩
  rw [if_neg hcsum] at hL
  by_cases hlevel : (fd.block (read_offset rc bytenr)).level ≠ 0
  · rw [if_pos hlevel] at hL
    exact Or.inl ⟨fun hx => hlevel hx.2.2.2.1, Or.inr ⟨_, hL.symm⟩⟩
  rw [if_neg hlevel] at hL
  have hfsid2 : (fd.block (read_offset rc bytenr)).fsid = rc.fs_devices.fsid := by
    by_contra hk; exact hfsid hk
  have hcsum2 : lib.verify_tree_block_csum_silent (fd.block (read_offset rc bytenr))
      rc.csum_size = 0 := by
    by_contra hk; exact hcsum hk
  have hlevel2 : (fd.block (read_offset rc bytenr)).level = 0 := by
    by_contra hk; exact hlevel hk
  by_cases howner : (fd.block (read_offset rc bytenr)).owner = BTRFS_EXTENT_TREE_OBJECTID ∨
      (fd.block (read_offset rc bytenr)).owner = BTRFS_DEV_TREE_OBJECTID
  · rw [if_pos howner] at hL
    by_cases hgen : (fd.block (read_offset rc bytenr)).generation > rc.generation
    · rw [if_pos hgen] at hL
      refine Or.inl ⟨?_, Or.inr ⟨_, hL.symm⟩⟩
      rintro ⟨_, _, _, _, hx | hx⟩
      · omega
      · rcases howner with ho | ho
        · rw [ho] at hx; exact hCE hx.1.symm
        · rw [ho] at hx; exact hCD hx.1.symm
    · rw [if_neg hgen, hex2] at hL
      simp only [] at hL
      refine Or.inr ⟨⟨hfull, hfsid2, hcsum2, hlevel2, Or.inl ⟨howner, by omega⟩⟩, r1, rc1,
        hex2, ?_⟩
      by_cases hr : r1 ≠ 0
      · rw [if_pos hr] at hL
        exact Or.inl ⟨hr, hL.symm⟩
      · rw [if_neg hr] at hL
        exact Or.inr ⟨by by_contra hk; exact hr hk, _, hL.symm⟩
  · rw [if_neg howner] at hL
    by_cases hchunk : (fd.block (read_offset rc bytenr)).owner = BTRFS_CHUNK_TREE_OBJECTID
    · rw [if_pos hchunk] at hL
      by_cases hgen : (fd.block (read_offset rc bytenr)).generation >
          rc.chunk_root_generation
      · rw [if_pos hgen] at hL
        refine Or.inl ⟨?_, Or.inr ⟨_, hL.symm⟩⟩
        rintro ⟨_, _, _, _, hx | hx⟩
        · exact howner hx.1
        · omega
      · rw [if_neg hgen, hex2] at hL
        simp only [] at hL
        refine Or.inr ⟨⟨hfull, hfsid2, hcsum2, hlevel2, Or.inr ⟨hchunk, by omega⟩⟩, r1, rc1,
          hex2, ?_⟩
        by_cases hr : r1 ≠ 0
        · rw [if_pos hr] at hL
          exact Or.inl ⟨hr, hL.symm⟩
        · rw [if_neg hr] at hL
          exact Or.inr ⟨by by_contra hk; exact hr hk, _, hL.symm⟩
    · rw [if_neg hchunk] at hL
      refine Or.inl ⟨?_, Or.inr ⟨_, hL.symm⟩⟩
      rintro ⟨_, _, _, _, hx | hx⟩
      · exact howner hx.1
      · exact hchunk hx.1

/-- A scan changes only the stores: the state it leaves has the configuration
it started with. -/
theorem scan_one_device_loop_config (lib : scan_library) (fd : device_image) :
    ∀ (fuel : Nat) (rc : recover_control) (bytenr : Nat) (log : scan_log),
      same_config rc (scan_one_device_loop lib fd fuel rc bytenr log).2.1 := by
  intro fuel
  induction fuel with
  | zero => intro rc bytenr log; exact same_config_refl rc
  | succ f ih =>
    intro rc bytenr log
    rcases scan_one_device_loop_pass lib fd f rc bytenr log with
      ⟨_, h | ⟨b1, h⟩⟩ | ⟨_, ret, rc1, hex, ⟨_, h⟩ | ⟨_, b1, h⟩⟩
    · rw [h]; exact same_config_refl rc
    · rw [h]; exact ih rc b1 _
    · rw [h]; exact extract_metadata_record_from_config lib _ _ _ _ _ _ hex
    · rw [h]
      exact same_config_trans _ _ _
        (extract_metadata_record_from_config lib _ _ _ _ _ _ hex) (ih rc1 b1 _)

/-- The stores after a scan, from any point of it: the reads made from there on
are `rest`, the blocks forwarded are those of `rest` that pass the acceptance
test, and the state is what handing exactly those blocks, in that order, to
extract_metadata_record makes of the state at that point. -/
theorem scan_one_device_loop_stores (lib : scan_library) (fd : device_image)
    (rc0 : recover_control) (accepted : Nat → Bool)
    (haccepted : ∀ b, accepted b = true ↔
      (rc0.leafsize ≤ pread64 fd rc0.leafsize b ∧ scan_accepts lib rc0 (fd.block b))) :
    ∀ (fuel : Nat) (rc : recover_control) (bytenr : Nat) (log : scan_log),
      same_config rc0 rc →
      ∃ rest,
        (scan_one_device_loop lib fd fuel rc bytenr log).2.2.reads = log.reads ++ rest ∧
        (scan_one_device_loop lib fd fuel rc bytenr log).2.2.extracted =
          log.extracted ++ rest.filter accepted ∧
        (scan_one_device_loop lib fd fuel rc bytenr log).2.1 =
          forward_blocks lib fd (rest.filter accepted) rc := by
  intro fuel
  induction fuel with
  | zero =>
    intro rc bytenr log _
    exact ⟨[], by simp [scan_one_device_loop], by simp [scan_one_device_loop], rfl⟩
  | succ f ih =>
    intro rc bytenr log hc
    have hacc : accepted (read_offset rc bytenr) = true ↔
        (rc.leafsize ≤ pread64 fd rc.leafsize (read_offset rc bytenr) ∧
          scan_accepts lib rc (fd.block (read_offset rc bytenr))) := by
      rw [haccepted, scan_accepts_config lib rc0 rc _ hc, hc.2.2.2.1]
    rcases scan_one_device_loop_pass lib fd f rc bytenr log with
      ⟨hno, h | ⟨b1, h⟩⟩ | ⟨hyes, ret, rc1, hex, ⟨_, h⟩ | ⟨_, b1, h⟩⟩
    · have hf : accepted (read_offset rc bytenr) = false := by
        cases hv : accepted (read_offset rc bytenr) with
        | false => rfl
        | true => exact absurd (hacc.mp hv) hno
      rw [h]
      exact ⟨[read_offset rc bytenr], rfl, by simp [List.filter_cons, hf],
        by simp [List.filter_cons, hf, forward_blocks]⟩
    · have hf : accepted (read_offset rc bytenr) = false := by
        cases hv : accepted (read_offset rc bytenr) with
        | false => rfl
        | true => exact absurd (hacc.mp hv) hno
      obtain ⟨rest, h1, h2, h3⟩ := ih rc b1
        { reads := log.reads ++ [read_offset rc bytenr], extracted := log.extracted } hc
      rw [h]
      refine ⟨read_offset rc bytenr :: rest, ?_, ?_, ?_⟩
      · rw [h1]; simp
      · rw [h2]; simp [List.filter_cons, hf]
      · rw [h3]; simp [List.filter_cons, hf]
    · have ht : accepted (read_offset rc bytenr) = true := hacc.mpr hyes
      rw [h]
      refine ⟨[read_offset rc bytenr], rfl, by simp [List.filter_cons, ht], ?_⟩
      simp [List.filter_cons, ht, forward_blocks, hex]
    · have ht : accepted (read_offset rc bytenr) = true := hacc.mpr hyes
      obtain ⟨rest, h1, h2, h3⟩ := ih rc1 b1
        { reads := log.reads ++ [read_offset rc bytenr],
          extracted := log.extracted ++ [read_offset rc bytenr] }
        (same_config_trans _ _ _ hc
          (extract_metadata_record_from_config lib _ _ _ _ _ _ hex))
      rw [h]
      refine ⟨read_offset rc bytenr :: rest, ?_, ?_, ?_⟩
      · rw [h1]; simp
      · rw [h2]; simp [List.filter_cons, ht]
      · rw [h3]; simp [List.filter_cons, ht, forward_blocks, hex]

/-- C6: the stores after scan_one_device, however long it ran, are exactly what
handing to extract_metadata_record, in read order, the blocks it read in full
whose filesystem UUID equals the target fsid, whose checksum verifies, whose
level is 0, and whose owner is the extent tree or the device tree with
generation at most rc.generation, or the chunk tree with generation at most
rc.chunk_root_generation, makes of the stores it started with: the items of
such a block are submitted and those of no other block are. The blocks recorded
as forwarded are that same list. In particular, when no block read bears the
target fsid, the state is left as it was. Membership in the forwarded blocks is
the acceptance test on a block read. -/
theorem scan_one_device_forwards_iff (lib : scan_library) (rc : recover_control)
    (fd : device_image) (fuel : Nat) :
    (scan_one_device lib rc fd fuel).2.1 =
      forward_blocks lib fd
        ((scan_one_device lib rc fd fuel).2.2.reads.filter (fun bytenr => decide
          (rc.leafsize ≤ pread64 fd rc.leafsize bytenr ∧
           (fd.block bytenr).fsid = rc.fs_devices.fsid ∧
           lib.verify_tree_block_csum_silent (fd.block bytenr) rc.csum_size = 0 ∧
           (fd.block bytenr).level = 0 ∧
           ((((fd.block bytenr).owner = BTRFS_EXTENT_TREE_OBJECTID ∨
                (fd.block bytenr).owner = BTRFS_DEV_TREE_OBJECTID) ∧
              (fd.block bytenr).generation ≤ rc.generation) ∨
            ((fd.block bytenr).owner = BTRFS_CHUNK_TREE_OBJECTID ∧
              (fd.block bytenr).generation ≤ rc.chunk_root_generation))))) rc ∧
    (scan_one_device lib rc fd fuel).2.2.extracted =
      (scan_one_device lib rc fd fuel).2.2.reads.filter (fun bytenr => decide
        (rc.leafsize ≤ pread64 fd rc.leafsize bytenr ∧
         (fd.block bytenr).fsid = rc.fs_devices.fsid ∧
         lib.verify_tree_block_csum_silent (fd.block bytenr) rc.csum_size = 0 ∧
         (fd.block bytenr).level = 0 ∧
         ((((fd.block bytenr).owner = BTRFS_EXTENT_TREE_OBJECTID ∨
              (fd.block bytenr).owner = BTRFS_DEV_TREE_OBJECTID) ∧
            (fd.block bytenr).generation ≤ rc.generation) ∨
          ((fd.block bytenr).owner = BTRFS_CHUNK_TREE_OBJECTID ∧
            (fd.block bytenr).generation ≤ rc.chunk_root_generation)))) ∧
    ((∀ bytenr ∈ (scan_one_device lib rc fd fuel).2.2.reads,
        (fd.block bytenr).fsid ≠ rc.fs_devices.fsid) →
      (scan_one_device lib rc fd fuel).2.1 = rc) ∧
    (∀ bytenr, bytenr ∈ (scan_one_device lib rc fd fuel).2.2.extracted ↔
      (bytenr ∈ (scan_one_device lib rc fd fuel).2.2.reads ∧
       rc.leafsize ≤ pread64 fd rc.leafsize bytenr ∧
       (fd.block bytenr).fsid = rc.fs_devices.fsid ∧
       lib.verify_tree_block_csum_silent (fd.block bytenr) rc.csum_size = 0 ∧
       (fd.block bytenr).level = 0 ∧
       ((((fd.block bytenr).owner = BTRFS_EXTENT_TREE_OBJECTID ∨
            (fd.block bytenr).owner = BTRFS_DEV_TREE_OBJECTID) ∧
          (fd.block bytenr).generation ≤ rc.generation) ∨
        ((fd.block bytenr).owner = BTRFS_CHUNK_TREE_OBJECTID ∧
          (fd.block bytenr).generation ≤ rc.chunk_root_generation)))) := by
  obtain ⟨rest, h1, h2, h3⟩ := scan_one_device_loop_stores lib fd rc
    (fun bytenr => decide
      (rc.leafsize ≤ pread64 fd rc.leafsize bytenr ∧
       (fd.block bytenr).fsid = rc.fs_devices.fsid ∧
       lib.verify_tree_block_csum_silent (fd.block bytenr) rc.csum_size = 0 ∧
       (fd.block bytenr).level = 0 ∧
       ((((fd.block bytenr).owner = BTRFS_EXTENT_TREE_OBJECTID ∨
            (fd.block bytenr).owner = BTRFS_DEV_TREE_OBJECTID) ∧
          (fd.block bytenr).generation ≤ rc.generation) ∨
        ((fd.block bytenr).owner = BTRFS_CHUNK_TREE_OBJECTID ∧
          (fd.block bytenr).generation ≤ rc.chunk_root_generation))))
    (fun b => by rw [decide_eq_true_iff]; rfl)
    fuel rc 0 { reads := [], extracted := [] } (same_config_refl rc)
  have hreads : (scan_one_device lib rc fd fuel).2.2.reads = rest := by
    unfold scan_one_device; rw [h1]; rfl
  refine ⟨?_, ?_, ?_, ?_⟩
  · rw [hreads]; exact h3
  · rw [hreads]
    unfold scan_one_device; rw [h2]; rfl
  · intro hforeign
    rw [hreads] at hforeign
    have hnil : rest.filter (fun bytenr => decide
        (rc.leafsize ≤ pread64 fd rc.leafsize bytenr ∧
         (fd.block bytenr).fsid = rc.fs_devices.fsid ∧
         lib.verify_tree_block_csum_silent (fd.block bytenr) rc.csum_size = 0 ∧
         (fd.block bytenr).level = 0 ∧
         ((((fd.block bytenr).owner = BTRFS_EXTENT_TREE_OBJECTID ∨
              (fd.block bytenr).owner = BTRFS_DEV_TREE_OBJECTID) ∧
            (fd.block bytenr).generation ≤ rc.generation) ∨
          ((fd.block bytenr).owner = BTRFS_CHUNK_TREE_OBJECTID ∧
            (fd.block bytenr).generation ≤ rc.chunk_root_generation)))) = [] := by
      rw [List.filter_eq_nil_iff]
      intro b hb
      rw [decide_eq_true_iff]
      exact fun hx => hforeign b hb hx.2.1
    unfold scan_one_device
    rw [h3, hnil]
    rfl
  · exact scan_one_device_loop_log lib fd rc fuel rc 0 { reads := [], extracted := [] }
      (same_config_refl rc) (fun b => by simp)

/-- The sample device again, over the stores: the leaf at 4096 bears another
filesystem UUID and the leaf at 8192 is newer than the chunk root, so the state
after the scan is the one extract_metadata_record makes of the first leaf
alone, and a device whose every block is foreign leaves the stores empty. -/
theorem scan_one_device_stores_sample :
    (scan_one_device sample_library sample_recover_control sample_device 10).2.1.chunk =
      (forward_blocks sample_library sample_device [0] sample_recover_control).chunk ∧
    (scan_one_device sample_library sample_recover_control foreign_device 10).2.1.chunk =
      [] ∧
    (scan_one_device sample_library sample_recover_control foreign_device 10).2.1.bg.tree =
      [] ∧
    (scan_one_device sample_library sample_recover_control foreign_device
      10).2.1.devext.tree = [] := by
  refine ⟨by decide, by decide, by decide, by decide⟩

/-! ## Scanner error semantics -/

/-- With sector and leaf sizes above zero and every member device that opens
given as many passes as it has bytes, and two more, the loop of scan_devices
returns a status. -/
theorem scan_devices_from_terminates (lib : scan_library) (rc0 : recover_control)
    (fuel : Nat) (hsector : 0 < rc0.sectorsize) (hleaf : 0 < rc0.leafsize)
    (hsector32 : rc0.sectorsize < 2 ^ 32) (hleaf32 : rc0.leafsize < 2 ^ 32) :
    ∀ (devices : List btrfs_device) (rc : recover_control), same_config rc0 rc →
      (∀ dev ∈ devices, ∀ fd, dev.image = some fd →
        fd.size < 2 ^ 63 ∧ fd.size + 2 ≤ fuel) →
      ∃ ret rc2, scan_devices_from lib fuel devices rc = (some ret, rc2) := by
  intro devices
  induction devices with
  | nil => intro rc _ _; exact ⟨0, rc, rfl⟩
  | cons dev rest ih =>
    intro rc hc hdev
    cases himg : dev.image with
    | none =>
      simp only [scan_devices_from, himg]
      exact ⟨-1, rc, rfl⟩
    | some fd =>
      have hfd := hdev dev (List.mem_cons_self _ _) fd himg
      obtain ⟨ret, rc1, log, hrun, _, _⟩ := scan_one_device_loop_terminates lib fd rc0
        hsector hleaf hsector32 hleaf32 hfd.1 fuel rc 0 { reads := [], extracted := [] } hc
        (by omega) (by omega) (by omega) (by simp) (by simp) (by simp)
      have hscan : scan_one_device lib rc fd fuel = (some ret, rc1, log) := hrun
      have hc1 : same_config rc rc1 := by
        have := scan_one_device_loop_config lib fd fuel rc 0 { reads := [], extracted := [] }
        rw [hrun] at this
        exact this
      simp only [scan_devices_from, himg, hscan]
      by_cases hr : ret ≠ 0
      · rw [if_pos hr]; exact ⟨ret, rc1, rfl⟩
      · rw [if_neg hr]
        exact ih rc1 (same_config_trans _ _ _ hc hc1)
          (fun d hd => hdev d (List.mem_cons_of_mem _ hd))

/-- C14: scanner error semantics, at the three levels: the shape of every
result, and that a result is produced.
Items: when extract_metadata_record returns, either the status is 0 and every
item of the leaf was processed with status 0, or the status is the first
non-zero status of a submission and the state is the one that submission left,
no later item being processed.
Blocks: when scan_one_device returns, after some passes that each read a full
block and had no failing submission, either the read was short and it returns 0
with the state unchanged, or a submission of the block just read failed and it
returns that status with the state extract_metadata_record left, that block
being the last one read.
Devices: when scan_devices returns, either the status is 0 and every device was
opened and scanned with status 0, or the devices before some device were each
scanned with status 0, and that device either could not be opened (status -1)
or its scan returned the status; the state is the one that scan left and no
later device is opened.
Termination: extract_metadata_record always returns; with sectorsize > 0 and
leafsize > 0 (both 32-bit) and a device of a size an `off_t` can hold,
scan_one_device returns a status once given as many passes as the device has
bytes, and two more; and scan_devices returns a status when that holds of every
member device that opens. -/
theorem scan_error_semantics (lib : scan_library) :
    (∀ (rc : recover_control) (leaf : extent_buffer) (ret : Int) (rc2 : recover_control),
      extract_metadata_record lib rc leaf = some (ret, rc2) →
      (ret = 0 ∧ items_pass lib leaf leaf.nritems 0 rc rc2) ∨
      (ret ≠ 0 ∧ ∃ k rc_k, k < leaf.nritems ∧ items_pass lib leaf k 0 rc rc_k ∧
        process_item lib leaf k rc_k = some (ret, rc2))) ∧
    (∀ (rc : recover_control) (fd : device_image) (fuel : Nat) (ret : Int)
      (rc2 : recover_control) (log2 : scan_log),
      scan_one_device lib rc fd fuel = (some ret, rc2, log2) →
      ∃ k rc_k b_k log_k,
        scan_passes lib fd k rc 0 { reads := [], extracted := [] } rc_k b_k log_k ∧
        ((ret = 0 ∧ pread64 fd rc_k.leafsize (read_offset rc_k b_k) < rc_k.leafsize ∧
            rc2 = rc_k ∧
            log2 = { reads := log_k.reads ++ [read_offset rc_k b_k],
                     extracted := log_k.extracted }) ∨
          (ret ≠ 0 ∧ rc_k.leafsize ≤ pread64 fd rc_k.leafsize (read_offset rc_k b_k) ∧
            extract_metadata_record lib rc_k (fd.block (read_offset rc_k b_k)) =
              some (ret, rc2) ∧
            log2 = { reads := log_k.reads ++ [read_offset rc_k b_k],
                     extracted := log_k.extracted ++ [read_offset rc_k b_k] }))) ∧
    (∀ (rc : recover_control) (fuel : Nat) (ret : Int) (rc2 : recover_control),
      scan_devices lib rc fuel = (some ret, rc2) →
      (ret = 0 ∧ devices_pass lib fuel rc.fs_devices.devices rc rc2) ∨
      (ret ≠ 0 ∧ ∃ pre dev post rc_k, rc.fs_devices.devices = pre ++ dev :: post ∧
        devices_pass lib fuel pre rc rc_k ∧
        ((dev.image = none ∧ ret = -1 ∧ rc2 = rc_k) ∨
          ∃ fd log, dev.image = some fd ∧
            scan_one_device lib rc_k fd fuel = (some ret, rc2, log)))) ∧
    (∀ (rc : recover_control) (leaf : extent_buffer),
      ∃ ret rc2, extract_metadata_record lib rc leaf = some (ret, rc2)) ∧
    (∀ (rc : recover_control) (fd : device_image) (fuel : Nat),
      0 < rc.sectorsize → 0 < rc.leafsize → rc.sectorsize < 2 ^ 32 → rc.leafsize < 2 ^ 32 →
      fd.size < 2 ^ 63 → fd.size + 2 ≤ fuel →
      ∃ ret rc2 log2, scan_one_device lib rc fd fuel = (some ret, rc2, log2)) ∧
    (∀ (rc : recover_control) (fuel : Nat),
      0 < rc.sectorsize → 0 < rc.leafsize → rc.sectorsize < 2 ^ 32 → rc.leafsize < 2 ^ 32 →
      (∀ dev ∈ rc.fs_devices.devices, ∀ fd, dev.image = some fd →
        fd.size < 2 ^ 63 ∧ fd.size + 2 ≤ fuel) →
      ∃ ret rc2, scan_devices lib rc fuel = (some ret, rc2)) := by
  refine ⟨?_, ?_, ?_, ?_, ?_, ?_⟩
  · intro rc leaf ret rc2 h
    have := extract_metadata_record_from_outcome lib leaf leaf.nritems 0 rc ret rc2 h
    simpa using this
  · intro rc fd fuel ret rc2 log2 h
    exact scan_one_device_loop_outcome lib fd fuel rc 0 _ ret rc2 log2 h
  · intro rc fuel ret rc2 h
    exact scan_devices_from_outcome lib fuel _ rc ret rc2 h
  · intro rc leaf
    obtain ⟨q, hq⟩ := extract_metadata_record_from_total lib leaf leaf.nritems 0 rc
    exact ⟨q.1, q.2, hq⟩
  · intro rc fd fuel hsector hleaf hsector32 hleaf32 hsize hfuel
    obtain ⟨ret, rc2, log2, hrun, _, _⟩ := scan_one_device_loop_terminates lib fd rc
      hsector hleaf hsector32 hleaf32 hsize fuel rc 0 { reads := [], extracted := [] }
      (same_config_refl rc) (by omega) (by omega) (by omega) (by simp) (by simp) (by simp)
    exact ⟨ret, rc2, log2, hrun⟩
  · intro rc fuel hsector hleaf hsector32 hleaf32 hdev
    exact scan_devices_from_terminates lib rc fuel hsector hleaf hsector32 hleaf32
      rc.fs_devices.devices rc (same_config_refl rc) hdev

/-- C14, on the conflicting device of 12288 bytes: given 12290 passes the scan
returns a status, and so does the scan of the member devices; the second leaf
holds an equal-generation copy of the chunk item that differs in its stripe
offset, its submission returns -EEXIST, the scan returns -EEXIST having read two
blocks and not the third, and the scan of the member devices returns -EEXIST. -/
theorem scan_error_semantics_witness :
    (∃ ret rc2 log2, scan_one_device stripe_library sample_recover_control
      conflicting_device 12290 = (some ret, rc2, log2)) ∧
    (∃ ret rc2, scan_devices stripe_library
      { sample_recover_control with
        fs_devices := { fsid := 42, devices := conflicting_members } } 12290 =
      (some ret, rc2)) ∧
    (scan_one_device stripe_library sample_recover_control conflicting_device 10).1 =
      some (-EEXIST) ∧
    (scan_one_device stripe_library sample_recover_control conflicting_device 10).2.2 =
      { reads := [0, 4096], extracted := [0, 4096] } ∧
    (scan_devices stripe_library
      { sample_recover_control with
        fs_devices := { fsid := 42, devices := conflicting_members } } 10).1 =
      some (-EEXIST) ∧
    ∃ k rc_k b_k log_k,
      scan_passes stripe_library conflicting_device k sample_recover_control 0
        { reads := [], extracted := [] } rc_k b_k log_k ∧
      ((-EEXIST = 0 ∧
          pread64 conflicting_device rc_k.leafsize (read_offset rc_k b_k) < rc_k.leafsize ∧
          (scan_one_device stripe_library sample_recover_control conflicting_device 10).2.1 =
            rc_k ∧
          (scan_one_device stripe_library sample_recover_control conflicting_device 10).2.2 =
            { reads := log_k.reads ++ [read_offset rc_k b_k],
              extracted := log_k.extracted }) ∨
        (-EEXIST ≠ 0 ∧
          rc_k.leafsize ≤ pread64 conflicting_device rc_k.leafsize (read_offset rc_k b_k) ∧
          extract_metadata_record stripe_library rc_k
              (conflicting_device.block (read_offset rc_k b_k)) =
            some (-EEXIST,
              (scan_one_device stripe_library sample_recover_control conflicting_device
                10).2.1) ∧
          (scan_one_device stripe_library sample_recover_control conflicting_device 10).2.2 =
            { reads := log_k.reads ++ [read_offset rc_k b_k],
              extracted := log_k.extracted ++ [read_offset rc_k b_k] })) :=
  ⟨(scan_error_semantics stripe_library).2.2.2.2.1 sample_recover_control
     conflicting_device 12290 (by decide) (by decide) (by decide) (by decide) (by decide)
     (by decide),
   (scan_error_semantics stripe_library).2.2.2.2.2
     { sample_recover_control with
       fs_devices := { fsid := 42, devices := conflicting_members } } 12290
     (by decide) (by decide) (by decide) (by decide)
     (by
       intro dev hdev fd himg
       simp only [conflicting_members, List.mem_cons, List.mem_singleton,
         List.not_mem_nil, or_false] at hdev
       rcases hdev with h | h
       · rw [h] at himg
         have hfd : conflicting_device = fd := Option.some.inj himg
         rw [← hfd]; decide
       · rw [h] at himg
         have hfd : sample_device = fd := Option.some.inj himg
         rw [← hfd]; decide),
   by decide, by decide, by decide,
   (scan_error_semantics stripe_library).2.1 sample_recover_control conflicting_device 10
     (-EEXIST) _ _ (Prod.ext (by decide) rfl)⟩

end ChunkRecover
